import Mathlib

/-!
# Global segment map controller: label partition extraction and publish cycle

A shallow embedding of `Controller::extractSegmentLayers`, `Controller::publishObjects`,
`Controller::getLabelsToPublish` and `Controller::extractSegmentsCallback` from
`global_segment_map_node/src/controller.cpp`, together with the part of the voxblox
`Layer` / `Block` interface these functions use.

Conventions of the embedding:
* a `std::unordered_map` / `std::map` is an association list with unique keys (`AList`);
  iteration order of a hash map is not observable in the statements below;
* a `std::set<Label>` is a `Finset Label`;
* a pointer or reference into a container followed by a write through it is a functional
  update of the container;
* floating point payloads are only copied and compared, never computed with, and are
  carried as integers (their raw value);
* a fatal glog check (`LOG(FATAL)`, `CHECK`, `CHECK_EQ`) and a null dereference end the
  run; they are the constructors of `Fatal`;
* the number of voxels per block side (`voxels_per_side`) is the index `n` of the layer
  and block types: every block of a layer has `n * n * n` voxels, as the voxblox `Block`
  constructor guarantees.
-/

namespace voxblox_gsm

/-! ## Data model -/

/-- Segment label identifier (`Label`, an unsigned integer; `0` means unlabeled). -/
abbrev Label := Nat

/-- Semantic class tag of a segment. -/
abbrev SemanticLabel := Nat

/-- Three dimensional integer block coordinate (`BlockIndex`). -/
abbrev BlockIndex := Int × Int × Int

/-- Raw value of a floating point number (`FloatingPoint`). -/
abbrev FloatingPoint := Int

/-- Point of the world frame (`Point`). -/
structure Point where
  x : FloatingPoint
  y : FloatingPoint
  z : FloatingPoint
  deriving DecidableEq, Repr

/-- Modelled from the spec: the TSDF voxel payload (the type is declared in the voxblox
headers, which are not among the sources): signed distance, accumulated weight, color.
A freshly allocated voxel has all fields zero. -/
structure TsdfVoxel where
  distance : FloatingPoint := 0
  weight : FloatingPoint := 0
  color : Nat := 0
  deriving DecidableEq, Repr

instance : Inhabited TsdfVoxel := ⟨{}⟩

/-- Modelled from the spec: the label voxel payload (declared in `label_voxel.h`, which is
not among the sources): the label id, with `0` reserved for unlabeled voxels, plus the
accumulator data of the semantic/instance fusion. A freshly allocated voxel has label `0`
and no accumulated data. -/
structure LabelVoxel where
  label : Label := 0
  accumulators : List Nat := []
  deriving DecidableEq, Repr

instance : Inhabited LabelVoxel := ⟨{}⟩

/-- A block: `n * n * n` voxels addressed by linear index. -/
structure Block (V : Type) (n : Nat) where
  voxels : List V
  size_eq : voxels.length = n * n * n
  deriving DecidableEq

namespace Block

variable {V : Type} {n : Nat}

/-- The block a layer allocates: every voxel default constructed. -/
def fresh [Inhabited V] : Block V n :=
  ⟨List.replicate (n * n * n) default, List.length_replicate _ _⟩

/-- `Block::getVoxelByLinearIndex` used as a read. -/
def getVoxelByLinearIndex (blk : Block V n) (i : Fin (n * n * n)) : V :=
  blk.voxels.get (i.cast blk.size_eq.symm)

/-- The assignment `block->getVoxelByLinearIndex(i) = v`. -/
def setVoxelByLinearIndex (blk : Block V n) (i : Fin (n * n * n)) (v : V) : Block V n :=
  ⟨blk.voxels.set i.val v, by rw [List.length_set]; exact blk.size_eq⟩

end Block

/-- A volumetric layer: voxel size and the map from block coordinate to block. -/
structure Layer (V : Type) (n : Nat) where
  voxel_size : FloatingPoint
  block_map : AList (fun _ : BlockIndex => Block V n)
  deriving DecidableEq

namespace Layer

variable {V : Type} {n : Nat}

/-- The constructor `Layer(voxel_size, voxels_per_side)`: no block allocated. -/
def empty (voxel_size : FloatingPoint) : Layer V n :=
  ⟨voxel_size, ∅⟩

/-- `Layer::voxels_per_side`. -/
def voxels_per_side (_l : Layer V n) : Nat := n

/-- `Layer::getAllAllocatedBlocks`. -/
def getAllAllocatedBlocks (l : Layer V n) : List BlockIndex :=
  l.block_map.keys

/-- `Layer::getNumberOfAllocatedBlocks`. -/
def getNumberOfAllocatedBlocks (l : Layer V n) : Nat :=
  l.block_map.keys.length

/-- `Layer::getBlockPtrByIndex`: `none` is the null pointer. -/
def getBlockPtrByIndex (l : Layer V n) (b : BlockIndex) : Option (Block V n) :=
  l.block_map.lookup b

/-- `Layer::allocateBlockPtrByIndex`: the block at `b`, allocated fresh when absent.
Returns the layer after the call and the block pointed to. -/
def allocateBlockPtrByIndex [Inhabited V] (l : Layer V n) (b : BlockIndex) :
    Layer V n × Block V n :=
  match l.block_map.lookup b with
  | some blk => (l, blk)
  | none => ({ l with block_map := l.block_map.insert b Block.fresh }, Block.fresh)

/-- Effect on the layer of a write through a block pointer obtained for coordinate `b`. -/
def storeBlock (l : Layer V n) (b : BlockIndex) (blk : Block V n) : Layer V n :=
  { l with block_map := l.block_map.insert b blk }

/-- The set of allocated block coordinates. -/
def blockIndexSet (l : Layer V n) : Finset BlockIndex :=
  l.block_map.keys.toFinset

/-- Number of voxels of the layer that satisfy `p`, over all allocated blocks. -/
def countVoxels (p : V → Bool) (l : Layer V n) : Nat :=
  (l.block_map.entries.map (fun e => e.2.voxels.countP p)).sum

end Layer

/-- The map configuration (`map_config_`); its `voxels_per_side` is the index `n`. The
global map is constructed from it (`map_.reset(new LabelTsdfMap(map_config_))`), so the
global layers and the sub-layers have the same number of voxels per side. -/
structure MapConfig where
  voxel_size : FloatingPoint
  deriving DecidableEq

/-- The global map (`map_`): the TSDF layer and the Label layer. -/
structure LabelTsdfMap (n : Nat) where
  tsdf_layer : Layer TsdfVoxel n
  label_layer : Layer LabelVoxel n
  deriving DecidableEq

/-- The pair of sub-layers of one label (`LayerPair`). -/
abbrev LayerPair (n : Nat) := Layer TsdfVoxel n × Layer LabelVoxel n

/-- The output of the extraction (`std::unordered_map<Label, LayerPair>`). -/
abbrev LabelLayersMap (n : Nat) := AList (fun _ : Label => LayerPair n)

/-- The ways a run ends abnormally. -/
inductive Fatal where
  /-- `LOG(FATAL)` of `extractSegmentLayers`: a voxel label is not in the given list. -/
  | labelNotInList (label : Label)
  /-- Dereference of a null global block pointer in `extractSegmentLayers`. -/
  | nullBlock (block_index : BlockIndex)
  /-- `CHECK(it != label_to_layers.end())` failed. -/
  | layersNotExtracted (label : Label)
  /-- `CHECK_EQ(origin_shifted_tsdf_layer_W, origin_shifted_label_layer_W)` failed. -/
  | originMismatch (label : Label)
  /-- `CHECK_EQ(makePath("gsm_segments", 0777), 0)` failed. -/
  | makePathFailed
  deriving DecidableEq, Repr

/-! ## `Controller::extractSegmentLayers` -/

/-- `std::unordered_map::emplace`: inserts only when the key is absent. -/
def emplace {n : Nat} (m : LabelLayersMap n) (label : Label) (p : LayerPair n) :
    LabelLayersMap n :=
  match m.lookup label with
  | some _ => m
  | none => m.insert label p

/-- Body of the inner loop of `extractSegmentLayers` (lines 675-710) for the voxel with
linear index `i` of the global blocks at `block_index`. -/
def extractVoxel {n : Nat} (labels_list_is_complete : Bool) (block_index : BlockIndex)
    (global_tsdf_block : Block TsdfVoxel n) (global_label_block : Block LabelVoxel n)
    (i : Fin (n * n * n)) (label_layers_map : LabelLayersMap n) :
    Except Fatal (LabelLayersMap n) :=
  let global_label_voxel := global_label_block.getVoxelByLinearIndex i
  if global_label_voxel.label = 0 then
    .ok label_layers_map
  else
    match label_layers_map.lookup global_label_voxel.label with
    | none =>
      if labels_list_is_complete then .error (Fatal.labelNotInList global_label_voxel.label)
      else .ok label_layers_map
    | some (tsdf_layer, label_layer) =>
      let (tsdf_layer1, tsdf_block) := tsdf_layer.allocateBlockPtrByIndex block_index
      let (label_layer1, label_block) := label_layer.allocateBlockPtrByIndex block_index
      let global_tsdf_voxel := global_tsdf_block.getVoxelByLinearIndex i
      let tsdf_layer2 :=
        tsdf_layer1.storeBlock block_index (tsdf_block.setVoxelByLinearIndex i global_tsdf_voxel)
      let label_layer2 :=
        label_layer1.storeBlock block_index
          (label_block.setVoxelByLinearIndex i global_label_voxel)
      .ok (label_layers_map.insert global_label_voxel.label (tsdf_layer2, label_layer2))

/-- The loop `for (size_t i = 0; i < vps * vps * vps; ++i)` over the given indices. -/
def extractBlockVoxels {n : Nat} (labels_list_is_complete : Bool) (block_index : BlockIndex)
    (global_tsdf_block : Block TsdfVoxel n) (global_label_block : Block LabelVoxel n) :
    List (Fin (n * n * n)) → LabelLayersMap n → Except Fatal (LabelLayersMap n)
  | [], m => .ok m
  | i :: rest, m =>
    match extractVoxel labels_list_is_complete block_index global_tsdf_block
        global_label_block i m with
    | .error e => .error e
    | .ok m1 =>
      extractBlockVoxels labels_list_is_complete block_index global_tsdf_block
        global_label_block rest m1

/-- The loop `for (const BlockIndex& block_index : all_label_blocks)`. -/
def extractBlocks {n : Nat} (map : LabelTsdfMap n) (labels_list_is_complete : Bool) :
    List BlockIndex → LabelLayersMap n → Except Fatal (LabelLayersMap n)
  | [], m => .ok m
  | block_index :: rest, m =>
    match map.tsdf_layer.getBlockPtrByIndex block_index,
        map.label_layer.getBlockPtrByIndex block_index with
    | some global_tsdf_block, some global_label_block =>
      match extractBlockVoxels labels_list_is_complete block_index global_tsdf_block
          global_label_block (List.finRange (n * n * n)) m with
      | .error e => .error e
      | .ok m1 => extractBlocks map labels_list_is_complete rest m1
    | _, _ => .error (Fatal.nullBlock block_index)

/-- The first loop of `extractSegmentLayers`: one empty sub-layer pair per label. -/
def emplaceLabels {n : Nat} (map_config : MapConfig) (labels : List Label)
    (label_layers_map : LabelLayersMap n) : LabelLayersMap n :=
  labels.foldl
    (fun m label => emplace m label (Layer.empty map_config.voxel_size,
      Layer.empty map_config.voxel_size))
    label_layers_map

/-- `Controller::extractSegmentLayers`. The block list is taken from the TSDF layer, the
label blocks are looked up at the same coordinates. -/
def extractSegmentLayers {n : Nat} (map_config : MapConfig) (map : LabelTsdfMap n)
    (labels : List Label) (label_layers_map : LabelLayersMap n)
    (labels_list_is_complete : Bool) : Except Fatal (LabelLayersMap n) :=
  extractBlocks map labels_list_is_complete map.tsdf_layer.getAllAllocatedBlocks
    (emplaceLabels map_config labels label_layers_map)

/-! ### Vocabulary of the statements about the extraction -/

/-- The combined effect of `allocateBlockPtrByIndex(block_index)` followed by the
assignment of voxel `i` through the returned pointer. -/
def Layer.writeVoxel {V : Type} {n : Nat} [Inhabited V] (l : Layer V n) (b : BlockIndex)
    (i : Fin (n * n * n)) (v : V) : Layer V n :=
  (l.allocateBlockPtrByIndex b).1.storeBlock b
    ((l.allocateBlockPtrByIndex b).2.setVoxelByLinearIndex i v)

/-- The voxel read at position `(b, i)` of a layer, when the block is allocated. -/
def Layer.voxelAt {V : Type} {n : Nat} (l : Layer V n) (b : BlockIndex)
    (i : Fin (n * n * n)) : Option V :=
  (l.getBlockPtrByIndex b).map (fun blk => blk.getVoxelByLinearIndex i)

/-- The voxel at position `(b, i)` of the global Label layer carries the non-zero
label `L`. -/
def Carries {n : Nat} (map : LabelTsdfMap n) (L : Label) (b : BlockIndex)
    (i : Fin (n * n * n)) : Prop :=
  L ≠ 0 ∧ ∃ lv, map.label_layer.voxelAt b i = some lv ∧ lv.label = L

/-- The TSDF layer and the Label layer have identical allocated block coordinates. -/
def SameBlocks {n : Nat} (map : LabelTsdfMap n) : Prop :=
  map.tsdf_layer.blockIndexSet = map.label_layer.blockIndexSet

/-- State of the sub-layer pair `p` of label `L` at block coordinate `b` once the
positions `D` of the global map have been visited: either no position of the block
carrying `L` was visited and neither sub-layer has the block, or both have it and every
voxel is the copy of the global one where `L` was seen and default constructed
elsewhere. -/
def SubBlockOk {n : Nat} (map : LabelTsdfMap n)
    (D : BlockIndex → Fin (n * n * n) → Prop) (L : Label) (p : LayerPair n)
    (b : BlockIndex) : Prop :=
  (p.1.getBlockPtrByIndex b = none ∧ p.2.getBlockPtrByIndex b = none ∧
      ∀ i, D b i → ¬ Carries map L b i) ∨
  (∃ tb lb gt gl, p.1.getBlockPtrByIndex b = some tb ∧ p.2.getBlockPtrByIndex b = some lb ∧
      map.tsdf_layer.getBlockPtrByIndex b = some gt ∧
      map.label_layer.getBlockPtrByIndex b = some gl ∧
      (∃ i, D b i ∧ Carries map L b i) ∧
      ∀ j, (D b j ∧ Carries map L b j →
              tb.getVoxelByLinearIndex j = gt.getVoxelByLinearIndex j ∧
              lb.getVoxelByLinearIndex j = gl.getVoxelByLinearIndex j) ∧
           (¬ (D b j ∧ Carries map L b j) →
              tb.getVoxelByLinearIndex j = default ∧ lb.getVoxelByLinearIndex j = default))

/-- Loop invariant of the extraction after the positions `D` have been visited. -/
def ExtractInv {n : Nat} (vs : FloatingPoint) (map : LabelTsdfMap n)
    (D : BlockIndex → Fin (n * n * n) → Prop) (m : LabelLayersMap n) : Prop :=
  ∀ L p, m.lookup L = some p →
    p.1.voxel_size = vs ∧ p.2.voxel_size = vs ∧ ∀ b, SubBlockOk map D L p b

/-! ## `Controller::publishObjects` -/

/-- One surfel of the cloud extracted from a TSDF sub-layer. -/
structure Surfel where
  position : Point
  deriving DecidableEq, Repr

/-- The update record handed to the publish sink (`modelify_msgs::GsmUpdate`), layers
kept unserialized. The rotation of the transform is always the identity. -/
structure GsmUpdate (n : Nat) where
  is_scene : Bool
  label : Label
  semantic_label : SemanticLabel
  old_labels : List Label
  tsdf_layer : Layer TsdfVoxel n
  label_layer : Layer LabelVoxel n
  translation : Point
  surfel_cloud : List Surfel
  deriving DecidableEq

/-- The external collaborators of the publish cycle, taken as parameters: the voxblox
utility `utils::centerBlocksOfLayer` at its two instantiations (layer after the shift and
the new origin), `convertVoxelGridToPointCloud`, the semantic label accessor of the
integrator, `integrator_->getLabelsList()`, and, for `extractSegmentsCallback`, the mesh
conversion and the result of `makePath`. -/
structure Collaborators (n : Nat) where
  centerBlocksOfTsdfLayer : Layer TsdfVoxel n → Layer TsdfVoxel n × Point
  centerBlocksOfLabelLayer : Layer LabelVoxel n → Layer LabelVoxel n × Point
  convertVoxelGridToPointCloud : Layer TsdfVoxel n → List Surfel
  getSemanticLabel : Label → SemanticLabel
  getLabelsList : List Label
  convertLabelTsdfLayersToMesh : Layer TsdfVoxel n → Layer LabelVoxel n → Bool
  makePath : Int

/-- The members of `Controller` read or written by the publish cycle. -/
structure Controller (n : Nat) where
  map_config : MapConfig
  map : LabelTsdfMap n
  all_published_segments : Finset Label
  merges_to_publish : AList (fun _ : Label => List Label)
  segment_labels_to_publish : List Label

/-- `kMinNumberOfAllocatedBlocksToPublish`. -/
def kMinNumberOfAllocatedBlocksToPublish : Nat := 10

/-- `Controller::getLabelsToPublish`. -/
def getLabelsToPublish {n : Nat} (ext : Collaborators n) (c : Controller n)
    (get_all : Bool) : List Label :=
  if get_all then ext.getLabelsList else c.segment_labels_to_publish

/-- The state threaded through the loop of `publishObjects`: the local map
`label_to_layers` (its sub-layers are recentered in place), the two tracking members the
loop writes, the records handed to `publishGsmUpdate` so far (oldest first) and the local
`published_segment_label`. -/
structure PublishState (n : Nat) where
  label_to_layers : LabelLayersMap n
  all_published_segments : Finset Label
  merges_to_publish : AList (fun _ : Label => List Label)
  sink : List (GsmUpdate n)
  published_segment_label : Bool

/-- Lines 838-843: the loop pushing the previously published merged labels. -/
def pushMergedLabels (all_published_segments : Finset Label) :
    List Label → List Label → List Label
  | [], old_labels => old_labels
  | merged_label :: rest, old_labels =>
    if merged_label ∈ all_published_segments then
      pushMergedLabels all_published_segments rest (old_labels ++ [merged_label])
    else
      pushMergedLabels all_published_segments rest old_labels

/-- Body of the loop of `publishObjects` (lines 761-868) for one label.
`centerBlocksOfLayer` works on the sub-layers through references into `label_to_layers`,
so the recentered pair replaces the entry of the label. The mesh that is optionally
published for visualization (lines 849-866) reads the sub-layers only and is not part of
the state. -/
def publishLabel {n : Nat} (ext : Collaborators n) (st : PublishState n) (label : Label) :
    Except Fatal (PublishState n) :=
  match st.label_to_layers.lookup label with
  | none => .error (Fatal.layersNotExtracted label)
  | some (tsdf_layer, label_layer) =>
    if tsdf_layer.getNumberOfAllocatedBlocks < kMinNumberOfAllocatedBlocksToPublish then
      .ok st
    else
      let (tsdf_layer1, origin_shifted_tsdf_layer_W) := ext.centerBlocksOfTsdfLayer tsdf_layer
      let (label_layer1, origin_shifted_label_layer_W) :=
        ext.centerBlocksOfLabelLayer label_layer
      let label_to_layers1 := st.label_to_layers.insert label (tsdf_layer1, label_layer1)
      if origin_shifted_tsdf_layer_W ≠ origin_shifted_label_layer_W then
        .error (Fatal.originMismatch label)
      else
        let surfel_cloud := ext.convertVoxelGridToPointCloud tsdf_layer1
        if surfel_cloud.isEmpty then
          .ok { st with label_to_layers := label_to_layers1 }
        else
          let old_labels0 : List Label :=
            if label ∈ st.all_published_segments then [label] else []
          let (old_labels, merges) :=
            match st.merges_to_publish.lookup label with
            | some merged =>
              (pushMergedLabels st.all_published_segments merged old_labels0,
                st.merges_to_publish.erase label)
            | none => (old_labels0, st.merges_to_publish)
          let gsm_update_msg : GsmUpdate n :=
            { is_scene := false
              label := label
              semantic_label := ext.getSemanticLabel label
              old_labels := old_labels
              tsdf_layer := tsdf_layer1
              label_layer := label_layer1
              translation := origin_shifted_tsdf_layer_W
              surfel_cloud := surfel_cloud }
          .ok { label_to_layers := label_to_layers1
                all_published_segments := insert label st.all_published_segments
                merges_to_publish := merges
                sink := st.sink ++ [gsm_update_msg]
                published_segment_label := true }

/-- The loop `for (const Label& label : labels_to_publish)`: the state reached and the
fatal check that stopped the loop, if one did. -/
def publishLabels {n : Nat} (ext : Collaborators n) :
    List Label → PublishState n → PublishState n × Option Fatal
  | [], st => (st, none)
  | label :: rest, st =>
    match publishLabel ext st label with
    | .error e => (st, some e)
    | .ok st1 => publishLabels ext rest st1

/-- What a call of `publishObjects` leaves behind: the controller members, the records
handed to the publish sink during the call (in order), and either the returned boolean or
the fatal check that ended the run. -/
structure PublishResult (n : Nat) where
  controller : Controller n
  sink : List (GsmUpdate n)
  returned : Except Fatal Bool

/-- `Controller::publishObjects`. The publisher `segment_gsm_update_pub_` is taken to be
advertised, so that the `CHECK_NOTNULL` at entry passes. -/
def publishObjects {n : Nat} (ext : Collaborators n) (c : Controller n)
    (publish_all : Bool) : PublishResult n :=
  let labels_to_publish := getLabelsToPublish ext c publish_all
  match extractSegmentLayers c.map_config c.map labels_to_publish ∅ publish_all with
  | .error e => { controller := c, sink := [], returned := .error e }
  | .ok label_to_layers =>
    let st0 : PublishState n :=
      { label_to_layers := label_to_layers
        all_published_segments := c.all_published_segments
        merges_to_publish := c.merges_to_publish
        sink := []
        published_segment_label := false }
    match publishLabels ext labels_to_publish st0 with
    | (st, some e) =>
      { controller :=
          { c with
            all_published_segments := st.all_published_segments
            merges_to_publish := st.merges_to_publish }
        sink := st.sink
        returned := .error e }
    | (st, none) =>
      { controller :=
          { c with
            all_published_segments := st.all_published_segments
            merges_to_publish := st.merges_to_publish
            segment_labels_to_publish := [] }
        sink := st.sink
        returned := .ok st.published_segment_label }

/-- The recentering utility depends only on the set of allocated block coordinates and
the block size (the block size being determined by the voxel size and the number of
voxels per side), in the same way for both voxel types: the translation it reports, the
block coordinates it leaves allocated and the voxel size of the layer are functions of
these. -/
def CenterByBlocks {n : Nat} (ext : Collaborators n) : Prop :=
  ∃ (f : Finset BlockIndex → FloatingPoint → Nat → Point)
    (g : Finset BlockIndex → FloatingPoint → Nat → Finset BlockIndex)
    (h : Finset BlockIndex → FloatingPoint → Nat → FloatingPoint),
    (∀ l, (ext.centerBlocksOfTsdfLayer l).2 = f l.blockIndexSet l.voxel_size l.voxels_per_side ∧
      (ext.centerBlocksOfTsdfLayer l).1.blockIndexSet =
        g l.blockIndexSet l.voxel_size l.voxels_per_side ∧
      (ext.centerBlocksOfTsdfLayer l).1.voxel_size =
        h l.blockIndexSet l.voxel_size l.voxels_per_side) ∧
    (∀ l, (ext.centerBlocksOfLabelLayer l).2 = f l.blockIndexSet l.voxel_size l.voxels_per_side ∧
      (ext.centerBlocksOfLabelLayer l).1.blockIndexSet =
        g l.blockIndexSet l.voxel_size l.voxels_per_side ∧
      (ext.centerBlocksOfLabelLayer l).1.voxel_size =
        h l.blockIndexSet l.voxel_size l.voxels_per_side)

/-- The TSDF and Label sub-layer of every entry have the same set of allocated block
coordinates and the same voxel size. -/
def SharedShape {n : Nat} (m : LabelLayersMap n) : Prop :=
  ∀ L p, m.lookup L = some p →
    p.1.blockIndexSet = p.2.blockIndexSet ∧ p.1.voxel_size = p.2.voxel_size

/-! ### Example data -/

/-- Example label block with one voxel (`n = 1`) carrying `label`. -/
def exampleLabelBlock (label : Label) : Block LabelVoxel 1 :=
  ⟨[{ label := label, accumulators := [label, 1] }], rfl⟩

/-- Example TSDF block with one voxel (`n = 1`) at distance `d`. -/
def exampleTsdfBlock (d : FloatingPoint) : Block TsdfVoxel 1 :=
  ⟨[{ distance := d, weight := 1, color := 255 }], rfl⟩

/-- Example layer with the given blocks, voxel size 5. -/
def exampleLayer {V : Type} (blocks : List (BlockIndex × Block V 1)) : Layer V 1 :=
  ⟨5, blocks.foldl (fun m e => m.insert e.1 e.2) ∅⟩

/-- Example global map of twelve one-voxel blocks in a row: the first `k` carry label
`first`, the others label `second`. -/
def exampleMap (k : Nat) (first second : Label) : LabelTsdfMap 1 :=
  ⟨exampleLayer ((List.range 12).map (fun j => (((j : Int), 0, 0), exampleTsdfBlock j))),
    exampleLayer ((List.range 12).map
      (fun j => (((j : Int), 0, 0), exampleLabelBlock (if j < k then first else second))))⟩

/-- Example extraction result: labels 7 and 3 out of `exampleMap 10 7 3`. -/
def exampleLayers : LabelLayersMap 1 :=
  match extractSegmentLayers ⟨5⟩ (exampleMap 10 7 3) [7, 3] ∅ true with
  | .ok m => m
  | .error _ => ∅

/-- Example extraction result: a list with the label `0`, a label no voxel carries and a
duplicate, out of `exampleMap 12 7 3` (all twelve blocks carry label 7). -/
def exampleDuplicates : LabelLayersMap 1 :=
  match extractSegmentLayers ⟨5⟩ (exampleMap 12 7 3) [0, 3, 7, 3] ∅ false with
  | .ok m => m
  | .error _ => ∅

/-- Example collaborators: centering keeps the layer and reports the origin `(1, 2, 3)`,
a layer yields one surfel when `surfel` is set and none otherwise. -/
def exampleCollaborators (surfel : Bool) : Collaborators 1 where
  centerBlocksOfTsdfLayer := fun l => (l, ⟨1, 2, 3⟩)
  centerBlocksOfLabelLayer := fun l => (l, ⟨1, 2, 3⟩)
  convertVoxelGridToPointCloud := fun _ => if surfel then [⟨⟨0, 0, 0⟩⟩] else []
  getSemanticLabel := fun _ => 0
  getLabelsList := [7, 3]
  convertLabelTsdfLayersToMesh := fun _ _ => true
  makePath := 0

/-- Example controller over `exampleMap 10 first second`. -/
def exampleController (first second : Label) (published : Finset Label)
    (merges : AList (fun _ : Label => List Label)) (pending : List Label) : Controller 1 where
  map_config := ⟨5⟩
  map := exampleMap 10 first second
  all_published_segments := published
  merges_to_publish := merges
  segment_labels_to_publish := pending

/-! ### Vocabulary of the statements about the publish cycle -/

/-- The two tests a label has to pass to be handed to the sink: its TSDF sub-layer has at
least the minimum number of blocks, and the surfel cloud of the centered sub-layer is not
empty. -/
def publishable {n : Nat} (ext : Collaborators n) (label_to_layers : LabelLayersMap n)
    (label : Label) : Bool :=
  match label_to_layers.lookup label with
  | none => false
  | some p =>
    !decide (p.1.getNumberOfAllocatedBlocks < kMinNumberOfAllocatedBlocksToPublish) &&
      !(ext.convertVoxelGridToPointCloud (ext.centerBlocksOfTsdfLayer p.1).1).isEmpty

/-- The `old_labels` of the record of `label`, in the words of the spec, relative to the
published-set and Merge Record at the start of the cycle and the labels `earlier` handed
to the sink before it in the same cycle: the label itself if already announced, then the
announced labels of its Merge Record entry (the entry is gone once the label was handed
to the sink). -/
def oldLabelsAt (published : Finset Label) (merges : AList (fun _ : Label => List Label))
    (earlier : List Label) (label : Label) : List Label :=
  (if label ∈ published ∪ earlier.toFinset then [label] else []) ++
    (if label ∈ earlier then []
      else ((merges.lookup label).getD []).filter
        (fun l => decide (l ∈ published ∪ earlier.toFinset)))

/-- The `old_labels` of the record of `label` computed from the published-set and the
Merge Record as they were before the cycle: the label itself if it was in the
published-set, followed by the labels of its Merge Record entry that were. -/
def oldLabelsBefore (published : Finset Label)
    (merges : AList (fun _ : Label => List Label)) (label : Label) : List Label :=
  (if label ∈ published then [label] else []) ++
    ((merges.lookup label).getD []).filter (fun l => decide (l ∈ published))

/-- Example Merge Record: label 3 was merged into label 5. -/
def exampleMerges : AList (fun _ : Label => List Label) :=
  (∅ : AList (fun _ : Label => List Label)).insert 5 [3]

/-- Example extraction result of a cycle with pending labels 7, 3 and 5 over
`exampleMap 10 7 3`: ten blocks for label 7, two for label 3, none for label 5. -/
def examplePendingLayers : LabelLayersMap 1 :=
  match extractSegmentLayers ⟨5⟩ (exampleMap 10 7 3) [7, 3, 5] ∅ false with
  | .ok m => m
  | .error _ => ∅

/-- Example cycle: label 3 was published, then merged into the never published label 5,
which is pending. -/
def exampleMergeCycle : PublishResult 1 :=
  publishObjects (exampleCollaborators true) (exampleController 5 3 {3} exampleMerges [5]) false

/-- Example cycle: label 3 was published, then merged into the never published label 5,
which the pending list names twice. -/
def exampleMergeTwiceCycle : PublishResult 1 :=
  publishObjects (exampleCollaborators true) (exampleController 5 3 {3} exampleMerges [5, 5])
    false

/-- Example cycle: the pending list names label 7 twice. -/
def exampleDuplicateCycle : PublishResult 1 :=
  publishObjects (exampleCollaborators true) (exampleController 7 3 ∅ ∅ [7, 7]) false

/-- Example cycle: label 7 has ten blocks but its sub-layer yields no surfel. -/
def exampleNoSurfelCycle : PublishResult 1 :=
  publishObjects (exampleCollaborators false) (exampleController 7 3 ∅ ∅ [7]) false

/-! ## `Controller::extractSegmentsCallback` -/

/-- The loop of `extractSegmentsCallback` (lines 620-643): the labels whose mesh was
written, or the fatal check that stopped it. -/
def exportSegmentMeshes {n : Nat} (ext : Collaborators n)
    (label_to_layers : LabelLayersMap n) : List Label → List Label → Except Fatal (List Label)
  | [], written => .ok written
  | label :: rest, written =>
    match label_to_layers.lookup label with
    | none => .error (Fatal.layersNotExtracted label)
    | some (segment_tsdf_layer, segment_label_layer) =>
      if ext.convertLabelTsdfLayersToMesh segment_tsdf_layer segment_label_layer then
        if ext.makePath ≠ 0 then .error Fatal.makePathFailed
        else exportSegmentMeshes ext label_to_layers rest (written ++ [label])
      else exportSegmentMeshes ext label_to_layers rest written

/-- `Controller::extractSegmentsCallback`: extraction of all labels of the map with
`kLabelsListIsComplete = true`, then one mesh file per label. -/
def extractSegmentsCallback {n : Nat} (ext : Collaborators n) (c : Controller n) :
    Except Fatal (List Label) :=
  let labels := ext.getLabelsList
  match extractSegmentLayers c.map_config c.map labels ∅ true with
  | .error e => .error e
  | .ok label_to_layers => exportSegmentMeshes ext label_to_layers labels []

/-! ## Double precision: `ros::Duration::toSec` and the comparison of the watchdog -/

/-- A value of the C++ type `double` (IEEE 754 binary64): a finite value
`mantissa * 2 ^ exponent`, an infinity, or a NaN. The sign of zero is not kept; no
comparison depends on it. -/
inductive Double where
  | finite (mantissa exponent : Int)
  | posInf
  | negInf
  | nan
  deriving DecidableEq, Repr

/-- The number of binary digits of `k`, counted in at most `fuel` steps. -/
def bitLengthAux : Nat → Nat → Nat
  | 0, _ => 0
  | fuel + 1, k => if k = 0 then 0 else bitLengthAux fuel (k / 2) + 1

/-- The number of binary digits of `k`: 0 for 0, and `j + 1` when `2 ^ j ≤ k < 2 ^ (j + 1)`. -/
def bitLength (k : Nat) : Nat := bitLengthAux k k

/-- Rounding of the exact value `m * 2 ^ e` to `double`, to nearest with ties to even:
53 significant bits, the exponent of the last bit not below -1074, an infinity when the
rounded value reaches `2 ^ 1024`. -/
def Double.round (m e : Int) : Double :=
  if m = 0 then Double.finite 0 0
  else
    let n : Nat := m.natAbs
    let bits : Int := (bitLength n : Nat)
    let last : Int := max (e + bits - 53) (-1074)
    if last ≤ e then
      if e + bits > 1024 then (if m > 0 then Double.posInf else Double.negInf)
      else Double.finite m e
    else
      let shift : Nat := (last - e).toNat
      let q : Nat := n / 2 ^ shift
      let r : Nat := n % 2 ^ shift
      let half : Nat := 2 ^ (shift - 1)
      let rounded : Nat := if r > half ∨ (r = half ∧ q % 2 = 1) then q + 1 else q
      if 0 ≤ last ∧ rounded * 2 ^ last.toNat ≥ 2 ^ 1024 then
        (if m > 0 then Double.posInf else Double.negInf)
      else Double.finite (if m > 0 then (rounded : Int) else -(rounded : Int)) last

/-- Conversion of an integer to `double` (`static_cast<double>`). -/
def Double.ofInt (k : Int) : Double := Double.round k 0

instance (k : Nat) : OfNat Double k := ⟨Double.ofInt k⟩

/-- Multiplication of `double` values. -/
def Double.mul : Double → Double → Double
  | Double.finite m1 e1, Double.finite m2 e2 => Double.round (m1 * m2) (e1 + e2)
  | Double.nan, _ => Double.nan
  | _, Double.nan => Double.nan
  | Double.finite m _, Double.posInf =>
    if m = 0 then Double.nan else if m > 0 then Double.posInf else Double.negInf
  | Double.finite m _, Double.negInf =>
    if m = 0 then Double.nan else if m > 0 then Double.negInf else Double.posInf
  | Double.posInf, Double.finite m _ =>
    if m = 0 then Double.nan else if m > 0 then Double.posInf else Double.negInf
  | Double.negInf, Double.finite m _ =>
    if m = 0 then Double.nan else if m > 0 then Double.negInf else Double.posInf
  | Double.posInf, Double.posInf => Double.posInf
  | Double.negInf, Double.negInf => Double.posInf
  | Double.posInf, Double.negInf => Double.negInf
  | Double.negInf, Double.posInf => Double.negInf

/-- Addition of `double` values. -/
def Double.add : Double → Double → Double
  | Double.finite m1 e1, Double.finite m2 e2 =>
    Double.round (m1 * 2 ^ (e1 - min e1 e2).toNat + m2 * 2 ^ (e2 - min e1 e2).toNat)
      (min e1 e2)
  | Double.nan, _ => Double.nan
  | _, Double.nan => Double.nan
  | Double.posInf, Double.negInf => Double.nan
  | Double.negInf, Double.posInf => Double.nan
  | Double.posInf, _ => Double.posInf
  | _, Double.posInf => Double.posInf
  | Double.negInf, _ => Double.negInf
  | _, Double.negInf => Double.negInf

/-- The comparison `a > b` of `double` values: false when either is a NaN. -/
def Double.gt : Double → Double → Bool
  | Double.nan, _ => false
  | _, Double.nan => false
  | Double.finite m1 e1, Double.finite m2 e2 =>
    decide (m1 * 2 ^ (e1 - min e1 e2).toNat > m2 * 2 ^ (e2 - min e1 e2).toNat)
  | Double.posInf, Double.posInf => false
  | Double.posInf, _ => true
  | _, Double.posInf => false
  | Double.negInf, _ => false
  | Double.finite _ _, Double.negInf => true

/-- The comparison `a != 0.0`: true for a NaN and for the infinities. -/
def Double.isNonZero : Double → Bool
  | Double.finite m _ => decide (m ≠ 0)
  | _ => true

/-- The literal `1e-9` as a `double`. -/
def Double.nano : Double := Double.finite 4835703278458517 (-82)

/-- `ros::Duration::toSec` of roscpp (the library is not among the sources), on a duration
given in nanoseconds: `static_cast<double>(sec) + 1e-9 * static_cast<double>(nsec)`, where
`sec` and `nsec` are the normalized parts of the duration, `nsec` between 0 and
999999999. -/
def toSec (duration : Int) : Double :=
  Double.add (Double.ofInt (Int.ediv duration 1000000000))
    (Double.mul Double.nano (Double.ofInt (Int.emod duration 1000000000)))

/-! ## Frame batching: `Controller::segmentPointCloudCallback` -/

/-- ROS time in nanoseconds (`ros::Time`, and `ros::Duration` for differences). -/
abbrev Time := Int

/-- Name of a tf frame as the list of its character codes; the empty list is the empty
string. -/
abbrev FrameName := List Nat

/-- Rigid transform from the camera frame to the world frame (`Transformation`). -/
structure Transformation where
  translation : Point
  rotation : List FloatingPoint
  deriving DecidableEq, Repr

/-- Modelled from the spec: a segment (the class is declared in `segment.h`, which is not
among the sources): pose transform, point and color list, the label id assigned by the
label decision, and whether it carries semantic/instance tags. The field `stamp` is a
ghost: the stamp of the message the segment was parsed from; no code of the model reads
it. -/
structure Segment where
  T_G_C : Transformation
  points_C : List Point
  colors : List Nat
  label : Label
  semantic_instance : Bool
  stamp : Time
  deriving DecidableEq

/-- The buffer `segment_label_candidates`: per label and segment, a number of points. -/
abbrev LabelCandidates := List (Label × Segment × Nat)

/-- The buffer `segment_merge_candidates_`: per segment, the labels proposed for union. -/
abbrev MergeCandidates := List (Segment × List Label)

/-- What `tf_listener_` answers for one source frame at the stamp of a message: the result
of `canTransform`, and the transform returned by its `lookupTransform`, `none` standing
for a thrown `tf::TransformException`. -/
structure TfAnswer where
  canTransform : Bool
  lookupTransform : Option Transformation
  deriving DecidableEq

/-- `Controller::lookupTransform`: `none` is the return value `false`. -/
def lookupTransform (tf : TfAnswer) : Option Transformation :=
  if !tf.canTransform then none
  else
    match tf.lookupTransform with
    | none => none
    | some tf_transform => some tf_transform

/-- An incoming segment message (`sensor_msgs::PointCloud2`) with what the environment
answers while the callback handles it: the tf listener by source frame, and
`ros::Time::now()`. -/
structure SegmentMsg where
  stamp : Time
  frame_id : FrameName
  points : List Point
  colors : List Nat
  tf : FrameName → TfAnswer
  now : Time

/-- Modelled from the spec: the operations of `integrator_` (`LabelTsdfIntegrator`, not
among the sources) the callback uses, as functions of an integrator state `ι` and the
global map the integrator points into. The label decision produces a label assignment
per segment (it writes `segment->label_` and leaves the buffer otherwise as it is), given
here by position in the buffer. -/
structure Integrator (ι : Type) (n : Nat) where
  decideLabelPointClouds :
    ι → LabelTsdfMap n → List Segment → LabelCandidates → MergeCandidates → ι × (Nat → Label)
  integratePointCloud :
    ι → LabelTsdfMap n → Transformation → List Point → List Nat → Label → Bool →
      ι × LabelTsdfMap n
  mergeLabels :
    ι → LabelTsdfMap n → AList (fun _ : Label => List Label) →
      ι × LabelTsdfMap n × AList (fun _ : Label => List Label)
  getLabelsToPublish : ι → List Label → ι × List Label
  computeSegmentLabelCandidates :
    ι → LabelTsdfMap n → Segment → LabelCandidates → MergeCandidates →
      ι × LabelCandidates × MergeCandidates

/-- The members of `Controller` read or written by the callback and the watchdog, on top
of those of the publish cycle (`core`). The timeout is a `double`, in seconds. -/
structure FrameController (ι : Type) (n : Nat) where
  core : Controller n
  integrator : ι
  camera_frame : FrameName
  enable_semantic_instance_segmentation : Bool
  no_update_timeout : Double
  received_first_message : Bool
  last_segment_msg_timestamp : Time
  last_update_received : Time
  integrated_frames_count : Nat
  segments_to_integrate : List Segment
  segment_label_candidates : LabelCandidates
  segment_merge_candidates : MergeCandidates

/-- A call of the callback into the integrator, for the trace of a run. -/
inductive IntegratorCall where
  | decideLabelPointClouds (segments : List Segment)
  | integratePointCloud (segment : Segment)
  | mergeLabels
  | getLabelsToPublish
  | computeSegmentLabelCandidates (segment : Segment)
  deriving DecidableEq

/-- The segments from position `k` of the buffer on, after the label decision wrote their
`label_`. -/
def assignLabelsFrom (labels : Nat → Label) : Nat → List Segment → List Segment
  | _, [] => []
  | k, segment :: rest =>
    { segment with label := labels k } :: assignLabelsFrom labels (k + 1) rest

/-- The buffered segments after the label decision wrote their `label_`. -/
def assignLabels (labels : Nat → Label) (segments : List Segment) : List Segment :=
  assignLabelsFrom labels 0 segments

/-- The loop `for (const auto& segment : segments_to_integrate_)` (lines 446-450), with
`kIsFreespacePointcloud = false`. -/
def integrateSegments {ι : Type} {n : Nat} (ops : Integrator ι n) :
    List Segment → ι × LabelTsdfMap n → ι × LabelTsdfMap n
  | [], s => s
  | segment :: rest, s =>
    integrateSegments ops rest
      (ops.integratePointCloud s.1 s.2 segment.T_G_C segment.points_C segment.colors
        segment.label false)

/-- The integration cycle, lines 423-488 of `segmentPointCloudCallback`: label decision,
integration of every buffered segment, merge resolution, fetch of the labels to publish,
cleanup. Returns the controller and the calls made into the integrator, in order. -/
def integrateFrame {ι : Type} {n : Nat} (ops : Integrator ι n) (c : FrameController ι n) :
    FrameController ι n × List IntegratorCall :=
  let decided := ops.decideLabelPointClouds c.integrator c.core.map c.segments_to_integrate
    c.segment_label_candidates c.segment_merge_candidates
  let segments := assignLabels decided.2 c.segments_to_integrate
  let integrated := integrateSegments ops segments (decided.1, c.core.map)
  let merged := ops.mergeLabels integrated.1 integrated.2 c.core.merges_to_publish
  let fetched := ops.getLabelsToPublish merged.1 c.core.segment_labels_to_publish
  ({ c with
      core :=
        { c.core with
          map := merged.2.1
          merges_to_publish := merged.2.2
          segment_labels_to_publish := fetched.2 }
      integrator := fetched.1
      integrated_frames_count := c.integrated_frames_count + 1
      segment_merge_candidates := []
      segment_label_candidates := []
      segments_to_integrate := [] },
    [IntegratorCall.decideLabelPointClouds c.segments_to_integrate] ++
      segments.map IntegratorCall.integratePointCloud ++
      [IntegratorCall.mergeLabels, IntegratorCall.getLabelsToPublish])

/-- The test of line 421: a frame is closed by this message. -/
def frameClosed {ι : Type} {n : Nat} (c : FrameController ι n) (msg : SegmentMsg) : Bool :=
  c.received_first_message && decide (c.last_segment_msg_timestamp ≠ msg.stamp)

/-- The source frame of the lookup, lines 496-499. -/
def fromFrame {ι : Type} {n : Nat} (c : FrameController ι n) (msg : SegmentMsg) : FrameName :=
  if c.camera_frame.isEmpty then msg.frame_id else c.camera_frame

/-- Lines 512-522: the segment parsed from the message, with or without semantic and
instance tags according to the configuration; its label is not decided yet. -/
def parseSegment (enable_semantic_instance_segmentation : Bool) (msg : SegmentMsg)
    (T_G_C : Transformation) : Segment :=
  { T_G_C := T_G_C
    points_C := msg.points
    colors := msg.colors
    label := 0
    semantic_instance := enable_semantic_instance_segmentation
    stamp := msg.stamp }

/-- `Controller::segmentPointCloudCallback`. Returns the controller and the calls made
into the integrator, in order. -/
def segmentPointCloudCallback {ι : Type} {n : Nat} (ops : Integrator ι n)
    (c : FrameController ι n) (msg : SegmentMsg) :
    FrameController ι n × List IntegratorCall :=
  let cycle := if frameClosed c msg then integrateFrame ops c else (c, [])
  let c1 : FrameController ι n :=
    { cycle.1 with
      received_first_message := true
      last_update_received := msg.now
      last_segment_msg_timestamp := msg.stamp }
  match lookupTransform (msg.tf (fromFrame c1 msg)) with
  | some T_G_C =>
    let segment := parseSegment c1.enable_semantic_instance_segmentation msg T_G_C
    let computed := ops.computeSegmentLabelCandidates c1.integrator c1.core.map segment
      c1.segment_label_candidates c1.segment_merge_candidates
    ({ c1 with
        segments_to_integrate := c1.segments_to_integrate ++ [segment]
        integrator := computed.1
        segment_label_candidates := computed.2.1
        segment_merge_candidates := computed.2.2 },
      cycle.2 ++ [IntegratorCall.computeSegmentLabelCandidates segment])
  | none => (c1, cycle.2)

/-- The callback run on a sequence of messages: the final controller and, per message,
the calls made into the integrator. -/
def processMessages {ι : Type} {n : Nat} (ops : Integrator ι n) :
    List SegmentMsg → FrameController ι n → FrameController ι n × List (List IntegratorCall)
  | [], c => (c, [])
  | msg :: rest, c =>
    let handled := segmentPointCloudCallback ops c msg
    let later := processMessages ops rest handled.1
    (later.1, handled.2 :: later.2)

/-- The calls of a trace that are `integratePointCloud`, with their segments. -/
def integratedSegments : List IntegratorCall → List Segment
  | [] => []
  | IntegratorCall.integratePointCloud segment :: rest => segment :: integratedSegments rest
  | _ :: rest => integratedSegments rest

/-- The trace of one callback contains an integration cycle. -/
def hasCycle (calls : List IntegratorCall) : Bool :=
  calls.any (fun call =>
    match call with
    | IntegratorCall.decideLabelPointClouds _ => true
    | _ => false)

/-! ## `Controller::noNewUpdatesReceived` -/

/-- `Controller::noNewUpdatesReceived`, with `ros::Time::now()` as argument. -/
def noNewUpdatesReceived {ι : Type} {n : Nat} (c : FrameController ι n) (now : Time) : Bool :=
  if c.received_first_message && c.no_update_timeout.isNonZero then
    Double.gt (toSec (now - c.last_update_received)) c.no_update_timeout
  else false

/-! ## Mesh regeneration: `Controller::updateMeshEvent`, `Controller::generateMesh` -/

/-- The coloring variants, named by the `ColorScheme` of their integrator:
`mesh_label_integrator_` (Primary), `mesh_semantic_integrator_` (Semantic),
`mesh_instance_integrator_` (Instance), `mesh_merged_integrator_` (Merged). -/
inductive ColorScheme where
  | LabelColor
  | SemanticColor
  | InstanceColor
  | GeometricInstanceColor
  deriving DecidableEq, Repr

/-- The mesh integrators (`MeshLabelIntegrator`) as functions of a state `σ` they share:
the mesh layers, the update flags of the blocks and `all_semantic_labels_`, which they
hold by reference. Every integrator is constructed with `&need_full_remesh_` (lines
232-261), so `generateMesh` also reads and may write the flag: it takes the state, the
flag, `only_mesh_updated_blocks`, `clear_updated_flag` and returns the state, the flag
and its boolean result. -/
structure MeshIntegrators (σ : Type) where
  generateMesh : ColorScheme → σ → Bool → Bool → Bool → σ × Bool × Bool
  clearAllSemanticLabels : σ → σ

/-- The members of `Controller` read or written by the mesh regeneration. -/
structure MeshController (σ : Type) where
  mesh : σ
  need_full_remesh : Bool
  updated_mesh : Bool
  enable_semantic_instance_segmentation : Bool
  publish_scene_mesh : Bool
  mesh_filename : FrameName

/-- One call of a variant's `generateMesh`: its arguments, the full-remesh flag before
and after the call, and the returned boolean. -/
structure MeshCall where
  color_scheme : ColorScheme
  only_mesh_updated_blocks : Bool
  clear_updated_flag : Bool
  need_full_remesh_before : Bool
  need_full_remesh_after : Bool
  changed : Bool
  deriving DecidableEq, Repr

/-- What a regeneration leaves behind: the controller members, the calls of the variants
in order, the mesh states from which a scene mesh message was built and published, and
the variants whose mesh layer was written to a PLY file. -/
structure MeshResult (σ : Type) where
  controller : MeshController σ
  calls : List MeshCall
  scene_mesh_msgs : List σ
  ply_files : List ColorScheme

/-- A call `integrator->generateMesh(only_mesh_updated_blocks, clear_updated_flag)`. -/
def invokeGenerateMesh {σ : Type} (ops : MeshIntegrators σ) (color_scheme : ColorScheme)
    (only_mesh_updated_blocks clear_updated_flag : Bool) (c : MeshController σ) :
    MeshController σ × MeshCall :=
  let r := ops.generateMesh color_scheme c.mesh c.need_full_remesh only_mesh_updated_blocks
    clear_updated_flag
  ({ c with mesh := r.1, need_full_remesh := r.2.1 },
    { color_scheme := color_scheme
      only_mesh_updated_blocks := only_mesh_updated_blocks
      clear_updated_flag := clear_updated_flag
      need_full_remesh_before := c.need_full_remesh
      need_full_remesh_after := r.2.1
      changed := r.2.2 })

/-- The statement `updated_mesh_ |= integrator->generateMesh(...)`. -/
def invokeAndAccumulate {σ : Type} (ops : MeshIntegrators σ) (color_scheme : ColorScheme)
    (only_mesh_updated_blocks clear_updated_flag : Bool)
    (s : MeshController σ × List MeshCall) : MeshController σ × List MeshCall :=
  let r := invokeGenerateMesh ops color_scheme only_mesh_updated_blocks clear_updated_flag s.1
  ({ r.1 with updated_mesh := r.1.updated_mesh || r.2.changed }, s.2 ++ [r.2])

/-- The statement `integrator->generateMesh(...)` with the result discarded. -/
def invokeAndDiscard {σ : Type} (ops : MeshIntegrators σ) (color_scheme : ColorScheme)
    (only_mesh_updated_blocks clear_updated_flag : Bool)
    (s : MeshController σ × List MeshCall) : MeshController σ × List MeshCall :=
  let r := invokeGenerateMesh ops color_scheme only_mesh_updated_blocks clear_updated_flag s.1
  (r.1, s.2 ++ [r.2])

/-- `Controller::updateMeshEvent`. -/
def updateMeshEvent {σ : Type} (ops : MeshIntegrators σ) (c : MeshController σ) :
    MeshResult σ :=
  let only_mesh_updated_blocks := if c.need_full_remesh then false else true
  let c0 := if c.need_full_remesh then { c with need_full_remesh := false } else c
  let clear_updated_flag := false
  let s1 := invokeAndAccumulate ops ColorScheme.LabelColor only_mesh_updated_blocks
    clear_updated_flag (c0, [])
  let s4 :=
    if c.enable_semantic_instance_segmentation then
      let s2 := invokeAndAccumulate ops ColorScheme.GeometricInstanceColor
        only_mesh_updated_blocks clear_updated_flag s1
      let s3 := invokeAndAccumulate ops ColorScheme.InstanceColor only_mesh_updated_blocks
        clear_updated_flag s2
      let clear_updated_flag := true
      invokeAndAccumulate ops ColorScheme.SemanticColor only_mesh_updated_blocks
        clear_updated_flag s3
    else s1
  { controller := s4.1
    calls := s4.2
    scene_mesh_msgs := if c.publish_scene_mesh then [s4.1.mesh] else []
    ply_files := [] }

/-- `Controller::generateMesh`. -/
def generateMesh {σ : Type} (ops : MeshIntegrators σ) (c : MeshController σ)
    (clear_mesh : Bool) : MeshResult σ :=
  let s4 :=
    if clear_mesh then
      let only_mesh_updated_blocks := false
      let clear_updated_flag := true
      let s1 := invokeAndDiscard ops ColorScheme.LabelColor only_mesh_updated_blocks
        clear_updated_flag (c, [])
      if c.enable_semantic_instance_segmentation then
        let s1 : MeshController σ × List MeshCall :=
          ({ s1.1 with mesh := ops.clearAllSemanticLabels s1.1.mesh }, s1.2)
        let s2 := invokeAndDiscard ops ColorScheme.SemanticColor only_mesh_updated_blocks
          clear_updated_flag s1
        let s3 := invokeAndDiscard ops ColorScheme.InstanceColor only_mesh_updated_blocks
          clear_updated_flag s2
        invokeAndDiscard ops ColorScheme.GeometricInstanceColor only_mesh_updated_blocks
          clear_updated_flag s3
      else s1
    else
      let only_mesh_updated_blocks := true
      let clear_updated_flag := true
      let s1 := invokeAndDiscard ops ColorScheme.LabelColor only_mesh_updated_blocks
        clear_updated_flag (c, [])
      if c.enable_semantic_instance_segmentation then
        let s2 := invokeAndDiscard ops ColorScheme.SemanticColor only_mesh_updated_blocks
          clear_updated_flag s1
        let s3 := invokeAndDiscard ops ColorScheme.InstanceColor only_mesh_updated_blocks
          clear_updated_flag s2
        invokeAndDiscard ops ColorScheme.GeometricInstanceColor only_mesh_updated_blocks
          clear_updated_flag s3
      else s1
  let c5 : MeshController σ := { s4.1 with updated_mesh := true }
  { controller := c5
    calls := s4.2
    scene_mesh_msgs := if c.publish_scene_mesh then [c5.mesh] else []
    ply_files :=
      if c.mesh_filename.isEmpty then []
      else if c.enable_semantic_instance_segmentation then
        [ColorScheme.LabelColor, ColorScheme.SemanticColor, ColorScheme.InstanceColor,
          ColorScheme.GeometricInstanceColor]
      else [ColorScheme.LabelColor] }

/-- `Controller::generateMeshCallback`: `generateMesh` with `kClearMesh = true`. -/
def generateMeshCallback {σ : Type} (ops : MeshIntegrators σ) (c : MeshController σ) :
    MeshResult σ :=
  generateMesh ops c true

/-- The variants that are active: Primary always, the three others when multi-label
meshing is enabled. -/
def activeVariants (enable_semantic_instance_segmentation : Bool) : List ColorScheme :=
  if enable_semantic_instance_segmentation then
    [ColorScheme.LabelColor, ColorScheme.SemanticColor, ColorScheme.InstanceColor,
      ColorScheme.GeometricInstanceColor]
  else [ColorScheme.LabelColor]

/-! ### The mesh integrator of the spec -/

/-- Modelled from the spec: the content of a mesh tile, the per-block surface fragment of
one coloring variant (the mesh layer is declared in voxblox, not among the sources). -/
abbrev MeshTile := Nat

/-- Modelled from the spec: the state the mesh integrators work on (`MeshLabelIntegrator`
is not among the sources): the allocated blocks with their voxel state, the dirty flag of
each block, and per coloring variant the tile of each block. -/
structure MeshWorld where
  blocks : List (BlockIndex × Nat)
  updated : BlockIndex → Bool
  tiles : ColorScheme → BlockIndex → Option MeshTile

/-- The allocated blocks a pass works on: all of them, or those whose dirty flag is set. -/
def MeshWorld.processed (w : MeshWorld) (only_mesh_updated_blocks : Bool) : List BlockIndex :=
  (w.blocks.map Prod.fst).filter (fun b => !only_mesh_updated_blocks || w.updated b)

/-- Modelled from the spec: `MeshLabelIntegrator::generateMesh(onlyUpdatedBlocks,
clearDirtyFlag)` of one variant. With `onlyUpdatedBlocks = false` it recomputes the tile
of every allocated block, otherwise only of the blocks whose dirty flag is set; the tile
is computed from the voxel state alone by the coloring policy `render`;
`clearDirtyFlag` resets the flags of the processed blocks; the result tells whether a
tile was recomputed. The full-remesh flag is left as it is. -/
def specGenerateMesh (render : ColorScheme → List (BlockIndex × Nat) → BlockIndex → MeshTile)
    (color_scheme : ColorScheme) (w : MeshWorld) (need_full_remesh : Bool)
    (only_mesh_updated_blocks clear_updated_flag : Bool) : MeshWorld × Bool × Bool :=
  ({ blocks := w.blocks
     updated := fun b =>
       if clear_updated_flag && decide (b ∈ w.processed only_mesh_updated_blocks) then false
       else w.updated b
     tiles := fun s b =>
       if s = color_scheme ∧ b ∈ w.processed only_mesh_updated_blocks then
         some (render color_scheme w.blocks b)
       else w.tiles s b },
    need_full_remesh,
    !(w.processed only_mesh_updated_blocks).isEmpty)

/-- The four mesh integrators of the spec, for a coloring policy `render`. -/
def specIntegrators
    (render : ColorScheme → List (BlockIndex × Nat) → BlockIndex → MeshTile) :
    MeshIntegrators MeshWorld where
  generateMesh := specGenerateMesh render
  clearAllSemanticLabels := fun w => w

/-- A sequence of incremental passes (`onlyUpdatedBlocks = true`) of the spec integrator,
each given by its variant and its `clearDirtyFlag`. -/
def incrementalPasses
    (render : ColorScheme → List (BlockIndex × Nat) → BlockIndex → MeshTile) :
    List (ColorScheme × Bool) → MeshWorld → MeshWorld
  | [], w => w
  | pass :: rest, w =>
    incrementalPasses render rest (specGenerateMesh render pass.1 w false true pass.2).1

/-- A sequence of full passes (`onlyUpdatedBlocks = false`, `clearDirtyFlag = true`) of
the spec integrator, one per listed variant. -/
def fullPasses
    (render : ColorScheme → List (BlockIndex × Nat) → BlockIndex → MeshTile) :
    List ColorScheme → MeshWorld → MeshWorld
  | [], w => w
  | color_scheme :: rest, w =>
    fullPasses render rest (specGenerateMesh render color_scheme w false false true).1

/-! ### Example data for the callback and the mesh regeneration -/

/-- Example integrator with a counter of integrated point clouds as state: the label
decision gives label 7 to every segment, the map is left as it is. -/
def exampleIntegrator : Integrator Nat 1 where
  decideLabelPointClouds := fun i _ _ _ _ => (i, fun _ => 7)
  integratePointCloud := fun i map _ _ _ _ _ => (i + 1, map)
  mergeLabels := fun i map merges => (i, map, merges)
  getLabelsToPublish := fun i pending => (i, pending ++ [7])
  computeSegmentLabelCandidates := fun i _ segment lc mc =>
    (i, lc ++ [(0, segment, segment.points_C.length)], mc ++ [(segment, [])])

/-- Example transform. -/
def exampleTransformation : Transformation := ⟨⟨1, 0, 0⟩, [1, 0, 0, 0]⟩

/-- Example message with stamp `stamp`, one point, received at time `now`; the pose
lookup succeeds when `pose` is set. -/
def exampleMsg (stamp now : Time) (pose : Bool) : SegmentMsg where
  stamp := stamp
  frame_id := [99]
  points := [⟨stamp, 2, 3⟩]
  colors := [255]
  tf := fun _ => ⟨pose, some exampleTransformation⟩
  now := now

/-- Example controller before the first message (no message received, empty buffers),
with an empty camera frame name, so that the frame of the message is looked up, and the
given watchdog timeout. -/
def exampleFrameController (no_update_timeout : Double) : FrameController Nat 1 where
  core := exampleController 7 3 ∅ ∅ []
  integrator := 0
  camera_frame := []
  enable_semantic_instance_segmentation := false
  no_update_timeout := no_update_timeout
  received_first_message := false
  last_segment_msg_timestamp := 0
  last_update_received := 0
  integrated_frames_count := 0
  segments_to_integrate := []
  segment_label_candidates := []
  segment_merge_candidates := []

/-- Example mesh integrators on a counter of passes: `generateMesh` reports `changed` and
leaves the full-remesh flag raised when `raise` is set, as it is otherwise. -/
def exampleMeshIntegrators (changed raise : Bool) : MeshIntegrators Nat where
  generateMesh := fun _ passes flag _ _ => (passes + 1, raise || flag, changed)
  clearAllSemanticLabels := fun passes => passes

/-- Example mesh controller. -/
def exampleMeshController (need_full_remesh enable publish : Bool) : MeshController Nat where
  mesh := 0
  need_full_remesh := need_full_remesh
  updated_mesh := false
  enable_semantic_instance_segmentation := enable
  publish_scene_mesh := publish
  mesh_filename := []

/-- Example mesh controller on a mesh world of the spec. -/
def exampleWorldController (w : MeshWorld) (need_full_remesh enable : Bool) :
    MeshController MeshWorld where
  mesh := w
  need_full_remesh := need_full_remesh
  updated_mesh := false
  enable_semantic_instance_segmentation := enable
  publish_scene_mesh := false
  mesh_filename := []

/-- Example coloring policy: the voxel state of the block plus a number per variant. -/
def exampleRender (color_scheme : ColorScheme) (blocks : List (BlockIndex × Nat))
    (b : BlockIndex) : MeshTile :=
  (blocks.lookup b).getD 0 +
    (match color_scheme with
      | ColorScheme.LabelColor => 0
      | ColorScheme.SemanticColor => 100
      | ColorScheme.InstanceColor => 200
      | ColorScheme.GeometricInstanceColor => 300)

/-- Example mesh world: two allocated blocks, the second one dirty, no tile yet. -/
def exampleMeshWorld : MeshWorld where
  blocks := [((0, 0, 0), 5), ((1, 0, 0), 6)]
  updated := fun b => decide (b = (1, 0, 0))
  tiles := fun _ _ => none

/-! ## The mesh mutex `updated_mesh_mutex_` -/

/-- What a thread does with the mesh layers, the map and the mutex
`updated_mesh_mutex_`: construction of a `std::lock_guard` on the mutex and the end of
its scope, `integrator_->integratePointCloud` (lines 446-450), a variant's
`generateMesh`, `generateVoxbloxMeshMsg` on the Primary mesh layer, `outputMeshLayerAsPly`
on a variant's mesh layer, and a read of the mesh layers by the render thread. -/
inductive MeshEvent where
  | lock
  | unlock
  | integratePointCloud
  | generateMesh (color_scheme : ColorScheme)
  | generateVoxbloxMeshMsg
  | outputMeshLayerAsPly (color_scheme : ColorScheme)
  | visualizeMesh
  deriving DecidableEq, Repr

/-- The event reads or writes a mesh layer. -/
def MeshEvent.touchesMeshLayers : MeshEvent → Bool
  | MeshEvent.generateMesh _ => true
  | MeshEvent.generateVoxbloxMeshMsg => true
  | MeshEvent.outputMeshLayerAsPly _ => true
  | MeshEvent.visualizeMesh => true
  | _ => false

/-- The event writes a mesh layer to a PLY file. -/
def MeshEvent.writesFile : MeshEvent → Bool
  | MeshEvent.outputMeshLayerAsPly _ => true
  | _ => false

/-- The events of `Controller::generateMesh` in the order of the source: the lock guard
of line 908, the calls of the variants, the scene mesh message (lines 946-953), the end
of the guard's scope (line 954), the PLY files (lines 956-976). -/
def generateMeshEvents {σ : Type} (ops : MeshIntegrators σ) (c : MeshController σ)
    (clear_mesh : Bool) : List MeshEvent :=
  [MeshEvent.lock] ++
    (generateMesh ops c clear_mesh).calls.map
      (fun call => MeshEvent.generateMesh call.color_scheme) ++
    (generateMesh ops c clear_mesh).scene_mesh_msgs.map
      (fun _ => MeshEvent.generateVoxbloxMeshMsg) ++
    [MeshEvent.unlock] ++
    (generateMesh ops c clear_mesh).ply_files.map MeshEvent.outputMeshLayerAsPly

/-- The events of `Controller::updateMeshEvent` in the order of the source: the lock
guard of line 982, the calls of the variants, the scene mesh message, the end of the
guard's scope (line 1014). -/
def updateMeshEventEvents {σ : Type} (ops : MeshIntegrators σ) (c : MeshController σ) :
    List MeshEvent :=
  [MeshEvent.lock] ++
    (updateMeshEvent ops c).calls.map
      (fun call => MeshEvent.generateMesh call.color_scheme) ++
    (updateMeshEvent ops c).scene_mesh_msgs.map
      (fun _ => MeshEvent.generateVoxbloxMeshMsg) ++
    [MeshEvent.unlock]

/-- The events of `Controller::segmentPointCloudCallback`: in an integration cycle the
lock guard of line 445 around the loop over the buffered segments; nothing otherwise. -/
def segmentPointCloudCallbackEvents {ι : Type} {n : Nat} (ops : Integrator ι n)
    (c : FrameController ι n) (msg : SegmentMsg) : List MeshEvent :=
  if hasCycle (segmentPointCloudCallback ops c msg).2 then
    [MeshEvent.lock] ++
      (integratedSegments (segmentPointCloudCallback ops c msg).2).map
        (fun _ => MeshEvent.integratePointCloud) ++
      [MeshEvent.unlock]
  else []

/-- Modelled from the spec: the render reader (`Visualizer::visualizeMesh`, run in
`viz_thread_`; the class is not among the sources), which is given the mutex and takes it
around every read of the mesh layers; `rounds` is the number of its reads. -/
def visualizeMeshEvents : Nat → List MeshEvent
  | 0 => []
  | rounds + 1 =>
    [MeshEvent.lock, MeshEvent.visualizeMesh, MeshEvent.unlock] ++ visualizeMeshEvents rounds

/-- The events of one thread respect the lock scope: every event that `guarded` selects
happens while the thread holds the mutex, the mutex is taken only when the thread does
not hold it, released only when it does, and is released at the end. `held` tells
whether the thread holds the mutex at the start. -/
def lockScoped (guarded : MeshEvent → Bool) : Bool → List MeshEvent → Bool
  | held, [] => !held
  | held, MeshEvent.lock :: rest => !held && lockScoped guarded true rest
  | held, MeshEvent.unlock :: rest => held && lockScoped guarded false rest
  | held, e :: rest => (!guarded e || held) && lockScoped guarded held rest

/-- Whether the thread holds the mutex after its events. -/
def heldAfter : Bool → List MeshEvent → Bool
  | held, [] => held
  | _, MeshEvent.lock :: rest => heldAfter true rest
  | _, MeshEvent.unlock :: rest => heldAfter false rest
  | held, _ :: rest => heldAfter held rest

/-- Threads are numbered. -/
abbrev ThreadId := Nat

/-- One step of the mutex (`std::mutex`, exclusive and not recursive) with its holder: a
thread takes it only when it is free and releases it only when it holds it; a step that
is not possible gives `none`. -/
def mutexStep (holder : Option ThreadId) (t : ThreadId) : MeshEvent → Option (Option ThreadId)
  | MeshEvent.lock => if holder = none then some (some t) else none
  | MeshEvent.unlock => if holder = some t then some none else none
  | _ => some holder

/-- The holder of the mutex after a schedule, an interleaving of the events of several
threads; `none` when the mutex does not allow the schedule. -/
def runSchedule : Option ThreadId → List (ThreadId × MeshEvent) → Option (Option ThreadId)
  | holder, [] => some holder
  | holder, step :: rest =>
    match mutexStep holder step.1 step.2 with
    | none => none
    | some next => runSchedule next rest

/-- The events of thread `t` in a schedule. -/
def threadEvents (t : ThreadId) (schedule : List (ThreadId × MeshEvent)) : List MeshEvent :=
  (schedule.filter (fun step => decide (step.1 = t))).map Prod.snd

/-- Example mesh controller that publishes the scene mesh and, when `save` is set, has a
mesh file name. -/
def exampleSavingController (save : Bool) : MeshController Nat where
  mesh := 0
  need_full_remesh := false
  updated_mesh := false
  enable_semantic_instance_segmentation := false
  publish_scene_mesh := true
  mesh_filename := if save then [109] else []

/-- Example schedule of three threads: a full regeneration (thread 0), a timer-driven
regeneration (thread 1) that takes the mutex when thread 0 has released it, and the
render reader (thread 2); when `save` is set, thread 0 writes its PLY file while thread 1
holds the mutex. -/
def exampleSchedule (save : Bool) : List (ThreadId × MeshEvent) :=
  [(0, MeshEvent.lock), (0, MeshEvent.generateMesh ColorScheme.LabelColor),
    (0, MeshEvent.generateVoxbloxMeshMsg), (0, MeshEvent.unlock), (1, MeshEvent.lock)] ++
  (if save then [(0, MeshEvent.outputMeshLayerAsPly ColorScheme.LabelColor)] else []) ++
  [(1, MeshEvent.generateMesh ColorScheme.LabelColor), (1, MeshEvent.generateVoxbloxMeshMsg),
    (1, MeshEvent.unlock), (2, MeshEvent.lock), (2, MeshEvent.visualizeMesh),
    (2, MeshEvent.unlock)]

/-! ## Blocks and layers -/

theorem Block.get_set {V : Type} {n : Nat} (blk : Block V n) (i j : Fin (n * n * n)) (v : V) :
    (blk.setVoxelByLinearIndex i v).getVoxelByLinearIndex j =
      if j = i then v else blk.getVoxelByLinearIndex j := by
  simp only [Block.getVoxelByLinearIndex, Block.setVoxelByLinearIndex, List.get_eq_getElem,
    Fin.coe_cast]
  rw [List.getElem_set]
  by_cases h : j = i
  · subst h; simp
  · have h2 : ¬ (i.val = j.val) := fun e => h (Fin.ext e.symm)
    simp [h, h2]

theorem Block.get_fresh {V : Type} {n : Nat} [Inhabited V] (j : Fin (n * n * n)) :
    (Block.fresh : Block V n).getVoxelByLinearIndex j = default := by
  simp [Block.getVoxelByLinearIndex, Block.fresh]

theorem Layer.writeVoxel_size {V : Type} {n : Nat} [Inhabited V] (l : Layer V n)
    (b : BlockIndex) (i : Fin (n * n * n)) (v : V) :
    (l.writeVoxel b i v).voxel_size = l.voxel_size := by
  unfold Layer.writeVoxel Layer.allocateBlockPtrByIndex Layer.storeBlock
  cases l.block_map.lookup b <;> rfl

theorem Layer.writeVoxel_same {V : Type} {n : Nat} [Inhabited V] (l : Layer V n)
    (b : BlockIndex) (i : Fin (n * n * n)) (v : V) :
    (l.writeVoxel b i v).getBlockPtrByIndex b =
      some (((l.getBlockPtrByIndex b).getD Block.fresh).setVoxelByLinearIndex i v) := by
  unfold Layer.writeVoxel Layer.allocateBlockPtrByIndex Layer.storeBlock
    Layer.getBlockPtrByIndex
  cases l.block_map.lookup b <;> simp [AList.lookup_insert]

theorem Layer.writeVoxel_other {V : Type} {n : Nat} [Inhabited V] (l : Layer V n)
    (b c : BlockIndex) (i : Fin (n * n * n)) (v : V) (h : c ≠ b) :
    (l.writeVoxel b i v).getBlockPtrByIndex c = l.getBlockPtrByIndex c := by
  unfold Layer.writeVoxel Layer.allocateBlockPtrByIndex Layer.storeBlock
    Layer.getBlockPtrByIndex
  cases l.block_map.lookup b <;> simp [AList.lookup_insert_ne h]

/-! ## The extraction loop -/

theorem extractVoxel_ok_cases {n : Nat} {c : Bool} {b : BlockIndex}
    {gt : Block TsdfVoxel n} {gl : Block LabelVoxel n} {i : Fin (n * n * n)}
    {m m1 : LabelLayersMap n} (h : extractVoxel c b gt gl i m = .ok m1) :
    (m1 = m ∧ ((gl.getVoxelByLinearIndex i).label = 0 ∨
        (m.lookup (gl.getVoxelByLinearIndex i).label = none ∧ c = false))) ∨
    (∃ tl ll, (gl.getVoxelByLinearIndex i).label ≠ 0 ∧
        m.lookup (gl.getVoxelByLinearIndex i).label = some (tl, ll) ∧
        m1 = m.insert (gl.getVoxelByLinearIndex i).label
          (tl.writeVoxel b i (gt.getVoxelByLinearIndex i),
            ll.writeVoxel b i (gl.getVoxelByLinearIndex i))) := by
  unfold extractVoxel at h
  simp only at h
  split at h
  · rename_i h0
    left
    injection h with h
    exact ⟨h.symm, Or.inl h0⟩
  · rename_i h0
    split at h
    · rename_i hl
      split at h
      · cases h
      · rename_i hc
        left
        injection h with h
        exact ⟨h.symm, Or.inr ⟨hl, by simpa using hc⟩⟩
    · rename_i tl ll hl
      right
      injection h with h
      exact ⟨tl, ll, h0, hl, h.symm⟩

theorem Carries_iff {n : Nat} {map : LabelTsdfMap n} {L : Label} {b : BlockIndex}
    {gl : Block LabelVoxel n} (hgl : map.label_layer.getBlockPtrByIndex b = some gl)
    (i : Fin (n * n * n)) :
    Carries map L b i ↔ L ≠ 0 ∧ (gl.getVoxelByLinearIndex i).label = L := by
  unfold Carries Layer.voxelAt
  rw [hgl]
  constructor
  · rintro ⟨h0, lv, hlv, hl⟩
    simp only [Option.map_some', Option.some.injEq] at hlv
    subst hlv
    exact ⟨h0, hl⟩
  · rintro ⟨h0, hl⟩
    exact ⟨h0, _, rfl, hl⟩

theorem SubBlockOk_of_not_carries {n : Nat} {map : LabelTsdfMap n}
    {D : BlockIndex → Fin (n * n * n) → Prop} {L : Label} {p : LayerPair n}
    {b c : BlockIndex} {i : Fin (n * n * n)} (hn : ¬ Carries map L c i)
    (h : SubBlockOk map D L p b) :
    SubBlockOk map (fun b1 j => D b1 j ∨ (b1 = c ∧ j = i)) L p b := by
  rcases h with ⟨h1, h2, h3⟩ | ⟨tb, lb, gt, gl, h1, h2, h3, h4, ⟨i0, hd, hc⟩, h5⟩
  · left
    refine ⟨h1, h2, fun j hd hc => ?_⟩
    rcases hd with hd | ⟨e1, e2⟩
    · exact h3 j hd hc
    · subst e1; subst e2; exact hn hc
  · right
    refine ⟨tb, lb, gt, gl, h1, h2, h3, h4, ⟨i0, Or.inl hd, hc⟩, fun j => ⟨?_, ?_⟩⟩
    · rintro ⟨hd1, hc1⟩
      rcases hd1 with hd1 | ⟨e1, e2⟩
      · exact (h5 j).1 ⟨hd1, hc1⟩
      · subst e1; subst e2; exact absurd hc1 hn
    · intro hneg
      exact (h5 j).2 (fun hh => hneg ⟨Or.inl hh.1, hh.2⟩)

theorem SubBlockOk_congr {n : Nat} {map : LabelTsdfMap n}
    {D D1 : BlockIndex → Fin (n * n * n) → Prop} {L : Label} {p p1 : LayerPair n}
    {b : BlockIndex} (e1 : p1.1.getBlockPtrByIndex b = p.1.getBlockPtrByIndex b)
    (e2 : p1.2.getBlockPtrByIndex b = p.2.getBlockPtrByIndex b)
    (hD : ∀ j, D1 b j ↔ D b j) (h : SubBlockOk map D L p b) :
    SubBlockOk map D1 L p1 b := by
  unfold SubBlockOk at h ⊢
  rw [e1, e2]
  simp only [hD]
  exact h

theorem ExtractInv_congr {n : Nat} {vs : FloatingPoint} {map : LabelTsdfMap n}
    {D D1 : BlockIndex → Fin (n * n * n) → Prop} {m : LabelLayersMap n}
    (hD : ∀ b j, D1 b j ↔ D b j) (h : ExtractInv vs map D m) : ExtractInv vs map D1 m := by
  intro L p hp
  obtain ⟨a1, a2, a3⟩ := h L p hp
  exact ⟨a1, a2, fun b => SubBlockOk_congr rfl rfl (hD b) (a3 b)⟩

theorem SubBlockOk_write {n : Nat} {map : LabelTsdfMap n}
    {D : BlockIndex → Fin (n * n * n) → Prop} {L : Label} {tl : Layer TsdfVoxel n}
    {ll : Layer LabelVoxel n} {b : BlockIndex} {gt : Block TsdfVoxel n}
    {gl : Block LabelVoxel n} (i : Fin (n * n * n))
    (hgt : map.tsdf_layer.getBlockPtrByIndex b = some gt)
    (hgl : map.label_layer.getBlockPtrByIndex b = some gl)
    (hc : Carries map L b i) (c : BlockIndex) (h : SubBlockOk map D L (tl, ll) c) :
    SubBlockOk map (fun b1 j => D b1 j ∨ (b1 = b ∧ j = i)) L
      (tl.writeVoxel b i (gt.getVoxelByLinearIndex i),
        ll.writeVoxel b i (gl.getVoxelByLinearIndex i)) c := by
  by_cases hcb : c = b
  · subst hcb
    right
    have hnew : ∀ j, j ≠ i → ((D c j ∨ (c = c ∧ j = i)) ↔ D c j) := by
      intro j hj
      constructor
      · rintro (hd | ⟨_, e⟩)
        · exact hd
        · exact absurd e hj
      · exact Or.inl
    refine ⟨_, _, gt, gl, Layer.writeVoxel_same _ _ _ _, Layer.writeVoxel_same _ _ _ _, hgt, hgl,
      ⟨i, Or.inr ⟨rfl, rfl⟩, hc⟩, fun j => ?_⟩
    rw [Block.get_set, Block.get_set]
    beta_reduce
    by_cases hj : j = i
    · subst hj
      rw [if_pos rfl, if_pos rfl]
      exact ⟨fun _ => ⟨rfl, rfl⟩, fun hneg => absurd ⟨Or.inr ⟨rfl, rfl⟩, hc⟩ hneg⟩
    · rw [if_neg hj, if_neg hj, hnew j hj]
      rcases h with ⟨h1, h2, h3⟩ | ⟨tb, lb, gt1, gl1, h1, h2, h3, h4, _, h5⟩
      · simp only at h1 h2
        rw [h1, h2]
        rw [Option.getD_none, Option.getD_none, Block.get_fresh, Block.get_fresh]
        exact ⟨fun hh => absurd hh.2 (h3 j hh.1), fun _ => ⟨rfl, rfl⟩⟩
      · simp only at h1 h2
        rw [h1, h2]
        simp only [Option.getD_some]
        rw [hgt] at h3
        rw [hgl] at h4
        cases h3
        cases h4
        exact h5 j
  · refine SubBlockOk_congr (Layer.writeVoxel_other _ _ _ _ _ hcb)
      (Layer.writeVoxel_other _ _ _ _ _ hcb) (fun j => ?_) h
    constructor
    · rintro (hd | ⟨e, _⟩)
      · exact hd
      · exact absurd e hcb
    · exact Or.inl

theorem extractVoxel_inv {n : Nat} {vs : FloatingPoint} {map : LabelTsdfMap n}
    {D : BlockIndex → Fin (n * n * n) → Prop} {c : Bool} {b : BlockIndex}
    {gt : Block TsdfVoxel n} {gl : Block LabelVoxel n} {i : Fin (n * n * n)}
    {m m1 : LabelLayersMap n}
    (hgt : map.tsdf_layer.getBlockPtrByIndex b = some gt)
    (hgl : map.label_layer.getBlockPtrByIndex b = some gl)
    (h : extractVoxel c b gt gl i m = .ok m1) (hinv : ExtractInv vs map D m) :
    ExtractInv vs map (fun b1 j => D b1 j ∨ (b1 = b ∧ j = i)) m1 := by
  rcases extractVoxel_ok_cases h with ⟨rfl, hcase⟩ | ⟨tl, ll, h0, hl, rfl⟩
  · intro L p hp
    obtain ⟨a1, a2, a3⟩ := hinv L p hp
    refine ⟨a1, a2, fun b1 => SubBlockOk_of_not_carries ?_ (a3 b1)⟩
    rw [Carries_iff hgl]
    rintro ⟨hL0, hlab⟩
    rcases hcase with h0 | ⟨hnone, _⟩
    · exact hL0 (hlab ▸ h0)
    · rw [hlab, hp] at hnone
      cases hnone
  · intro L p hp
    by_cases hL : L = (gl.getVoxelByLinearIndex i).label
    · subst hL
      rw [AList.lookup_insert] at hp
      cases hp
      obtain ⟨a1, a2, a3⟩ := hinv _ _ hl
      refine ⟨by rw [Layer.writeVoxel_size]; exact a1, by rw [Layer.writeVoxel_size]; exact a2,
        fun b1 => SubBlockOk_write i hgt hgl ?_ b1 (a3 b1)⟩
      rw [Carries_iff hgl]
      exact ⟨h0, rfl⟩
    · rw [AList.lookup_insert_ne hL] at hp
      obtain ⟨a1, a2, a3⟩ := hinv L p hp
      refine ⟨a1, a2, fun b1 => SubBlockOk_of_not_carries ?_ (a3 b1)⟩
      rw [Carries_iff hgl]
      rintro ⟨_, hlab⟩
      exact hL hlab.symm

theorem extractVoxel_mem {n : Nat} {c : Bool} {b : BlockIndex}
    {gt : Block TsdfVoxel n} {gl : Block LabelVoxel n} {i : Fin (n * n * n)}
    {m m1 : LabelLayersMap n} (h : extractVoxel c b gt gl i m = .ok m1) (L : Label) :
    L ∈ m1 ↔ L ∈ m := by
  rcases extractVoxel_ok_cases h with ⟨rfl, _⟩ | ⟨tl, ll, _, hl, rfl⟩
  · exact Iff.rfl
  · rw [AList.mem_insert]
    constructor
    · rintro (e | hm)
      · subst e
        rw [← AList.lookup_isSome, hl]
        rfl
      · exact hm
    · exact Or.inr

theorem extractVoxel_listed {n : Nat} {c : Bool} {b : BlockIndex}
    {gt : Block TsdfVoxel n} {gl : Block LabelVoxel n} {i : Fin (n * n * n)}
    {m m1 : LabelLayersMap n} (h : extractVoxel c b gt gl i m = .ok m1) (hc : c = true) :
    (gl.getVoxelByLinearIndex i).label = 0 ∨ (gl.getVoxelByLinearIndex i).label ∈ m := by
  rcases extractVoxel_ok_cases h with ⟨_, h0 | ⟨_, hf⟩⟩ | ⟨tl, ll, _, hl, _⟩
  · exact Or.inl h0
  · rw [hc] at hf
    cases hf
  · right
    rw [← AList.lookup_isSome, hl]
    rfl

theorem extractVoxel_error {n : Nat} {c : Bool} {b : BlockIndex}
    {gt : Block TsdfVoxel n} {gl : Block LabelVoxel n} {i : Fin (n * n * n)}
    {m : LabelLayersMap n} {e : Fatal} (h : extractVoxel c b gt gl i m = .error e) :
    c = true ∧ e = Fatal.labelNotInList (gl.getVoxelByLinearIndex i).label ∧
      (gl.getVoxelByLinearIndex i).label ≠ 0 ∧ (gl.getVoxelByLinearIndex i).label ∉ m := by
  unfold extractVoxel at h
  simp only at h
  split at h
  · cases h
  · rename_i h0
    split at h
    · rename_i hl
      split at h
      · rename_i hc
        injection h with h
        exact ⟨hc, h.symm, h0, AList.lookup_eq_none.1 hl⟩
      · cases h
    · cases h

theorem extractBlockVoxels_mem {n : Nat} {c : Bool} {b : BlockIndex}
    {gt : Block TsdfVoxel n} {gl : Block LabelVoxel n} :
    ∀ (is : List (Fin (n * n * n))) (m m1 : LabelLayersMap n),
      extractBlockVoxels c b gt gl is m = .ok m1 → ∀ L, L ∈ m1 ↔ L ∈ m := by
  intro is
  induction is with
  | nil =>
    intro m m1 h L
    unfold extractBlockVoxels at h
    cases h
    exact Iff.rfl
  | cons i rest ih =>
    intro m m1 h L
    unfold extractBlockVoxels at h
    split at h
    · cases h
    · rename_i m2 hstep
      exact (ih m2 m1 h L).trans (extractVoxel_mem hstep L)

theorem extractBlockVoxels_ok {n : Nat} {vs : FloatingPoint} {map : LabelTsdfMap n}
    {c : Bool} {b : BlockIndex} {gt : Block TsdfVoxel n} {gl : Block LabelVoxel n}
    (hgt : map.tsdf_layer.getBlockPtrByIndex b = some gt)
    (hgl : map.label_layer.getBlockPtrByIndex b = some gl) :
    ∀ (is : List (Fin (n * n * n))) (m m1 : LabelLayersMap n)
      (D : BlockIndex → Fin (n * n * n) → Prop),
      extractBlockVoxels c b gt gl is m = .ok m1 → ExtractInv vs map D m →
      ExtractInv vs map (fun b1 j => D b1 j ∨ (b1 = b ∧ j ∈ is)) m1 ∧
      (∀ L, L ∈ m1 ↔ L ∈ m) ∧
      (c = true → ∀ i ∈ is, (gl.getVoxelByLinearIndex i).label = 0 ∨
        (gl.getVoxelByLinearIndex i).label ∈ m) := by
  intro is
  induction is with
  | nil =>
    intro m m1 D h hinv
    unfold extractBlockVoxels at h
    cases h
    refine ⟨ExtractInv_congr (fun b1 j => ?_) hinv, fun _ => Iff.rfl, fun _ i hi => ?_⟩
    · simp
    · cases hi
  | cons i rest ih =>
    intro m m1 D h hinv
    unfold extractBlockVoxels at h
    split at h
    · cases h
    · rename_i m2 hstep
      obtain ⟨r1, r2, r3⟩ := ih m2 m1 _ h (extractVoxel_inv hgt hgl hstep hinv)
      have hk := extractVoxel_mem hstep
      refine ⟨ExtractInv_congr (fun b1 j => ?_) r1, fun L => (r2 L).trans (hk L),
        fun hc j hj => ?_⟩
      · simp only [List.mem_cons]
        constructor
        · rintro (hd | ⟨e1, e2 | e2⟩)
          · exact Or.inl (Or.inl hd)
          · exact Or.inl (Or.inr ⟨e1, e2⟩)
          · exact Or.inr ⟨e1, e2⟩
        · rintro ((hd | ⟨e1, e2⟩) | ⟨e1, e2⟩)
          · exact Or.inl hd
          · exact Or.inr ⟨e1, Or.inl e2⟩
          · exact Or.inr ⟨e1, Or.inr e2⟩
      · rcases List.mem_cons.1 hj with e | hj
        · subst e
          exact extractVoxel_listed hstep hc
        · rcases r3 hc j hj with h0 | hm
          · exact Or.inl h0
          · exact Or.inr ((hk _).1 hm)

theorem extractBlockVoxels_error {n : Nat} {c : Bool} {b : BlockIndex}
    {gt : Block TsdfVoxel n} {gl : Block LabelVoxel n} {e : Fatal} :
    ∀ (is : List (Fin (n * n * n))) (m : LabelLayersMap n),
      extractBlockVoxels c b gt gl is m = .error e →
      c = true ∧ ∃ i ∈ is, e = Fatal.labelNotInList (gl.getVoxelByLinearIndex i).label ∧
        (gl.getVoxelByLinearIndex i).label ≠ 0 ∧ (gl.getVoxelByLinearIndex i).label ∉ m := by
  intro is
  induction is with
  | nil =>
    intro m h
    unfold extractBlockVoxels at h
    cases h
  | cons i rest ih =>
    intro m h
    unfold extractBlockVoxels at h
    split at h
    · rename_i e1 hstep
      injection h with h
      subst h
      obtain ⟨hc, he, h0, hm⟩ := extractVoxel_error hstep
      exact ⟨hc, i, List.mem_cons_self _ _, he, h0, hm⟩
    · rename_i m2 hstep
      obtain ⟨hc, j, hj, he, h0, hm⟩ := ih m2 h
      exact ⟨hc, j, List.mem_cons_of_mem _ hj, he, h0,
        fun hh => hm ((extractVoxel_mem hstep _).2 hh)⟩

theorem extractBlocks_ok {n : Nat} {vs : FloatingPoint} {map : LabelTsdfMap n} {c : Bool} :
    ∀ (bs : List BlockIndex) (m m1 : LabelLayersMap n)
      (D : BlockIndex → Fin (n * n * n) → Prop),
      extractBlocks map c bs m = .ok m1 → ExtractInv vs map D m →
      ExtractInv vs map (fun b1 j => D b1 j ∨ b1 ∈ bs) m1 ∧
      (∀ L, L ∈ m1 ↔ L ∈ m) ∧
      (c = true → ∀ b ∈ bs, ∀ i lv, map.label_layer.voxelAt b i = some lv →
        lv.label = 0 ∨ lv.label ∈ m) := by
  intro bs
  induction bs with
  | nil =>
    intro m m1 D h hinv
    unfold extractBlocks at h
    cases h
    refine ⟨ExtractInv_congr (fun b1 j => ?_) hinv, fun _ => Iff.rfl, fun _ b hb => ?_⟩
    · simp
    · cases hb
  | cons b rest ih =>
    intro m m1 D h hinv
    unfold extractBlocks at h
    split at h
    · rename_i gt gl hgt hgl
      split at h
      · cases h
      · rename_i m2 hblk
        obtain ⟨q1, q2, q3⟩ := extractBlockVoxels_ok hgt hgl _ _ _ D hblk hinv
        obtain ⟨r1, r2, r3⟩ := ih m2 m1 _ h q1
        refine ⟨ExtractInv_congr (fun b1 j => ?_) r1, fun L => (r2 L).trans (q2 L),
          fun hc b1 hb1 i lv hlv => ?_⟩
        · simp only [List.mem_cons, List.mem_finRange, and_true]
          constructor
          · rintro (hd | e1 | e2)
            · exact Or.inl (Or.inl hd)
            · exact Or.inl (Or.inr e1)
            · exact Or.inr e2
          · rintro ((hd | e1) | e2)
            · exact Or.inl hd
            · exact Or.inr (Or.inl e1)
            · exact Or.inr (Or.inr e2)
        · rcases List.mem_cons.1 hb1 with e | hb1
          · subst e
            unfold Layer.voxelAt at hlv
            rw [hgl] at hlv
            simp only [Option.map_some', Option.some.injEq] at hlv
            subst hlv
            exact q3 hc i (List.mem_finRange i)
          · rcases r3 hc b1 hb1 i lv hlv with h0 | hm
            · exact Or.inl h0
            · exact Or.inr ((q2 _).1 hm)
    · cases h

theorem extractBlocks_error {n : Nat} {map : LabelTsdfMap n} {c : Bool} {e : Fatal} :
    ∀ (bs : List BlockIndex) (m : LabelLayersMap n),
      extractBlocks map c bs m = .error e →
      (∃ b ∈ bs, e = Fatal.nullBlock b ∧
        (map.tsdf_layer.getBlockPtrByIndex b = none ∨
          map.label_layer.getBlockPtrByIndex b = none)) ∨
      (c = true ∧ ∃ b ∈ bs, ∃ i lv, map.label_layer.voxelAt b i = some lv ∧
        e = Fatal.labelNotInList lv.label ∧ lv.label ≠ 0 ∧ lv.label ∉ m) := by
  intro bs
  induction bs with
  | nil =>
    intro m h
    unfold extractBlocks at h
    cases h
  | cons b rest ih =>
    intro m h
    unfold extractBlocks at h
    split at h
    · rename_i gt gl hgt hgl
      split at h
      · rename_i e1 hblk
        injection h with h
        subst h
        obtain ⟨hc, i, _, he, h0, hm⟩ := extractBlockVoxels_error _ _ hblk
        right
        refine ⟨hc, b, List.mem_cons_self _ _, i, gl.getVoxelByLinearIndex i, ?_, he, h0, hm⟩
        unfold Layer.voxelAt
        rw [hgl]
        rfl
      · rename_i m2 hblk
        have hk := extractBlockVoxels_mem _ _ _ hblk
        rcases ih m2 h with ⟨b1, hb1, he, hn⟩ | ⟨hc, b1, hb1, i, lv, hlv, he, h0, hm⟩
        · exact Or.inl ⟨b1, List.mem_cons_of_mem _ hb1, he, hn⟩
        · exact Or.inr ⟨hc, b1, List.mem_cons_of_mem _ hb1, i, lv, hlv, he, h0,
            fun hh => hm ((hk _).2 hh)⟩
    · rename_i hnull
      injection h with h
      subst h
      left
      refine ⟨b, List.mem_cons_self _ _, rfl, ?_⟩
      cases hgt : map.tsdf_layer.getBlockPtrByIndex b with
      | none => exact Or.inl rfl
      | some gt =>
        cases hgl : map.label_layer.getBlockPtrByIndex b with
        | none => exact Or.inr rfl
        | some gl => exact absurd hgl (hnull gt gl hgt)

/-! ## The pre-allocation loop -/

theorem emplace_mem {n : Nat} (m : LabelLayersMap n) (a : Label) (p : LayerPair n)
    (L : Label) : L ∈ emplace m a p ↔ L = a ∨ L ∈ m := by
  unfold emplace
  split
  · rename_i q hq
    constructor
    · exact Or.inr
    · rintro (e | hm)
      · subst e
        rw [← AList.lookup_isSome, hq]
        rfl
      · exact hm
  · exact AList.mem_insert m

theorem emplace_lookup {n : Nat} (m : LabelLayersMap n) (a : Label) (p q : LayerPair n)
    (L : Label) (h : (emplace m a p).lookup L = some q) : m.lookup L = some q ∨ q = p := by
  unfold emplace at h
  split at h
  · exact Or.inl h
  · by_cases e : L = a
    · subst e
      rw [AList.lookup_insert] at h
      cases h
      exact Or.inr rfl
    · rw [AList.lookup_insert_ne e] at h
      exact Or.inl h

theorem emplaceLabels_mem {n : Nat} (cfg : MapConfig) :
    ∀ (labels : List Label) (m : LabelLayersMap n) (L : Label),
      L ∈ emplaceLabels cfg labels m ↔ L ∈ labels ∨ L ∈ m := by
  intro labels
  induction labels with
  | nil =>
    intro m L
    simp [emplaceLabels]
  | cons a rest ih =>
    intro m L
    have h := ih (emplace m a (Layer.empty cfg.voxel_size, Layer.empty cfg.voxel_size)) L
    unfold emplaceLabels at h ⊢
    rw [List.foldl_cons, h, emplace_mem, List.mem_cons]
    tauto

theorem emplaceLabels_lookup {n : Nat} (cfg : MapConfig) :
    ∀ (labels : List Label) (m : LabelLayersMap n) (L : Label) (q : LayerPair n),
      (emplaceLabels cfg labels m).lookup L = some q →
      m.lookup L = some q ∨ q = (Layer.empty cfg.voxel_size, Layer.empty cfg.voxel_size) := by
  intro labels
  induction labels with
  | nil =>
    intro m L q h
    exact Or.inl h
  | cons a rest ih =>
    intro m L q h
    unfold emplaceLabels at h
    rw [List.foldl_cons] at h
    rcases ih _ L q h with h1 | h1
    · exact emplace_lookup m a _ q L h1
    · exact Or.inr h1

theorem ExtractInv_emplaceLabels {n : Nat} (cfg : MapConfig) (map : LabelTsdfMap n)
    (labels : List Label) :
    ExtractInv cfg.voxel_size map (fun _ _ => False)
      (emplaceLabels cfg labels (∅ : LabelLayersMap n)) := by
  intro L p hp
  rcases emplaceLabels_lookup cfg labels ∅ L p hp with h | h
  · rw [AList.lookup_empty] at h
    cases h
  · subst h
    refine ⟨rfl, rfl, fun b => Or.inl ⟨?_, ?_, fun i hi => hi.elim⟩⟩
    · exact AList.lookup_empty b
    · exact AList.lookup_empty b

/-- Summary of a successful extraction into an empty map: the entries are the requested
labels, every sub-layer pair is the masked copy of the visited global blocks, and with a
complete list every visited non-zero label was requested. -/
theorem extractSegmentLayers_ok {n : Nat} {cfg : MapConfig} {map : LabelTsdfMap n}
    {labels : List Label} {c : Bool} {m : LabelLayersMap n}
    (h : extractSegmentLayers cfg map labels ∅ c = .ok m) :
    ExtractInv cfg.voxel_size map
        (fun b _ => b ∈ map.tsdf_layer.getAllAllocatedBlocks) m ∧
      (∀ L, L ∈ m ↔ L ∈ labels) ∧
      (c = true → ∀ b ∈ map.tsdf_layer.getAllAllocatedBlocks, ∀ i lv,
        map.label_layer.voxelAt b i = some lv → lv.label = 0 ∨ lv.label ∈ labels) := by
  unfold extractSegmentLayers at h
  obtain ⟨r1, r2, r3⟩ := extractBlocks_ok _ _ _ _ h (ExtractInv_emplaceLabels cfg map labels)
  have hk : ∀ L, L ∈ emplaceLabels cfg labels (∅ : LabelLayersMap n) ↔ L ∈ labels := by
    intro L
    rw [emplaceLabels_mem]
    constructor
    · rintro (h1 | h1)
      · exact h1
      · exact absurd h1 (AList.not_mem_empty L)
    · exact Or.inl
  refine ⟨ExtractInv_congr (fun b j => ?_) r1, fun L => (r2 L).trans (hk L),
    fun hc b hb i lv hlv => ?_⟩
  · simp
  · rcases r3 hc b hb i lv hlv with h0 | hm
    · exact Or.inl h0
    · exact Or.inr ((hk _).1 hm)

/-! ## The publish loop -/

theorem pushMergedLabels_eq (published : Finset Label) :
    ∀ (merged old_labels : List Label),
      pushMergedLabels published merged old_labels =
        old_labels ++ merged.filter (fun l => decide (l ∈ published)) := by
  intro merged
  induction merged with
  | nil =>
    intro old_labels
    simp [pushMergedLabels]
  | cons a rest ih =>
    intro old_labels
    unfold pushMergedLabels
    by_cases ha : a ∈ published
    · rw [if_pos ha, ih, List.filter_cons_of_pos (by simpa using ha)]
      simp
    · rw [if_neg ha, ih, List.filter_cons_of_neg (by simpa using ha)]

theorem merges_erase_absent (merges : AList (fun _ : Label => List Label)) (label : Label)
    (h : merges.lookup label = none) : merges.erase label = merges := by
  apply AList.ext
  exact List.kerase_of_not_mem_keys (AList.lookup_eq_none.1 h)

theorem not_publishable_of_small {n : Nat} {ext : Collaborators n} {m : LabelLayersMap n}
    {X : Label} {p : LayerPair n} (hp : m.lookup X = some p)
    (hsmall : p.1.getNumberOfAllocatedBlocks < kMinNumberOfAllocatedBlocksToPublish) :
    publishable ext m X = false := by
  unfold publishable
  rw [hp]
  simp [hsmall]

theorem insert_present_mem {n : Nat} {m : LabelLayersMap n} {label : Label}
    {p q : LayerPair n} (hp : m.lookup label = some p) (k : Label) :
    k ∈ m.insert label q ↔ k ∈ m := by
  rw [AList.mem_insert]
  constructor
  · rintro (e | hm)
    · subst e
      rw [← AList.lookup_isSome, hp]
      rfl
    · exact hm
  · exact Or.inr

/-- What one successful turn of the publish loop does. -/
theorem publishLabel_ok {n : Nat} {ext : Collaborators n} {st st1 : PublishState n}
    {label : Label} (h : publishLabel ext st label = .ok st1) :
    (∀ k, k ≠ label → st1.label_to_layers.lookup k = st.label_to_layers.lookup k) ∧
    (∀ k, k ∈ st1.label_to_layers ↔ k ∈ st.label_to_layers) ∧
    (st1.label_to_layers.lookup label = st.label_to_layers.lookup label ∨
      ∃ p, st.label_to_layers.lookup label = some p ∧
        st1.label_to_layers.lookup label =
          some ((ext.centerBlocksOfTsdfLayer p.1).1, (ext.centerBlocksOfLabelLayer p.2).1)) ∧
    (∀ p, st.label_to_layers.lookup label = some p →
      p.1.getNumberOfAllocatedBlocks < kMinNumberOfAllocatedBlocksToPublish → st1 = st) ∧
    ((publishable ext st.label_to_layers label = false ∧
        st1.all_published_segments = st.all_published_segments ∧
        st1.merges_to_publish = st.merges_to_publish ∧
        st1.sink = st.sink ∧
        st1.published_segment_label = st.published_segment_label) ∨
      (publishable ext st.label_to_layers label = true ∧ ∃ r : GsmUpdate n, r.label = label ∧
        r.old_labels = oldLabelsAt st.all_published_segments st.merges_to_publish [] label ∧
        st1.sink = st.sink ++ [r] ∧
        st1.all_published_segments = insert label st.all_published_segments ∧
        st1.merges_to_publish = st.merges_to_publish.erase label ∧
        st1.published_segment_label = true)) := by
  unfold publishLabel at h
  split at h
  · cases h
  · rename_i tl ll hl
    simp only at h
    split at h
    · rename_i hlt
      injection h with h
      subst h
      exact ⟨fun _ _ => rfl, fun _ => Iff.rfl, Or.inl rfl, fun _ _ _ => rfl,
        Or.inl ⟨by simp [publishable, hl, hlt], rfl, rfl, rfl, rfl⟩⟩
    · rename_i hlt
      split at h
      · cases h
      · split at h
        · rename_i hempty
          injection h with h
          subst h
          refine ⟨fun k hk => AList.lookup_insert_ne hk, fun k => insert_present_mem hl k,
            Or.inr ⟨_, hl, AList.lookup_insert _⟩, fun p hp hsmall => ?_,
            Or.inl ⟨by simp [publishable, hl, hempty], rfl, rfl, rfl, rfl⟩⟩
          rw [hl] at hp
          cases hp
          exact absurd hsmall hlt
        · rename_i hempty
          injection h with h
          subst h
          refine ⟨fun k hk => AList.lookup_insert_ne hk, fun k => insert_present_mem hl k,
            Or.inr ⟨_, hl, AList.lookup_insert _⟩, fun p hp hsmall => ?_, Or.inr ?_⟩
          · rw [hl] at hp
            cases hp
            exact absurd hsmall hlt
          · refine ⟨by simp [publishable, hl, hlt, hempty], ?_⟩
            cases hm : st.merges_to_publish.lookup label with
            | none =>
              refine ⟨_, rfl, ?_, rfl, rfl, ?_, rfl⟩
              · simp [oldLabelsAt, hm]
              · simp only [hm]
                exact (merges_erase_absent _ _ hm).symm
            | some merged =>
              refine ⟨_, rfl, ?_, rfl, rfl, ?_, rfl⟩
              · simp [oldLabelsAt, hm, pushMergedLabels_eq]
              · simp only [hm]

theorem publishLabel_error {n : Nat} {ext : Collaborators n} {st : PublishState n}
    {label : Label} {e : Fatal} (h : publishLabel ext st label = .error e) :
    (st.label_to_layers.lookup label = none ∧ e = Fatal.layersNotExtracted label) ∨
    (∃ p, st.label_to_layers.lookup label = some p ∧
      (ext.centerBlocksOfTsdfLayer p.1).2 ≠ (ext.centerBlocksOfLabelLayer p.2).2 ∧
      e = Fatal.originMismatch label) := by
  unfold publishLabel at h
  split at h
  · rename_i hl
    injection h with h
    exact Or.inl ⟨hl, h.symm⟩
  · rename_i tl ll hl
    simp only at h
    split at h
    · cases h
    · split at h
      · rename_i hne
        injection h with h
        exact Or.inr ⟨(tl, ll), hl, hne, h.symm⟩
      · split at h <;> cases h

theorem publishLabel_shape {n : Nat} {ext : Collaborators n} {st st1 : PublishState n}
    {label : Label} (h : publishLabel ext st label = .ok st1) (hcenter : CenterByBlocks ext)
    (hshape : SharedShape st.label_to_layers) : SharedShape st1.label_to_layers := by
  obtain ⟨h1, _, h3, _, _⟩ := publishLabel_ok h
  obtain ⟨f, g, hh, hT, hL⟩ := hcenter
  intro L p hp
  by_cases hL1 : L = label
  · subst hL1
    rcases h3 with h3 | ⟨q, hq, h3⟩
    · rw [h3] at hp
      exact hshape L p hp
    · rw [h3] at hp
      cases hp
      obtain ⟨e1, e2⟩ := hshape L q hq
      refine ⟨?_, ?_⟩
      · rw [(hT q.1).2.1, (hL q.2).2.1, e1, e2]
        rfl
      · rw [(hT q.1).2.2, (hL q.2).2.2, e1, e2]
        rfl
  · rw [h1 L hL1] at hp
    exact hshape L p hp

theorem oldLabelsAt_step (published : Finset Label)
    (merges : AList (fun _ : Label => List Label)) (label : Label) (earlier : List Label)
    (x : Label) :
    oldLabelsAt (insert label published) (merges.erase label) earlier x =
      oldLabelsAt published merges (label :: earlier) x := by
  have hset : insert label published ∪ earlier.toFinset =
      published ∪ (label :: earlier).toFinset := by
    ext y
    simp only [Finset.mem_union, Finset.mem_insert, List.mem_toFinset, List.mem_cons]
    tauto
  unfold oldLabelsAt
  rw [hset]
  congr 1
  by_cases hx : x = label
  · subst hx
    rw [if_pos (List.mem_cons_self _ _), AList.lookup_erase]
    split <;> rfl
  · rw [AList.lookup_erase_ne hx]
    by_cases hE : x ∈ earlier
    · rw [if_pos hE, if_pos (List.mem_cons_of_mem _ hE)]
    · have hE1 : x ∉ label :: earlier := by
        intro hh
        rcases List.mem_cons.1 hh with e | e
        · exact hx e
        · exact hE e
      rw [if_neg hE, if_neg hE1]

/-- Effect of the publish loop in terms of the records `recs` it hands to the sink. -/
theorem publishLabels_spec {n : Nat} {ext : Collaborators n} :
    ∀ (labels : List Label) (st st1 : PublishState n) (fe : Option Fatal),
      publishLabels ext labels st = (st1, fe) →
      ∃ recs : List (GsmUpdate n),
        st1.sink = st.sink ++ recs ∧
        st1.all_published_segments =
          st.all_published_segments ∪ (recs.map (fun r => r.label)).toFinset ∧
        (∀ k, st1.merges_to_publish.lookup k =
          if k ∈ recs.map (fun r => r.label) then none else st.merges_to_publish.lookup k) ∧
        st1.published_segment_label = (st.published_segment_label || !recs.isEmpty) ∧
        (recs.map (fun r => r.label)).Sublist labels ∧
        (∀ pre r post, recs = pre ++ r :: post →
          r.old_labels = oldLabelsAt st.all_published_segments st.merges_to_publish
            (pre.map (fun r => r.label)) r.label) ∧
        (∀ X p, st.label_to_layers.lookup X = some p →
          p.1.getNumberOfAllocatedBlocks < kMinNumberOfAllocatedBlocksToPublish →
          X ∉ recs.map (fun r => r.label)) ∧
        (fe = none → ∀ X ∈ labels, publishable ext st.label_to_layers X = true →
          X ∈ recs.map (fun r => r.label)) := by
  intro labels
  induction labels with
  | nil =>
    intro st st1 fe h
    unfold publishLabels at h
    cases h
    refine ⟨[], by simp, by simp, by simp, by simp, by simp, ?_, ?_, ?_⟩
    · intro pre r post hd
      cases pre <;> cases hd
    · intro X p _ _ hx
      cases hx
    · intro _ X hX
      cases hX
  | cons label rest ih =>
    intro st st1 fe h
    unfold publishLabels at h
    split at h
    · rename_i e hstep
      cases h
      refine ⟨[], by simp, by simp, by simp, by simp, by simp, ?_, ?_, ?_⟩
      · intro pre r post hd
        cases pre <;> cases hd
      · intro X p _ _ hx
        cases hx
      · intro hh
        cases hh
    · rename_i st2 hstep
      obtain ⟨recs, h1, h2, h3, h4, h5, h6, h7, h8⟩ := ih st2 st1 fe h
      obtain ⟨k1, _, _, k4, k5⟩ := publishLabel_ok hstep
      have hsmall : ∀ X p, st.label_to_layers.lookup X = some p →
          p.1.getNumberOfAllocatedBlocks < kMinNumberOfAllocatedBlocksToPublish →
          X ∉ recs.map (fun r => r.label) := by
        intro X p hp hlt
        by_cases hXl : X = label
        · subst hXl
          have := k4 p hp hlt
          subst this
          exact h7 X p hp hlt
        · exact h7 X p (by rw [k1 X hXl]; exact hp) hlt
      have hlater : fe = none → ∀ X ∈ rest, X ≠ label →
          publishable ext st.label_to_layers X = true → X ∈ recs.map (fun r => r.label) := by
        intro hfe X hX hXl hpub
        apply h8 hfe X hX
        unfold publishable at hpub ⊢
        rw [k1 X hXl]
        exact hpub
      rcases k5 with ⟨hp, g2, g3, g1, g4⟩ | ⟨hp, r0, hr0, hold, g1, g2, g3, g4⟩
      · refine ⟨recs, ?_, ?_, ?_, ?_, List.Sublist.cons _ h5, ?_, hsmall, ?_⟩
        · rw [h1, g1]
        · rw [h2, g2]
        · intro k
          rw [h3 k, g3]
        · rw [h4, g4]
        · intro pre r post hd
          rw [h6 pre r post hd, g2, g3]
        · intro hfe X hX hpub
          rcases List.mem_cons.1 hX with e | hX
          · subst e
            rw [hp] at hpub
            cases hpub
          · by_cases hXl : X = label
            · subst hXl
              rw [hp] at hpub
              cases hpub
            · exact hlater hfe X hX hXl hpub
      · refine ⟨r0 :: recs, ?_, ?_, ?_, ?_, ?_, ?_, ?_, ?_⟩
        · rw [h1, g1]
          simp
        · rw [h2, g2]
          ext y
          simp only [Finset.mem_union, Finset.mem_insert, List.mem_toFinset, List.map_cons,
            List.mem_cons, hr0]
          tauto
        · intro k
          rw [h3 k, g3, List.map_cons, hr0]
          by_cases hk : k = label
          · subst hk
            rw [AList.lookup_erase, if_pos (List.mem_cons_self _ _)]
            split <;> rfl
          · rw [AList.lookup_erase_ne hk]
            by_cases hkr : k ∈ recs.map (fun r => r.label)
            · rw [if_pos hkr, if_pos (List.mem_cons_of_mem _ hkr)]
            · have hkr1 : k ∉ label :: recs.map (fun r => r.label) := by
                intro hh
                rcases List.mem_cons.1 hh with e | e
                · exact hk e
                · exact hkr e
              rw [if_neg hkr, if_neg hkr1]
        · rw [h4, g4]
          simp
        · rw [List.map_cons, hr0]
          exact List.Sublist.cons₂ _ h5
        · intro pre r post hd
          cases pre with
          | nil =>
            simp only [List.nil_append, List.cons.injEq] at hd
            obtain ⟨e1, _⟩ := hd
            subst e1
            rw [hold, hr0]
            rfl
          | cons a pre1 =>
            simp only [List.cons_append, List.cons.injEq] at hd
            obtain ⟨e1, e2⟩ := hd
            subst e1
            rw [h6 pre1 r post e2, g2, g3, oldLabelsAt_step, List.map_cons, hr0]
        · intro X p hpX hlt
          rw [List.map_cons, hr0]
          intro hmem
          rcases List.mem_cons.1 hmem with e | e
          · subst e
            rw [not_publishable_of_small hpX hlt] at hp
            cases hp
          · exact hsmall X p hpX hlt e
        · intro hfe X hX hpub
          rw [List.map_cons, hr0]
          by_cases hXl : X = label
          · subst hXl
            exact List.mem_cons_self _ _
          · rcases List.mem_cons.1 hX with e | hX
            · exact absurd e hXl
            · exact List.mem_cons_of_mem _ (hlater hfe X hX hXl hpub)

/-- A fatal check that stops the publish loop is raised by the turn of one of the labels,
in a state whose map of sub-layers has the entries of the initial one. -/
theorem publishLabels_fatal {n : Nat} {ext : Collaborators n} :
    ∀ (labels : List Label) (st st1 : PublishState n) (e : Fatal),
      publishLabels ext labels st = (st1, some e) →
      ∃ label ∈ labels, ∃ st2, publishLabel ext st2 label = .error e ∧
        (∀ k, k ∈ st2.label_to_layers ↔ k ∈ st.label_to_layers) ∧
        (CenterByBlocks ext → SharedShape st.label_to_layers →
          SharedShape st2.label_to_layers) := by
  intro labels
  induction labels with
  | nil =>
    intro st st1 e h
    unfold publishLabels at h
    cases h
  | cons label rest ih =>
    intro st st1 e h
    unfold publishLabels at h
    split at h
    · rename_i e1 hstep
      cases h
      exact ⟨label, List.mem_cons_self _ _, st, hstep, fun _ => Iff.rfl, fun _ hs => hs⟩
    · rename_i st2 hstep
      obtain ⟨l1, hl1, st3, herr, hk, hs⟩ := ih st2 st1 e h
      obtain ⟨_, k2, _, _, _⟩ := publishLabel_ok hstep
      exact ⟨l1, List.mem_cons_of_mem _ hl1, st3, herr, fun k => (hk k).trans (k2 k),
        fun hc hshape => hs hc (publishLabel_shape hstep hc hshape)⟩

/-! ## Counting voxels -/

theorem Block.countP_congr {V W : Type} {n : Nat} (b1 : Block V n) (b2 : Block W n)
    (p : V → Bool) (q : W → Bool)
    (h : ∀ j, p (b1.getVoxelByLinearIndex j) = q (b2.getVoxelByLinearIndex j)) :
    b1.voxels.countP p = b2.voxels.countP q := by
  have hmap : b1.voxels.map p = b2.voxels.map q := by
    apply List.ext_get
    · simp [b1.size_eq, b2.size_eq]
    · intro k h1 h2
      have hk : k < n * n * n := by
        rw [List.length_map, b1.size_eq] at h1
        exact h1
      have := h ⟨k, hk⟩
      simpa [Block.getVoxelByLinearIndex] using this
  calc b1.voxels.countP p = (b1.voxels.map p).countP id := by
        rw [List.countP_map]; rfl
    _ = (b2.voxels.map q).countP id := by rw [hmap]
    _ = b2.voxels.countP q := by
        rw [List.countP_map]; rfl

theorem Block.countP_zero {V : Type} {n : Nat} (b1 : Block V n) (p : V → Bool)
    (h : ∀ j, p (b1.getVoxelByLinearIndex j) = false) : b1.voxels.countP p = 0 := by
  rw [Block.countP_congr b1 b1 p (fun _ => false) h]
  simp

theorem sum_entries_eq {α β : Type} [DecidableEq α] (φ : β → Nat)
    (s : AList (fun _ : α => β)) :
    (s.entries.map (fun e => φ e.2)).sum =
      ∑ b in s.keys.toFinset, ((s.lookup b).map φ).getD 0 := by
  induction s using AList.insertRec with
  | H0 => simp
  | IH a v l ha ih =>
    have hk : (l.insert a v).keys = a :: l.keys := by
      rw [AList.keys_insert]
      congr 1
      exact List.erase_of_not_mem (AList.mem_keys.not.1 ha)
    rw [AList.insert_entries_of_neg ha, hk, List.toFinset_cons, List.map_cons, List.sum_cons,
      Finset.sum_insert (by simpa using ha), AList.lookup_insert, ih]
    congr 1
    apply Finset.sum_congr rfl
    intro b hb
    have hne : b ≠ a := by
      rintro rfl
      exact ha (by simpa using hb)
    rw [AList.lookup_insert_ne hne]

theorem Layer.countVoxels_eq_sum {V : Type} {n : Nat} (p : V → Bool) (l : Layer V n) :
    l.countVoxels p =
      ∑ b in l.blockIndexSet,
        ((l.getBlockPtrByIndex b).map (fun blk => blk.voxels.countP p)).getD 0 := by
  unfold Layer.countVoxels Layer.blockIndexSet Layer.getBlockPtrByIndex
  exact sum_entries_eq (fun blk : Block V n => blk.voxels.countP p) l.block_map

/-! ## The extracted sub-layers -/

/-- Each sub-layer pair of a successful extraction, block by block. -/
theorem sub_block_view {n : Nat} {cfg : MapConfig} {map : LabelTsdfMap n}
    {labels : List Label} {c : Bool} {m : LabelLayersMap n} {L : Label} {p : LayerPair n}
    (hok : extractSegmentLayers cfg map labels ∅ c = .ok m) (hp : m.lookup L = some p)
    (b : BlockIndex) :
    (p.1.getBlockPtrByIndex b = none ∧ p.2.getBlockPtrByIndex b = none ∧
      (b ∈ map.tsdf_layer.getAllAllocatedBlocks → ∀ i, ¬ Carries map L b i)) ∨
    (∃ tb lb gt gl, p.1.getBlockPtrByIndex b = some tb ∧ p.2.getBlockPtrByIndex b = some lb ∧
      map.tsdf_layer.getBlockPtrByIndex b = some gt ∧
      map.label_layer.getBlockPtrByIndex b = some gl ∧
      b ∈ map.tsdf_layer.getAllAllocatedBlocks ∧ (∃ i, Carries map L b i) ∧
      ∀ j, (Carries map L b j →
              tb.getVoxelByLinearIndex j = gt.getVoxelByLinearIndex j ∧
              lb.getVoxelByLinearIndex j = gl.getVoxelByLinearIndex j) ∧
           (¬ Carries map L b j →
              tb.getVoxelByLinearIndex j = default ∧ lb.getVoxelByLinearIndex j = default)) := by
  obtain ⟨hinv, _, _⟩ := extractSegmentLayers_ok hok
  obtain ⟨_, _, hb⟩ := hinv L p hp
  rcases hb b with ⟨h1, h2, h3⟩ | ⟨tb, lb, gt, gl, h1, h2, h3, h4, ⟨i0, hd, hc⟩, h5⟩
  · exact Or.inl ⟨h1, h2, fun hmem i => h3 i hmem⟩
  · refine Or.inr ⟨tb, lb, gt, gl, h1, h2, h3, h4, hd, ⟨i0, hc⟩, fun j => ⟨fun hcj => ?_,
      fun hcj => ?_⟩⟩
    · exact (h5 j).1 ⟨hd, hcj⟩
    · exact (h5 j).2 (fun hh => hcj hh.2)

theorem mem_blocks_iff {V : Type} {n : Nat} (l : Layer V n) (b : BlockIndex) :
    b ∈ l.getAllAllocatedBlocks ↔ ∃ blk, l.getBlockPtrByIndex b = some blk := by
  unfold Layer.getAllAllocatedBlocks Layer.getBlockPtrByIndex
  rw [← AList.mem_keys, ← AList.lookup_isSome, Option.isSome_iff_exists]

theorem voxelAt_eq_some {V : Type} {n : Nat} {l : Layer V n} {b : BlockIndex}
    {i : Fin (n * n * n)} {v : V} (h : l.voxelAt b i = some v) :
    ∃ blk, l.getBlockPtrByIndex b = some blk ∧ blk.getVoxelByLinearIndex i = v := by
  unfold Layer.voxelAt at h
  cases hb : l.getBlockPtrByIndex b with
  | none =>
    rw [hb] at h
    cases h
  | some blk =>
    rw [hb] at h
    simp only [Option.map_some', Option.some.injEq] at h
    exact ⟨blk, rfl, h⟩

theorem default_label : (default : LabelVoxel).label = 0 := rfl

theorem SameBlocks_mem {n : Nat} {map : LabelTsdfMap n} (h : SameBlocks map) (b : BlockIndex) :
    b ∈ map.tsdf_layer.getAllAllocatedBlocks ↔ b ∈ map.label_layer.getAllAllocatedBlocks := by
  unfold SameBlocks Layer.blockIndexSet at h
  unfold Layer.getAllAllocatedBlocks
  rw [← List.mem_toFinset, ← List.mem_toFinset, h]

/-- C1 (partition completeness). For a global map whose two layers have identical
allocated block coordinates, a successful extraction into an empty map and a requested
non-zero label `L`: a position of `L`s Label sub-layer holds a non-zero label exactly
when the same position of the global Label layer holds `L`; every non-zero label of the
sub-layer is `L`; and the number of labelled voxels of the sub-layer equals the number of
voxels labelled `L` in the global layer. -/
theorem extractSegmentLayers_partition_complete {n : Nat} (cfg : MapConfig)
    (map : LabelTsdfMap n) (labels : List Label) (c : Bool) (m : LabelLayersMap n)
    (L : Label) (hsame : SameBlocks map)
    (hok : extractSegmentLayers cfg map labels ∅ c = .ok m)
    (hL0 : L ≠ 0) (hL : L ∈ labels) :
    ∃ p, m.lookup L = some p ∧
      (∀ b i, (∃ v, p.2.voxelAt b i = some v ∧ v.label ≠ 0) ↔
        (∃ v, map.label_layer.voxelAt b i = some v ∧ v.label = L)) ∧
      (∀ b i v, p.2.voxelAt b i = some v → v.label ≠ 0 → v.label = L) ∧
      p.2.countVoxels (fun v => decide (v.label ≠ 0)) =
        map.label_layer.countVoxels (fun v => decide (v.label = L)) := by
  obtain ⟨_, hkeys, _⟩ := extractSegmentLayers_ok hok
  have hmem : L ∈ m := (hkeys L).2 hL
  rw [← AList.lookup_isSome, Option.isSome_iff_exists] at hmem
  obtain ⟨p, hp⟩ := hmem
  have hview := fun b => sub_block_view hok hp b
  have hsub : ∀ b i v, p.2.voxelAt b i = some v → v.label ≠ 0 →
      map.label_layer.voxelAt b i = some v ∧ v.label = L := by
    intro b i v hv hv0
    obtain ⟨lb, hlb, hget⟩ := voxelAt_eq_some hv
    rcases hview b with ⟨_, h2, _⟩ | ⟨tb, lb1, gt, gl, _, h2, _, h4, _, _, h5⟩
    · rw [h2] at hlb
      cases hlb
    · rw [h2] at hlb
      cases hlb
      by_cases hc : Carries map L b i
      · have e := ((h5 i).1 hc).2
        rw [hget] at e
        subst e
        refine ⟨?_, ((Carries_iff h4 i).1 hc).2⟩
        unfold Layer.voxelAt
        rw [h4]
        rfl
      · have e := ((h5 i).2 hc).2
        rw [hget] at e
        subst e
        exact absurd default_label hv0
  refine ⟨p, hp, fun b i => ⟨?_, ?_⟩, fun b i v hv hv0 => (hsub b i v hv hv0).2, ?_⟩
  · rintro ⟨v, hv, hv0⟩
    exact ⟨v, hsub b i v hv hv0⟩
  · rintro ⟨v, hv, hvL⟩
    obtain ⟨gl, hgl, hget⟩ := voxelAt_eq_some hv
    have hc : Carries map L b i := (Carries_iff hgl i).2 ⟨hL0, by rw [hget]; exact hvL⟩
    have hbk : b ∈ map.tsdf_layer.getAllAllocatedBlocks :=
      (SameBlocks_mem hsame b).2 ((mem_blocks_iff _ _).2 ⟨gl, hgl⟩)
    rcases hview b with ⟨_, _, h3⟩ | ⟨tb, lb1, gt, gl1, _, h2, _, h4, _, _, h5⟩
    · exact absurd hc (h3 hbk i)
    · rw [hgl] at h4
      cases h4
      refine ⟨v, ?_, by rw [hvL]; exact hL0⟩
      unfold Layer.voxelAt
      rw [h2]
      simp only [Option.map_some', Option.some.injEq]
      rw [((h5 i).1 hc).2, hget]
  · rw [Layer.countVoxels_eq_sum, Layer.countVoxels_eq_sum]
    have hss : p.2.blockIndexSet ⊆ map.label_layer.blockIndexSet := by
      intro b hb
      unfold Layer.blockIndexSet at hb ⊢
      rw [List.mem_toFinset] at hb ⊢
      obtain ⟨lb, hlb⟩ := (mem_blocks_iff p.2 b).1 hb
      rcases hview b with ⟨_, h2, _⟩ | ⟨tb, lb1, gt, gl1, _, _, _, h4, _, _, _⟩
      · rw [h2] at hlb
        cases hlb
      · exact (mem_blocks_iff _ b).2 ⟨gl1, h4⟩
    rw [← Finset.sum_subset hss]
    · apply Finset.sum_congr rfl
      intro b hb
      unfold Layer.blockIndexSet at hb
      rw [List.mem_toFinset] at hb
      obtain ⟨lb, hlb⟩ := (mem_blocks_iff p.2 b).1 hb
      rcases hview b with ⟨_, h2, _⟩ | ⟨tb, lb1, gt, gl1, _, h2, _, h4, _, _, h5⟩
      · rw [h2] at hlb
        cases hlb
      · rw [h2, h4]
        simp only [Option.map_some', Option.getD_some]
        apply Block.countP_congr
        intro j
        by_cases hc : Carries map L b j
        · rw [((h5 j).1 hc).2]
          have hl := ((Carries_iff h4 j).1 hc).2
          simp [hl, hL0]
        · rw [((h5 j).2 hc).2]
          have hl : (gl1.getVoxelByLinearIndex j).label ≠ L :=
            fun e => hc ((Carries_iff h4 j).2 ⟨hL0, e⟩)
          simp [hl, default_label]
    · intro b hb hnb
      unfold Layer.blockIndexSet at hb hnb
      rw [List.mem_toFinset] at hb hnb
      obtain ⟨gl, hgl⟩ := (mem_blocks_iff _ b).1 hb
      have hbk : b ∈ map.tsdf_layer.getAllAllocatedBlocks := (SameBlocks_mem hsame b).2 hb
      rcases hview b with ⟨_, _, h3⟩ | ⟨tb, lb1, gt, gl1, _, h2, _, _, _, _, _⟩
      · rw [hgl]
        simp only [Option.map_some', Option.getD_some]
        apply Block.countP_zero
        intro j
        have hl : (gl.getVoxelByLinearIndex j).label ≠ L :=
          fun e => h3 hbk j ((Carries_iff hgl j).2 ⟨hL0, e⟩)
        simp [hl]
      · exact absurd ((mem_blocks_iff p.2 b).2 ⟨lb1, h2⟩) hnb

/-- Instance of C1: label 7 on the example map of twelve one-voxel blocks, ten of which
carry label 7. -/
theorem extractSegmentLayers_partition_complete_witness :
    SameBlocks (exampleMap 10 7 3) ∧
      extractSegmentLayers ⟨5⟩ (exampleMap 10 7 3) [7, 3] ∅ true = .ok exampleLayers ∧
      (7 ≠ 0 ∧ 7 ∈ [7, 3]) ∧
      ∃ p, exampleLayers.lookup 7 = some p ∧
        (∀ b i, (∃ v, p.2.voxelAt b i = some v ∧ v.label ≠ 0) ↔
          (∃ v, (exampleMap 10 7 3).label_layer.voxelAt b i = some v ∧ v.label = 7)) ∧
        (∀ b i v, p.2.voxelAt b i = some v → v.label ≠ 0 → v.label = 7) ∧
        p.2.countVoxels (fun v => decide (v.label ≠ 0)) =
          (exampleMap 10 7 3).label_layer.countVoxels (fun v => decide (v.label = 7)) :=
  ⟨by unfold SameBlocks; decide, rfl, by decide,
    extractSegmentLayers_partition_complete ⟨5⟩ (exampleMap 10 7 3) [7, 3] true exampleLayers 7
      (by unfold SameBlocks; decide) rfl (by decide) (by decide)⟩

/-- C2 (verbatim copy). After a successful extraction into an empty map, for every voxel
at block coordinate `b` and linear index `i` of the global map whose label is non-zero
and requested, the TSDF sub-layer and the Label sub-layer of that label both have a block
at `b`, and their voxels at index `i` are the global TSDF voxel and the global Label
voxel at `(b, i)`, all fields included. -/
theorem extractSegmentLayers_verbatim_copy {n : Nat} (cfg : MapConfig)
    (map : LabelTsdfMap n) (labels : List Label) (c : Bool) (m : LabelLayersMap n)
    (b : BlockIndex) (i : Fin (n * n * n)) (tv : TsdfVoxel) (lv : LabelVoxel)
    (hok : extractSegmentLayers cfg map labels ∅ c = .ok m)
    (htv : map.tsdf_layer.voxelAt b i = some tv)
    (hlv : map.label_layer.voxelAt b i = some lv)
    (h0 : lv.label ≠ 0) (hL : lv.label ∈ labels) :
    ∃ p, m.lookup lv.label = some p ∧
      b ∈ p.1.getAllAllocatedBlocks ∧ b ∈ p.2.getAllAllocatedBlocks ∧
      p.1.voxelAt b i = some tv ∧ p.2.voxelAt b i = some lv := by
  obtain ⟨_, hkeys, _⟩ := extractSegmentLayers_ok hok
  have hmem : lv.label ∈ m := (hkeys _).2 hL
  rw [← AList.lookup_isSome, Option.isSome_iff_exists] at hmem
  obtain ⟨p, hp⟩ := hmem
  obtain ⟨gt, hgt, hgtv⟩ := voxelAt_eq_some htv
  obtain ⟨gl, hgl, hglv⟩ := voxelAt_eq_some hlv
  have hc : Carries map lv.label b i := (Carries_iff hgl i).2 ⟨h0, by rw [hglv]⟩
  have hbk : b ∈ map.tsdf_layer.getAllAllocatedBlocks := (mem_blocks_iff _ _).2 ⟨gt, hgt⟩
  rcases sub_block_view hok hp b with ⟨_, _, h3⟩ | ⟨tb, lb, gt1, gl1, h1, h2, h3, h4, _, _, h5⟩
  · exact absurd hc (h3 hbk i)
  · rw [hgt] at h3
    rw [hgl] at h4
    cases h3
    cases h4
    refine ⟨p, hp, (mem_blocks_iff _ _).2 ⟨tb, h1⟩, (mem_blocks_iff _ _).2 ⟨lb, h2⟩, ?_, ?_⟩
    · unfold Layer.voxelAt
      rw [h1]
      simp only [Option.map_some', Option.some.injEq]
      rw [((h5 i).1 hc).1, hgtv]
    · unfold Layer.voxelAt
      rw [h2]
      simp only [Option.map_some', Option.some.injEq]
      rw [((h5 i).1 hc).2, hglv]

/-- Instance of C2: the voxel of block `(4, 0, 0)` of the example map, labelled 7. -/
theorem extractSegmentLayers_verbatim_copy_witness :
    extractSegmentLayers ⟨5⟩ (exampleMap 10 7 3) [7, 3] ∅ true = .ok exampleLayers ∧
      (exampleMap 10 7 3).tsdf_layer.voxelAt (4, 0, 0) 0 =
        some { distance := 4, weight := 1, color := 255 } ∧
      (exampleMap 10 7 3).label_layer.voxelAt (4, 0, 0) 0 =
        some { label := 7, accumulators := [7, 1] } ∧
      ∃ p, exampleLayers.lookup 7 = some p ∧
        (4, 0, 0) ∈ p.1.getAllAllocatedBlocks ∧ (4, 0, 0) ∈ p.2.getAllAllocatedBlocks ∧
        p.1.voxelAt (4, 0, 0) 0 = some { distance := 4, weight := 1, color := 255 } ∧
        p.2.voxelAt (4, 0, 0) 0 = some { label := 7, accumulators := [7, 1] } :=
  ⟨rfl, by decide, by decide,
    extractSegmentLayers_verbatim_copy ⟨5⟩ (exampleMap 10 7 3) [7, 3] true exampleLayers
      (4, 0, 0) 0 { distance := 4, weight := 1, color := 255 }
      { label := 7, accumulators := [7, 1] } rfl (by decide) (by decide) (by decide)
      (by decide)⟩

/-- C3 (fatal abort). With identical allocated block coordinates in the two global
layers, the extraction into an empty map ends abnormally exactly when
`labels_list_is_complete` is set and some voxel of an allocated global block carries a
non-zero label that is not in the requested list, and then by the `LOG(FATAL)` naming
such a label; with `labels_list_is_complete = false` it always returns, and a voxel whose
non-zero label has no entry is skipped, the map of sub-layers being returned as it is. -/
theorem extractSegmentLayers_fatal_iff {n : Nat} (cfg : MapConfig) (map : LabelTsdfMap n)
    (labels : List Label) (c : Bool) (hsame : SameBlocks map) :
    ((∃ e, extractSegmentLayers cfg map labels ∅ c = .error e) ↔
      (c = true ∧ ∃ b i lv, map.label_layer.voxelAt b i = some lv ∧ lv.label ≠ 0 ∧
        lv.label ∉ labels)) ∧
    (∀ e, extractSegmentLayers cfg map labels ∅ c = .error e →
      ∃ b i lv, map.label_layer.voxelAt b i = some lv ∧ lv.label ≠ 0 ∧
        lv.label ∉ labels ∧ e = Fatal.labelNotInList lv.label) ∧
    (c = false → ∃ m, extractSegmentLayers cfg map labels ∅ c = .ok m) ∧
    (∀ (b : BlockIndex) (gt : Block TsdfVoxel n) (gl : Block LabelVoxel n)
      (i : Fin (n * n * n)) (m0 : LabelLayersMap n),
      (gl.getVoxelByLinearIndex i).label ≠ 0 →
      m0.lookup (gl.getVoxelByLinearIndex i).label = none →
      extractVoxel false b gt gl i m0 = .ok m0) := by
  have hk : ∀ L, L ∈ emplaceLabels cfg labels (∅ : LabelLayersMap n) ↔ L ∈ labels := by
    intro L
    rw [emplaceLabels_mem]
    constructor
    · rintro (h1 | h1)
      · exact h1
      · exact absurd h1 (AList.not_mem_empty L)
    · exact Or.inl
  have herr : ∀ e, extractSegmentLayers cfg map labels ∅ c = .error e →
      c = true ∧ ∃ b i lv, map.label_layer.voxelAt b i = some lv ∧ lv.label ≠ 0 ∧
        lv.label ∉ labels ∧ e = Fatal.labelNotInList lv.label := by
    intro e he
    unfold extractSegmentLayers at he
    rcases extractBlocks_error _ _ he with ⟨b, hb, _, hn⟩ | ⟨hc, b, _, i, lv, hlv, hee, h0, hm⟩
    · exfalso
      obtain ⟨gt, hgt⟩ := (mem_blocks_iff _ b).1 hb
      obtain ⟨gl, hgl⟩ := (mem_blocks_iff _ b).1 ((SameBlocks_mem hsame b).1 hb)
      rcases hn with hn | hn
      · rw [hgt] at hn
        cases hn
      · rw [hgl] at hn
        cases hn
    · exact ⟨hc, b, i, lv, hlv, h0, fun hh => hm ((hk _).2 hh), hee⟩
  refine ⟨⟨?_, ?_⟩, fun e he => (herr e he).2, ?_, ?_⟩
  · rintro ⟨e, he⟩
    obtain ⟨hc, b, i, lv, hlv, h0, hm, _⟩ := herr e he
    exact ⟨hc, b, i, lv, hlv, h0, hm⟩
  · rintro ⟨hc, b, i, lv, hlv, h0, hm⟩
    cases hres : extractSegmentLayers cfg map labels ∅ c with
    | error e => exact ⟨e, rfl⟩
    | ok m =>
      exfalso
      obtain ⟨_, _, hlisted⟩ := extractSegmentLayers_ok hres
      obtain ⟨gl, hgl, _⟩ := voxelAt_eq_some hlv
      have hb : b ∈ map.tsdf_layer.getAllAllocatedBlocks :=
        (SameBlocks_mem hsame b).2 ((mem_blocks_iff _ b).2 ⟨gl, hgl⟩)
      rcases hlisted hc b hb i lv hlv with h1 | h1
      · exact h0 h1
      · exact hm h1
  · intro hc
    cases hres : extractSegmentLayers cfg map labels ∅ c with
    | error e =>
      have := (herr e hres).1
      rw [hc] at this
      cases this
    | ok m => exact ⟨m, rfl⟩
  · intro b gt gl i m0 h0 hnone
    unfold extractVoxel
    simp only
    rw [if_neg h0, hnone]
    rfl

/-- Instance of C3: label 7 of the example map is not in the list `[3]`; the extraction
is fatal with a complete list and returns otherwise. -/
theorem extractSegmentLayers_fatal_iff_witness :
    SameBlocks (exampleMap 10 7 3) ∧
      extractSegmentLayers ⟨5⟩ (exampleMap 10 7 3) [3] ∅ true =
        .error (Fatal.labelNotInList 7) ∧
      (∃ m, extractSegmentLayers ⟨5⟩ (exampleMap 10 7 3) [3] ∅ false = .ok m) :=
  ⟨by unfold SameBlocks; decide, rfl,
    (extractSegmentLayers_fatal_iff ⟨5⟩ (exampleMap 10 7 3) [3] false
      (by unfold SameBlocks; decide)).2.2.1 rfl⟩

/-! ## The publish cycle as a whole -/

/-- The two ways a call of `publishObjects` unfolds: the extraction aborts and nothing
else happens, or the loop runs over the extracted sub-layers. -/
theorem publishObjects_cases {n : Nat} (ext : Collaborators n) (c : Controller n)
    (publish_all : Bool) :
    (∃ e, extractSegmentLayers c.map_config c.map (getLabelsToPublish ext c publish_all) ∅
          publish_all = .error e ∧
        (publishObjects ext c publish_all).sink = [] ∧
        (publishObjects ext c publish_all).controller = c ∧
        (publishObjects ext c publish_all).returned = .error e) ∨
    (∃ m st fe,
        extractSegmentLayers c.map_config c.map (getLabelsToPublish ext c publish_all) ∅
          publish_all = .ok m ∧
        publishLabels ext (getLabelsToPublish ext c publish_all)
          { label_to_layers := m
            all_published_segments := c.all_published_segments
            merges_to_publish := c.merges_to_publish
            sink := []
            published_segment_label := false } = (st, fe) ∧
        (publishObjects ext c publish_all).sink = st.sink ∧
        (publishObjects ext c publish_all).controller.all_published_segments =
          st.all_published_segments ∧
        (publishObjects ext c publish_all).controller.merges_to_publish =
          st.merges_to_publish ∧
        (publishObjects ext c publish_all).controller.map = c.map ∧
        (publishObjects ext c publish_all).returned =
          (match fe with
            | some e => .error e
            | none => .ok st.published_segment_label)) := by
  cases hres : extractSegmentLayers c.map_config c.map
      (getLabelsToPublish ext c publish_all) ∅ publish_all with
  | error e =>
    left
    refine ⟨e, rfl, ?_, ?_, ?_⟩ <;>
    · unfold publishObjects
      simp only [hres]
  | ok m =>
    right
    rcases hloop : publishLabels ext (getLabelsToPublish ext c publish_all)
        { label_to_layers := m
          all_published_segments := c.all_published_segments
          merges_to_publish := c.merges_to_publish
          sink := []
          published_segment_label := false } with ⟨st, fe⟩
    refine ⟨m, st, fe, rfl, hloop, ?_⟩
    unfold publishObjects
    simp only [hres, hloop]
    cases fe <;> simp

theorem blocks_zero_of_lookup_none {V : Type} {n : Nat} (l : Layer V n)
    (h : ∀ b, l.getBlockPtrByIndex b = none) : l.getNumberOfAllocatedBlocks = 0 := by
  unfold Layer.getNumberOfAllocatedBlocks
  rw [List.length_eq_zero, List.eq_nil_iff_forall_not_mem]
  intro b hb
  obtain ⟨blk, hblk⟩ := (mem_blocks_iff l b).1 hb
  rw [h b] at hblk
  cases hblk

/-- A requested label that no visited voxel carries gets a pair without blocks. -/
theorem sub_layers_empty {n : Nat} {cfg : MapConfig} {map : LabelTsdfMap n}
    {labels : List Label} {c : Bool} {m : LabelLayersMap n} {L : Label} {p : LayerPair n}
    (hok : extractSegmentLayers cfg map labels ∅ c = .ok m) (hp : m.lookup L = some p)
    (hno : ∀ b i, ¬ Carries map L b i) :
    p.1.getNumberOfAllocatedBlocks = 0 ∧ p.2.getNumberOfAllocatedBlocks = 0 := by
  have hview := fun b => sub_block_view hok hp b
  constructor
  · apply blocks_zero_of_lookup_none
    intro b
    rcases hview b with ⟨h1, _, _⟩ | ⟨_, _, _, _, _, _, _, _, _, ⟨i, hc⟩, _⟩
    · exact h1
    · exact absurd hc (hno b i)
  · apply blocks_zero_of_lookup_none
    intro b
    rcases hview b with ⟨_, h2, _⟩ | ⟨_, _, _, _, _, _, _, _, _, ⟨i, hc⟩, _⟩
    · exact h2
    · exact absurd hc (hno b i)

theorem lookup_of_requested {n : Nat} {cfg : MapConfig} {map : LabelTsdfMap n}
    {labels : List Label} {c : Bool} {m : LabelLayersMap n} {L : Label}
    (hok : extractSegmentLayers cfg map labels ∅ c = .ok m) (hL : L ∈ labels) :
    ∃ p, m.lookup L = some p := by
  obtain ⟨_, hkeys, _⟩ := extractSegmentLayers_ok hok
  have hmem : L ∈ m := (hkeys L).2 hL
  rw [← AList.lookup_isSome, Option.isSome_iff_exists] at hmem
  exact hmem

theorem extractSegmentLayers_error_kind {n : Nat} {cfg : MapConfig} {map : LabelTsdfMap n}
    {labels : List Label} {c : Bool} {e : Fatal}
    (h : extractSegmentLayers cfg map labels ∅ c = .error e) :
    (∃ b, e = Fatal.nullBlock b) ∨ (∃ L, e = Fatal.labelNotInList L) := by
  unfold extractSegmentLayers at h
  rcases extractBlocks_error _ _ h with ⟨b, _, he, _⟩ | ⟨_, _, _, _, lv, _, he, _, _⟩
  · exact Or.inl ⟨b, he⟩
  · exact Or.inr ⟨lv.label, he⟩

theorem exportSegmentMeshes_lookup {n : Nat} {ext : Collaborators n}
    {l2l : LabelLayersMap n} :
    ∀ (labels written : List Label) (L : Label),
      (∀ x ∈ labels, ∃ p, l2l.lookup x = some p) →
      exportSegmentMeshes ext l2l labels written ≠ .error (Fatal.layersNotExtracted L) := by
  intro labels
  induction labels with
  | nil =>
    intro written L _ h
    unfold exportSegmentMeshes at h
    cases h
  | cons a rest ih =>
    intro written L hall h
    unfold exportSegmentMeshes at h
    obtain ⟨p, hp⟩ := hall a (List.mem_cons_self _ _)
    have hrest : ∀ x ∈ rest, ∃ p, l2l.lookup x = some p :=
      fun x hx => hall x (List.mem_cons_of_mem _ hx)
    rw [hp] at h
    simp only at h
    split at h
    · split at h
      · cases h
      · exact ih _ L hrest h
    · exact ih _ L hrest h

/-- C4 (pre-allocation). A successful extraction into an empty map has an entry for every
requested label, duplicates in the list included; a requested label that no voxel of the
global map carries (in particular the label `0`) gets a TSDF and a Label sub-layer with
zero allocated blocks. Consequently the checks `CHECK(it != label_to_layers.end())` of
`publishObjects` and of `extractSegmentsCallback` never fail. -/
theorem extractSegmentLayers_entries {n : Nat} (cfg : MapConfig) (map : LabelTsdfMap n)
    (labels : List Label) (c : Bool) (m : LabelLayersMap n) (ext : Collaborators n)
    (ctrl : Controller n) (publish_all : Bool)
    (hok : extractSegmentLayers cfg map labels ∅ c = .ok m) :
    (∀ L ∈ labels, ∃ p, m.lookup L = some p ∧
      ((∀ b i, ¬ Carries map L b i) →
        p.1.getNumberOfAllocatedBlocks = 0 ∧ p.2.getNumberOfAllocatedBlocks = 0)) ∧
    (∀ b i, ¬ Carries map 0 b i) ∧
    (∀ L, (publishObjects ext ctrl publish_all).returned ≠
      .error (Fatal.layersNotExtracted L)) ∧
    (∀ L, extractSegmentsCallback ext ctrl ≠ .error (Fatal.layersNotExtracted L)) := by
  refine ⟨fun L hL => ?_, fun b i hc => hc.1 rfl, fun L hret => ?_, fun L hret => ?_⟩
  · obtain ⟨p, hp⟩ := lookup_of_requested hok hL
    exact ⟨p, hp, sub_layers_empty hok hp⟩
  · rcases publishObjects_cases ext ctrl publish_all with
      ⟨e, he, _, _, hr⟩ | ⟨m1, st, fe, hm1, hloop, _, _, _, _, hr⟩
    · rw [hr] at hret
      injection hret with hret
      subst hret
      rcases extractSegmentLayers_error_kind he with ⟨b, hb⟩ | ⟨L1, hL1⟩
      · cases hb
      · cases hL1
    · rw [hr] at hret
      cases fe with
      | none => cases hret
      | some e =>
        simp only at hret
        injection hret with hret
        subst hret
        obtain ⟨label, hlabel, st2, herr, hk, _⟩ := publishLabels_fatal _ _ _ _ hloop
        rcases publishLabel_error herr with ⟨hnone, _⟩ | ⟨_, _, _, he⟩
        · obtain ⟨p, hp⟩ := lookup_of_requested hm1 hlabel
          have hmem : label ∈ st2.label_to_layers := by
            rw [hk label, ← AList.lookup_isSome]
            simp only
            rw [hp]
            rfl
          exact absurd hmem (AList.lookup_eq_none.1 hnone)
        · cases he
  · unfold extractSegmentsCallback at hret
    simp only at hret
    split at hret
    · rename_i e he
      injection hret with hret
      subst hret
      rcases extractSegmentLayers_error_kind he with ⟨b, hb⟩ | ⟨L1, hL1⟩
      · cases hb
      · cases hL1
    · rename_i m1 hm1
      exact exportSegmentMeshes_lookup _ _ L (fun x hx => lookup_of_requested hm1 hx) hret

/-- Instance of C4: the list `[0, 3, 7, 3]` on an example map whose voxels all carry
label 7. -/
theorem extractSegmentLayers_entries_witness :
    extractSegmentLayers ⟨5⟩ (exampleMap 12 7 3) [0, 3, 7, 3] ∅ false = .ok exampleDuplicates ∧
      (exampleDuplicates.lookup 0).map (fun p => p.1.getNumberOfAllocatedBlocks) = some 0 ∧
      (exampleDuplicates.lookup 3).map (fun p => p.2.getNumberOfAllocatedBlocks) = some 0 ∧
      (exampleDuplicates.lookup 7).map (fun p => p.1.getNumberOfAllocatedBlocks) = some 12 ∧
      ∀ L ∈ [0, 3, 7, 3], ∃ p, exampleDuplicates.lookup L = some p ∧
        ((∀ b i, ¬ Carries (exampleMap 12 7 3) L b i) →
          p.1.getNumberOfAllocatedBlocks = 0 ∧ p.2.getNumberOfAllocatedBlocks = 0) :=
  ⟨rfl, by decide, by decide, by decide,
    (extractSegmentLayers_entries ⟨5⟩ (exampleMap 12 7 3) [0, 3, 7, 3] false exampleDuplicates
      (exampleCollaborators true) (exampleController 7 3 ∅ ∅ []) false rfl).1⟩

theorem sub_layers_same_shape {n : Nat} {cfg : MapConfig} {map : LabelTsdfMap n}
    {labels : List Label} {c : Bool} {m : LabelLayersMap n} {L : Label} {p : LayerPair n}
    (hok : extractSegmentLayers cfg map labels ∅ c = .ok m) (hp : m.lookup L = some p) :
    p.1.blockIndexSet = p.2.blockIndexSet ∧
    (∀ b, b ∈ p.1.blockIndexSet ↔
      b ∈ map.tsdf_layer.blockIndexSet ∧ ∃ i, Carries map L b i) ∧
    p.1.voxel_size = p.2.voxel_size := by
  have hview := fun b => sub_block_view hok hp b
  obtain ⟨hinv, _, _⟩ := extractSegmentLayers_ok hok
  obtain ⟨hs1, hs2, _⟩ := hinv L p hp
  refine ⟨?_, fun b => ?_, hs1.trans hs2.symm⟩
  · ext b
    unfold Layer.blockIndexSet
    rw [List.mem_toFinset, List.mem_toFinset]
    change b ∈ p.1.getAllAllocatedBlocks ↔ b ∈ p.2.getAllAllocatedBlocks
    rw [mem_blocks_iff, mem_blocks_iff]
    rcases hview b with ⟨h1, h2, _⟩ | ⟨tb, lb, _, _, h1, h2, _⟩
    · rw [h1, h2]
      constructor <;> rintro ⟨_, h⟩ <;> cases h
    · rw [h1, h2]
      exact ⟨fun _ => ⟨lb, rfl⟩, fun _ => ⟨tb, rfl⟩⟩
  · unfold Layer.blockIndexSet
    rw [List.mem_toFinset, List.mem_toFinset]
    change b ∈ p.1.getAllAllocatedBlocks ↔ b ∈ map.tsdf_layer.getAllAllocatedBlocks ∧ _
    rw [mem_blocks_iff]
    rcases hview b with ⟨h1, _, h3⟩ | ⟨tb, lb, _, _, h1, _, _, _, hmem, hex, _⟩
    · rw [h1]
      constructor
      · rintro ⟨_, h⟩
        cases h
      · rintro ⟨hmem, i, hc⟩
        exact absurd hc (h3 hmem i)
    · rw [h1]
      exact ⟨fun _ => ⟨hmem, hex⟩, fun _ => ⟨tb, rfl⟩⟩

theorem SharedShape_extracted {n : Nat} {cfg : MapConfig} {map : LabelTsdfMap n}
    {labels : List Label} {c : Bool} {m : LabelLayersMap n}
    (hok : extractSegmentLayers cfg map labels ∅ c = .ok m) : SharedShape m := by
  intro L p hp
  obtain ⟨e1, _, e3⟩ := sub_layers_same_shape hok hp
  exact ⟨e1, e3⟩

theorem center_origin_eq {n : Nat} {ext : Collaborators n} (hcenter : CenterByBlocks ext)
    {m : LabelLayersMap n} (hshape : SharedShape m) {L : Label} {p : LayerPair n}
    (hp : m.lookup L = some p) :
    (ext.centerBlocksOfTsdfLayer p.1).2 = (ext.centerBlocksOfLabelLayer p.2).2 := by
  obtain ⟨f, g, h, hT, hL⟩ := hcenter
  obtain ⟨e1, e2⟩ := hshape L p hp
  rw [(hT p.1).1, (hL p.2).1, e1, e2]
  rfl

/-- C5 (shared block coordinates). For every entry of a successful extraction into an
empty map, the TSDF sub-layer and the Label sub-layer have the same set of allocated
block coordinates, namely the allocated global blocks with at least one voxel carrying
the (non-zero) label, and the same voxel size. Hence, for a recentering utility that
depends only on the set of allocated block coordinates and the block size, the two
translations computed for a label are equal and `publishObjects` never ends in the failed
`CHECK_EQ` of the two origins. -/
theorem sub_layers_share_blocks {n : Nat} (cfg : MapConfig) (map : LabelTsdfMap n)
    (labels : List Label) (c : Bool) (m : LabelLayersMap n) (L : Label) (p : LayerPair n)
    (ext : Collaborators n) (ctrl : Controller n) (publish_all : Bool)
    (hok : extractSegmentLayers cfg map labels ∅ c = .ok m) (hp : m.lookup L = some p)
    (hcenter : CenterByBlocks ext) :
    p.1.blockIndexSet = p.2.blockIndexSet ∧
    (∀ b, b ∈ p.1.blockIndexSet ↔
      b ∈ map.tsdf_layer.blockIndexSet ∧ ∃ i, Carries map L b i) ∧
    p.1.voxel_size = p.2.voxel_size ∧
    (ext.centerBlocksOfTsdfLayer p.1).2 = (ext.centerBlocksOfLabelLayer p.2).2 ∧
    (∀ L1, (publishObjects ext ctrl publish_all).returned ≠
      .error (Fatal.originMismatch L1)) := by
  obtain ⟨e1, e2, e3⟩ := sub_layers_same_shape hok hp
  refine ⟨e1, e2, e3, center_origin_eq hcenter (SharedShape_extracted hok) hp,
    fun L1 hret => ?_⟩
  rcases publishObjects_cases ext ctrl publish_all with
    ⟨e, he, _, _, hr⟩ | ⟨m1, st, fe, hm1, hloop, _, _, _, _, hr⟩
  · rw [hr] at hret
    injection hret with hret
    subst hret
    rcases extractSegmentLayers_error_kind he with ⟨b, hb⟩ | ⟨L2, hL2⟩
    · cases hb
    · cases hL2
  · rw [hr] at hret
    cases fe with
    | none => cases hret
    | some e =>
      simp only at hret
      injection hret with hret
      subst hret
      obtain ⟨label, _, st2, herr, _, hs⟩ := publishLabels_fatal _ _ _ _ hloop
      rcases publishLabel_error herr with ⟨_, he⟩ | ⟨p1, hp1, hne, _⟩
      · cases he
      · exact hne (center_origin_eq hcenter (hs hcenter (SharedShape_extracted hm1)) hp1)

/-- Instance of C5: the sub-layers of label 3 of the example map, and a publish cycle
over it that returns. -/
theorem sub_layers_share_blocks_witness :
    extractSegmentLayers ⟨5⟩ (exampleMap 10 7 3) [7, 3] ∅ true = .ok exampleLayers ∧
      CenterByBlocks (exampleCollaborators true) ∧
      ∃ p, exampleLayers.lookup 3 = some p ∧
        p.1.blockIndexSet = {(10, 0, 0), (11, 0, 0)} ∧ p.2.blockIndexSet = p.1.blockIndexSet ∧
        (publishObjects (exampleCollaborators true) (exampleController 7 3 ∅ ∅ []) true).returned
          = .ok true :=
  ⟨rfl, ⟨fun _ _ _ => ⟨1, 2, 3⟩, fun S _ _ => S, fun _ vs _ => vs,
      fun _ => ⟨rfl, rfl, rfl⟩, fun _ => ⟨rfl, rfl, rfl⟩⟩,
    (exampleLayers.lookup 3).get (by decide), by simp, by decide,
    ((sub_layers_share_blocks ⟨5⟩ (exampleMap 10 7 3) [7, 3] true exampleLayers 3
      ((exampleLayers.lookup 3).get (by decide)) (exampleCollaborators true)
      (exampleController 7 3 ∅ ∅ []) true rfl (by simp)
      ⟨fun _ _ _ => ⟨1, 2, 3⟩, fun S _ _ => S, fun _ vs _ => vs,
        fun _ => ⟨rfl, rfl, rfl⟩, fun _ => ⟨rfl, rfl, rfl⟩⟩).1).symm, rfl⟩

/-- Effect of a call of `publishObjects` in terms of the records it hands to the sink,
whether the call returns or is ended by a fatal check. -/
theorem publishObjects_spec {n : Nat} (ext : Collaborators n) (c : Controller n)
    (publish_all : Bool) :
    (publishObjects ext c publish_all).controller.all_published_segments =
      c.all_published_segments ∪
        ((publishObjects ext c publish_all).sink.map (fun r => r.label)).toFinset ∧
    (∀ k, (publishObjects ext c publish_all).controller.merges_to_publish.lookup k =
      if k ∈ (publishObjects ext c publish_all).sink.map (fun r => r.label) then none
      else c.merges_to_publish.lookup k) ∧
    (publishObjects ext c publish_all).controller.map = c.map ∧
    (∀ pre r post, (publishObjects ext c publish_all).sink = pre ++ r :: post →
      r.old_labels = oldLabelsAt c.all_published_segments c.merges_to_publish
        (pre.map (fun r => r.label)) r.label) ∧
    ((publishObjects ext c publish_all).sink.map (fun r => r.label)).Sublist
      (getLabelsToPublish ext c publish_all) ∧
    (∀ x ∈ (publishObjects ext c publish_all).sink.map (fun r => r.label),
      ∃ m, extractSegmentLayers c.map_config c.map (getLabelsToPublish ext c publish_all) ∅
          publish_all = .ok m ∧
        ∀ p, m.lookup x = some p →
          ¬ p.1.getNumberOfAllocatedBlocks < kMinNumberOfAllocatedBlocksToPublish) ∧
    (∀ b, (publishObjects ext c publish_all).returned = .ok b →
      ∃ m, extractSegmentLayers c.map_config c.map (getLabelsToPublish ext c publish_all) ∅
          publish_all = .ok m ∧
        (∀ X ∈ getLabelsToPublish ext c publish_all, publishable ext m X = true →
          X ∈ (publishObjects ext c publish_all).sink.map (fun r => r.label)) ∧
        b = !(publishObjects ext c publish_all).sink.isEmpty) := by
  rcases publishObjects_cases ext c publish_all with
    ⟨e, he, hs, hc, hr⟩ | ⟨m, st, fe, hm, hloop, hs, hpub, hmer, hmap, hr⟩
  · rw [hs, hc, hr]
    refine ⟨by simp, by simp, rfl, ?_, by simp, ?_, ?_⟩
    · intro pre r post hd
      cases pre <;> cases hd
    · intro x hx
      cases hx
    · intro b hb
      cases hb
  · obtain ⟨recs, h1, h2, h3, h4, h5, h6, h7, h8⟩ := publishLabels_spec _ _ _ _ hloop
    simp only [List.nil_append, Bool.false_or] at h1 h4
    rw [hs, hpub, hmer, hmap, hr, h1]
    refine ⟨h2, h3, rfl, h6, h5, ?_, ?_⟩
    · intro x hx
      exact ⟨m, hm, fun p hp hlt => h7 x p hp hlt hx⟩
    · intro b hb
      cases fe with
      | some e => cases hb
      | none =>
        simp only at hb
        injection hb with hb
        exact ⟨m, hm, h8 rfl, by rw [← hb, h4]⟩

/-! ## Claims about the publish cycle -/

/-- C6, the claim as stated fails: with label 7 named twice in the pending list, never
published before and without Merge Record entry, the second record handed to the sink
carries `old_labels = [7]`, while the published-set before the cycle gives `[]`. And
with label 5 named twice, never published, its Merge Record entry being `[3]` with 3
published, the second record carries `old_labels = [5]`, while the state before the cycle
gives `[3]`. -/
theorem publishObjects_old_labels_counterexample :
    exampleDuplicateCycle.sink.map (fun r => (r.label, r.old_labels)) = [(7, []), (7, [7])] ∧
      oldLabelsBefore (exampleController 7 3 ∅ ∅ [7, 7]).all_published_segments
        (exampleController 7 3 ∅ ∅ [7, 7]).merges_to_publish 7 = [] ∧
      (¬ ∀ r ∈ exampleDuplicateCycle.sink,
        r.old_labels =
          oldLabelsBefore (exampleController 7 3 ∅ ∅ [7, 7]).all_published_segments
            (exampleController 7 3 ∅ ∅ [7, 7]).merges_to_publish r.label) ∧
      exampleMergeTwiceCycle.sink.map (fun r => (r.label, r.old_labels)) =
        [(5, [3]), (5, [5])] ∧
      oldLabelsBefore (exampleController 5 3 {3} exampleMerges [5, 5]).all_published_segments
        (exampleController 5 3 {3} exampleMerges [5, 5]).merges_to_publish 5 = [3] := by
  decide

/-- C6 as amended. The `old_labels` of a record handed to the sink for label `X` is: `X`
itself if `X` was in the published-set when the record was built, that is before the
cycle or through a record handed to the sink earlier in the same cycle; followed by the
labels of the Merge Record entry of `X` (in entry order; the entry is gone once `X` was
handed to the sink) that were in the published-set at that moment; and nothing else.
When neither `X` nor a label of its entry was handed to the sink earlier in the cycle,
this is the list computed from the state before the cycle. A label `A` other than `X` is
in `old_labels` exactly when it is in the pending entry of `X` and was published. -/
theorem publishObjects_old_labels {n : Nat} (ext : Collaborators n) (c : Controller n)
    (publish_all : Bool) (pre : List (GsmUpdate n)) (r : GsmUpdate n)
    (post : List (GsmUpdate n))
    (h : (publishObjects ext c publish_all).sink = pre ++ r :: post) :
    r.old_labels = oldLabelsAt c.all_published_segments c.merges_to_publish
      (pre.map (fun r => r.label)) r.label ∧
    (r.label ∉ pre.map (fun r => r.label) →
      (∀ l ∈ (c.merges_to_publish.lookup r.label).getD [], l ∉ pre.map (fun r => r.label)) →
      r.old_labels = oldLabelsBefore c.all_published_segments c.merges_to_publish r.label) ∧
    (∀ A, A ≠ r.label →
      (A ∈ r.old_labels ↔
        r.label ∉ pre.map (fun r => r.label) ∧
        A ∈ (c.merges_to_publish.lookup r.label).getD [] ∧
        (A ∈ c.all_published_segments ∨ A ∈ pre.map (fun r => r.label)))) := by
  obtain ⟨_, _, _, hold, _, _, _⟩ := publishObjects_spec ext c publish_all
  have h1 := hold pre r post h
  refine ⟨h1, fun hx hentry => ?_, fun A hA => ?_⟩
  · rw [h1]
    unfold oldLabelsAt oldLabelsBefore
    rw [if_neg hx]
    congr 1
    · have : r.label ∈ c.all_published_segments ∪ (pre.map (fun r => r.label)).toFinset ↔
          r.label ∈ c.all_published_segments := by
        rw [Finset.mem_union, List.mem_toFinset]
        exact ⟨fun hh => hh.elim id (fun e => absurd e hx), Or.inl⟩
      simp only [this]
    · apply List.filter_congr
      intro l hl
      have : l ∈ c.all_published_segments ∪ (pre.map (fun r => r.label)).toFinset ↔
          l ∈ c.all_published_segments := by
        rw [Finset.mem_union, List.mem_toFinset]
        exact ⟨fun hh => hh.elim id (fun e => absurd e (hentry l hl)), Or.inl⟩
      simp only [this]
  · rw [h1]
    unfold oldLabelsAt
    rw [List.mem_append]
    constructor
    · rintro (hm | hm)
      · split at hm
        · rw [List.mem_singleton] at hm
          exact absurd hm hA
        · cases hm
      · split at hm
        · cases hm
        · rename_i hx
          rw [List.mem_filter] at hm
          obtain ⟨hm1, hm2⟩ := hm
          rw [decide_eq_true_eq, Finset.mem_union, List.mem_toFinset] at hm2
          exact ⟨hx, hm1, hm2⟩
    · rintro ⟨hx, hm1, hm2⟩
      right
      rw [if_neg hx, List.mem_filter, decide_eq_true_eq, Finset.mem_union, List.mem_toFinset]
      exact ⟨hm1, hm2⟩

/-- Instance of C6 as amended, the scenario of the spec: label 3 published, then merged
into the never published label 5; the record of label 5 carries `old_labels = [3]`. -/
theorem publishObjects_old_labels_witness :
    exampleMergeCycle.sink =
        [] ++ (exampleMergeCycle.sink.head?.getD
          ⟨true, 0, 0, [], Layer.empty 0, Layer.empty 0, ⟨0, 0, 0⟩, []⟩) :: [] ∧
      exampleMergeCycle.sink.map (fun r => (r.label, r.old_labels)) = [(5, [3])] ∧
      exampleMergeCycle.controller.all_published_segments = {3, 5} ∧
      exampleMergeCycle.controller.merges_to_publish.lookup 5 = none ∧
      (exampleMergeCycle.sink.head?.getD
          ⟨true, 0, 0, [], Layer.empty 0, Layer.empty 0, ⟨0, 0, 0⟩, []⟩).old_labels =
        oldLabelsAt {3} exampleMerges [] 5 :=
  ⟨rfl, by decide, by decide, by decide,
    (publishObjects_old_labels (exampleCollaborators true)
      (exampleController 5 3 {3} exampleMerges [5]) false []
      (exampleMergeCycle.sink.head?.getD
        ⟨true, 0, 0, [], Layer.empty 0, Layer.empty 0, ⟨0, 0, 0⟩, []⟩) [] rfl).1⟩

theorem publishObjects_pending {n : Nat} (ext : Collaborators n) (c : Controller n)
    (publish_all : Bool) :
    (∀ b, (publishObjects ext c publish_all).returned = .ok b →
      (publishObjects ext c publish_all).controller.segment_labels_to_publish = []) ∧
    (∀ e, (publishObjects ext c publish_all).returned = .error e →
      (publishObjects ext c publish_all).controller.segment_labels_to_publish =
        c.segment_labels_to_publish) := by
  cases hres : extractSegmentLayers c.map_config c.map
      (getLabelsToPublish ext c publish_all) ∅ publish_all with
  | error e =>
    unfold publishObjects
    simp only [hres]
    simp
  | ok m =>
    rcases hloop : publishLabels ext (getLabelsToPublish ext c publish_all)
        { label_to_layers := m
          all_published_segments := c.all_published_segments
          merges_to_publish := c.merges_to_publish
          sink := []
          published_segment_label := false } with ⟨st, fe⟩
    unfold publishObjects
    simp only [hres, hloop]
    cases fe <;> simp

/-- C7 (skip below the minimum block count), amended. For a label whose extracted TSDF
sub-layer has fewer allocated blocks than the minimum block count, a publish cycle hands
no record of that label to the sink, does not change whether the label is in the
published-set, leaves the Merge Record entry of the label as it was, and leaves the
global map as it was. The list of pending labels is not left as it was: a cycle that
returns ends with the list empty, so the skipped label is no longer pending; a cycle that
aborts leaves the list as it was. -/
theorem publishObjects_skips_small {n : Nat} (ext : Collaborators n) (c : Controller n)
    (publish_all : Bool) (m : LabelLayersMap n) (X : Label) (p : LayerPair n)
    (hok : extractSegmentLayers c.map_config c.map (getLabelsToPublish ext c publish_all) ∅
      publish_all = .ok m)
    (hp : m.lookup X = some p)
    (hsmall : p.1.getNumberOfAllocatedBlocks < kMinNumberOfAllocatedBlocksToPublish) :
    (∀ r ∈ (publishObjects ext c publish_all).sink, r.label ≠ X) ∧
    (X ∈ (publishObjects ext c publish_all).controller.all_published_segments ↔
      X ∈ c.all_published_segments) ∧
    (publishObjects ext c publish_all).controller.merges_to_publish.lookup X =
      c.merges_to_publish.lookup X ∧
    (publishObjects ext c publish_all).controller.map = c.map ∧
    (∀ b, (publishObjects ext c publish_all).returned = .ok b →
      (publishObjects ext c publish_all).controller.segment_labels_to_publish = [] ∧
      X ∉ (publishObjects ext c publish_all).controller.segment_labels_to_publish) ∧
    (∀ e, (publishObjects ext c publish_all).returned = .error e →
      (publishObjects ext c publish_all).controller.segment_labels_to_publish =
        c.segment_labels_to_publish) := by
  obtain ⟨h1, h2, h3, _, _, h5, _⟩ := publishObjects_spec ext c publish_all
  obtain ⟨q1, q2⟩ := publishObjects_pending ext c publish_all
  have hnot : X ∉ (publishObjects ext c publish_all).sink.map (fun r => r.label) := by
    intro hx
    obtain ⟨m1, hm1, hbig⟩ := h5 X hx
    rw [hok] at hm1
    injection hm1 with hm1
    subst hm1
    exact hbig p hp hsmall
  refine ⟨fun r hr e => hnot (List.mem_map.2 ⟨r, hr, e⟩), ?_, ?_, h3,
    fun b hb => ⟨q1 b hb, (by rw [q1 b hb]; exact List.not_mem_nil X)⟩, q2⟩
  · rw [h1, Finset.mem_union, List.mem_toFinset]
    exact ⟨fun hh => hh.elim id (fun e => absurd e hnot), Or.inl⟩
  · rw [h2 X, if_neg hnot]

/-- Counterexample to C7 as stated: label 5 is pending, its TSDF sub-layer has no block,
the cycle returns; the label gets no record, but it was in the list of pending labels
before the cycle and is not afterwards. -/
theorem publishObjects_skips_small_counterexample :
    5 ∈ (exampleController 7 3 {3} exampleMerges [7, 3, 5]).segment_labels_to_publish ∧
      (examplePendingLayers.lookup 5).map (fun p => p.1.getNumberOfAllocatedBlocks) = some 0 ∧
      (publishObjects (exampleCollaborators true)
        (exampleController 7 3 {3} exampleMerges [7, 3, 5]) false).returned = .ok true ∧
      (publishObjects (exampleCollaborators true)
        (exampleController 7 3 {3} exampleMerges [7, 3, 5]) false).sink.map
          (fun r => r.label) = [7] ∧
      5 ∉ (publishObjects (exampleCollaborators true)
        (exampleController 7 3 {3} exampleMerges [7, 3, 5])
          false).controller.segment_labels_to_publish :=
  ⟨by decide, by decide, rfl, by decide, by decide⟩

/-- Instance of C7: label 5 is pending with a Merge Record entry but has no block. -/
theorem publishObjects_skips_small_witness :
    extractSegmentLayers (exampleController 7 3 {3} exampleMerges [7, 3, 5]).map_config
        (exampleController 7 3 {3} exampleMerges [7, 3, 5]).map
        (getLabelsToPublish (exampleCollaborators true)
          (exampleController 7 3 {3} exampleMerges [7, 3, 5]) false) ∅ false =
        .ok examplePendingLayers ∧
      (examplePendingLayers.lookup 5).map (fun p => p.1.getNumberOfAllocatedBlocks) = some 0 ∧
      (publishObjects (exampleCollaborators true)
        (exampleController 7 3 {3} exampleMerges [7, 3, 5]) false).sink.map
          (fun r => r.label) = [7] ∧
      (publishObjects (exampleCollaborators true)
        (exampleController 7 3 {3} exampleMerges [7, 3, 5])
          false).controller.merges_to_publish.lookup 5 = some [3] ∧
      (publishObjects (exampleCollaborators true)
        (exampleController 7 3 {3} exampleMerges [7, 3, 5])
          false).controller.segment_labels_to_publish = [] ∧
      (5 ∈ (publishObjects (exampleCollaborators true)
        (exampleController 7 3 {3} exampleMerges [7, 3, 5])
          false).controller.all_published_segments ↔ 5 ∈ ({3} : Finset Label)) :=
  ⟨rfl, by decide, by decide, by decide, by decide,
    (publishObjects_skips_small (exampleCollaborators true)
      (exampleController 7 3 {3} exampleMerges [7, 3, 5]) false examplePendingLayers 5
      ((examplePendingLayers.lookup 5).get (by decide)) rfl (by simp) (by decide)).2.1⟩

/-- C8, the claim as stated fails: label 7 is listed once and its TSDF sub-layer has ten
blocks, the minimum count, but the surfel cloud of the sub-layer is empty: no record is
handed to the sink and the label is not marked published. And a label listed twice gets
two records, not one. -/
theorem publishObjects_min_blocks_only_counterexample :
    (extractSegmentLayers ⟨5⟩ (exampleMap 10 7 3) [7] ∅ false).toOption.map
        (fun m => (m.lookup 7).map (fun p => p.1.getNumberOfAllocatedBlocks)) = some (some 10) ∧
      kMinNumberOfAllocatedBlocksToPublish ≤ 10 ∧
      exampleNoSurfelCycle.sink = [] ∧
      7 ∉ exampleNoSurfelCycle.controller.all_published_segments ∧
      exampleNoSurfelCycle.returned = .ok false ∧
      exampleDuplicateCycle.sink.map (fun r => r.label) = [7, 7] :=
  ⟨by decide, by decide, rfl, by decide, rfl, by decide⟩

/-- C8 as amended. For a label of the list whose extracted TSDF sub-layer has at least
the minimum block count and whose centered TSDF sub-layer yields a non-empty surfel
cloud, a publish cycle that returns hands at least one update record of that label to the
sink, and no more than the label occurs in the list (hence exactly one when it is listed
once), and marks the label published. The only conditions under which a listed label gets
no record are the minimum block count test and the empty surfel cloud test. -/
theorem publishObjects_publishes {n : Nat} (ext : Collaborators n) (c : Controller n)
    (publish_all : Bool) (m : LabelLayersMap n) (X : Label) (p : LayerPair n) (b : Bool)
    (hret : (publishObjects ext c publish_all).returned = .ok b)
    (hok : extractSegmentLayers c.map_config c.map (getLabelsToPublish ext c publish_all) ∅
      publish_all = .ok m)
    (hX : X ∈ getLabelsToPublish ext c publish_all)
    (hp : m.lookup X = some p)
    (hbig : kMinNumberOfAllocatedBlocksToPublish ≤ p.1.getNumberOfAllocatedBlocks)
    (hsurfel : ext.convertVoxelGridToPointCloud (ext.centerBlocksOfTsdfLayer p.1).1 ≠ []) :
    0 < ((publishObjects ext c publish_all).sink.map (fun r => r.label)).count X ∧
    ((publishObjects ext c publish_all).sink.map (fun r => r.label)).count X ≤
        (getLabelsToPublish ext c publish_all).count X ∧
    X ∈ (publishObjects ext c publish_all).controller.all_published_segments ∧
    (∀ Y ∈ getLabelsToPublish ext c publish_all,
      Y ∉ (publishObjects ext c publish_all).sink.map (fun r => r.label) →
      ∃ q, m.lookup Y = some q ∧
        (q.1.getNumberOfAllocatedBlocks < kMinNumberOfAllocatedBlocksToPublish ∨
          ext.convertVoxelGridToPointCloud (ext.centerBlocksOfTsdfLayer q.1).1 = [])) := by
  obtain ⟨h1, _, _, _, hsub, _, h6⟩ := publishObjects_spec ext c publish_all
  obtain ⟨m1, hm1, hall, _⟩ := h6 b hret
  rw [hok] at hm1
  injection hm1 with hm1
  subst hm1
  have hpub : publishable ext m X = true := by
    unfold publishable
    rw [hp]
    have h2 : ¬ p.1.getNumberOfAllocatedBlocks < kMinNumberOfAllocatedBlocksToPublish :=
      Nat.not_lt.2 hbig
    simp [h2, hsurfel]
  have hmem := hall X hX hpub
  refine ⟨List.count_pos_iff.2 hmem, hsub.count_le X, ?_, fun Y hY hYn => ?_⟩
  · rw [h1, Finset.mem_union, List.mem_toFinset]
    exact Or.inr hmem
  · obtain ⟨q, hq⟩ := lookup_of_requested hok hY
    refine ⟨q, hq, ?_⟩
    have hnp : publishable ext m Y = false := by
      cases hh : publishable ext m Y with
      | false => rfl
      | true => exact absurd (hall Y hY hh) hYn
    unfold publishable at hnp
    rw [hq] at hnp
    simp only [Bool.and_eq_false_imp, Bool.not_eq_true', decide_eq_false_iff_not, not_lt,
      Bool.not_eq_false', List.isEmpty_iff] at hnp
    by_cases hlt : q.1.getNumberOfAllocatedBlocks < kMinNumberOfAllocatedBlocksToPublish
    · exact Or.inl hlt
    · exact Or.inr (hnp (Nat.not_lt.1 hlt))

/-- Instance of C8 as amended: label 7 is pending with ten blocks and a surfel. -/
theorem publishObjects_publishes_witness :
    (publishObjects (exampleCollaborators true)
        (exampleController 7 3 {3} exampleMerges [7, 3, 5]) false).returned = .ok true ∧
      extractSegmentLayers (exampleController 7 3 {3} exampleMerges [7, 3, 5]).map_config
        (exampleController 7 3 {3} exampleMerges [7, 3, 5]).map
        (getLabelsToPublish (exampleCollaborators true)
          (exampleController 7 3 {3} exampleMerges [7, 3, 5]) false) ∅ false =
        .ok examplePendingLayers ∧
      (examplePendingLayers.lookup 7).map (fun p => p.1.getNumberOfAllocatedBlocks) = some 10 ∧
      0 < ((publishObjects (exampleCollaborators true)
        (exampleController 7 3 {3} exampleMerges [7, 3, 5]) false).sink.map
          (fun r => r.label)).count 7 ∧
      7 ∈ (publishObjects (exampleCollaborators true)
        (exampleController 7 3 {3} exampleMerges [7, 3, 5])
          false).controller.all_published_segments :=
  ⟨rfl, rfl, by decide,
    (publishObjects_publishes (exampleCollaborators true)
      (exampleController 7 3 {3} exampleMerges [7, 3, 5]) false examplePendingLayers 7
      ((examplePendingLayers.lookup 7).get (by decide)) true rfl rfl (by decide) (by simp)
      (by decide) (by decide)).1, by decide⟩

/-- C9 (state update of a publish cycle). After `publishObjects` the published-set is the
published-set before the call united with the set of labels for which a record was handed
to the sink, so it contains the set before the call; and the Merge Record is the Merge
Record before the call without the entries keyed by those labels, the entries of all
other labels being unchanged. -/
theorem publishObjects_state_update {n : Nat} (ext : Collaborators n) (c : Controller n)
    (publish_all : Bool) :
    (publishObjects ext c publish_all).controller.all_published_segments =
      c.all_published_segments ∪
        ((publishObjects ext c publish_all).sink.map (fun r => r.label)).toFinset ∧
    c.all_published_segments ⊆
      (publishObjects ext c publish_all).controller.all_published_segments ∧
    (∀ k, k ∈ (publishObjects ext c publish_all).sink.map (fun r => r.label) →
      (publishObjects ext c publish_all).controller.merges_to_publish.lookup k = none) ∧
    (∀ k, k ∉ (publishObjects ext c publish_all).sink.map (fun r => r.label) →
      (publishObjects ext c publish_all).controller.merges_to_publish.lookup k =
        c.merges_to_publish.lookup k) := by
  obtain ⟨h1, h2, _, _, _, _, _⟩ := publishObjects_spec ext c publish_all
  refine ⟨h1, ?_, fun k hk => ?_, fun k hk => ?_⟩
  · rw [h1]
    exact Finset.subset_union_left
  · rw [h2 k, if_pos hk]
  · rw [h2 k, if_neg hk]

/-- C10 (labels without voxels are never published). For a label that is `0` or that no
voxel of the global Label layer carries, and for every label list, a publish cycle hands
no record of that label to the sink and does not change whether the label is in the
published-set: voxels labelled `0` are never copied, so the sub-layer of such a label has
no block, which is below the minimum block count, the latter being at least 1. -/
theorem publishObjects_never_unlabelled {n : Nat} (ext : Collaborators n)
    (c : Controller n) (publish_all : Bool) (X : Label)
    (hX : X = 0 ∨ ∀ b i lv, c.map.label_layer.voxelAt b i = some lv → lv.label ≠ X) :
    (∀ r ∈ (publishObjects ext c publish_all).sink, r.label ≠ X) ∧
    (X ∈ (publishObjects ext c publish_all).controller.all_published_segments ↔
      X ∈ c.all_published_segments) ∧
    1 ≤ kMinNumberOfAllocatedBlocksToPublish ∧
    (∀ m p, extractSegmentLayers c.map_config c.map (getLabelsToPublish ext c publish_all) ∅
        publish_all = .ok m → m.lookup X = some p →
      p.1.getNumberOfAllocatedBlocks = 0 ∧ p.2.getNumberOfAllocatedBlocks = 0) := by
  have hno : ∀ b i, ¬ Carries c.map X b i := by
    rintro b i ⟨h0, lv, hlv, hl⟩
    rcases hX with h | h
    · exact h0 h
    · exact h b i lv hlv hl
  obtain ⟨h1, _, _, _, hsub, h5, _⟩ := publishObjects_spec ext c publish_all
  have hnot : X ∉ (publishObjects ext c publish_all).sink.map (fun r => r.label) := by
    intro hx
    obtain ⟨m1, hm1, hbig⟩ := h5 X hx
    obtain ⟨p, hp⟩ := lookup_of_requested hm1 (hsub.subset hx)
    have hz := (sub_layers_empty hm1 hp hno).1
    exact hbig p hp (by rw [hz]; decide)
  refine ⟨fun r hr e => hnot (List.mem_map.2 ⟨r, hr, e⟩), ?_, by decide,
    fun m p hm hp => sub_layers_empty hm hp hno⟩
  rw [h1, Finset.mem_union, List.mem_toFinset]
  exact ⟨fun hh => hh.elim id (fun e => absurd e hnot), Or.inl⟩

/-- Instance of C10: the pending list names the label `0`. -/
theorem publishObjects_never_unlabelled_witness :
    (publishObjects (exampleCollaborators true)
        (exampleController 7 3 ∅ ∅ [0, 7, 0]) false).sink.map (fun r => r.label) = [7] ∧
      (publishObjects (exampleCollaborators true)
        (exampleController 7 3 ∅ ∅ [0, 7, 0]) false).controller.all_published_segments = {7} ∧
      ∀ r ∈ (publishObjects (exampleCollaborators true)
        (exampleController 7 3 ∅ ∅ [0, 7, 0]) false).sink, r.label ≠ 0 :=
  ⟨by decide, by decide,
    (publishObjects_never_unlabelled (exampleCollaborators true)
      (exampleController 7 3 ∅ ∅ [0, 7, 0]) false 0 (Or.inl rfl)).1⟩

/-! ## Return value of the publish cycle -/

theorem extractSegmentLayers_returns {n : Nat} (cfg : MapConfig) (map : LabelTsdfMap n)
    (labels : List Label) (c : Bool) (hsame : SameBlocks map)
    (h : c = false ∨ ∀ b i lv, map.label_layer.voxelAt b i = some lv →
      lv.label = 0 ∨ lv.label ∈ labels) :
    ∃ m, extractSegmentLayers cfg map labels ∅ c = .ok m := by
  cases hres : extractSegmentLayers cfg map labels ∅ c with
  | ok m => exact ⟨m, rfl⟩
  | error e =>
    exfalso
    unfold extractSegmentLayers at hres
    rcases extractBlocks_error _ _ hres with
      ⟨b, hb, _, hn⟩ | ⟨hc, b, _, i, lv, hlv, _, h0, hm⟩
    · obtain ⟨gt, hgt⟩ := (mem_blocks_iff _ b).1 hb
      obtain ⟨gl, hgl⟩ := (mem_blocks_iff _ b).1 ((SameBlocks_mem hsame b).1 hb)
      rcases hn with hn | hn
      · rw [hgt] at hn
        cases hn
      · rw [hgl] at hn
        cases hn
    · rcases h with h | h
      · rw [hc] at h
        cases h
      · rcases h b i lv hlv with h1 | h1
        · exact h0 h1
        · exact hm ((emplaceLabels_mem cfg labels ∅ lv.label).2 (Or.inl h1))

/-- C11 (return value of the publish cycle). When `publishObjects` returns, it returns
true exactly when at least one record was handed to the publish sink in this cycle; the
labels of these records are the labels marked published in this cycle. It returns false
when no label of the list was handed to the sink, in particular for an empty list. The
call does return, with the result false and no record, for an empty list over a global
map whose layers share their block coordinates, unless the list was declared complete
and a voxel carries a non-zero label; and it returns for every list that respects the
contract of the extraction when the recentering utility depends only on the block
coordinates and the block size. -/
theorem publishObjects_return_value {n : Nat} (ext : Collaborators n) (c : Controller n)
    (publish_all : Bool) :
    (∀ b, (publishObjects ext c publish_all).returned = .ok b →
      (b = true ↔ ∃ r, r ∈ (publishObjects ext c publish_all).sink)) ∧
    (∀ X, X ∈ (publishObjects ext c publish_all).controller.all_published_segments ↔
      X ∈ c.all_published_segments ∨
        ∃ r ∈ (publishObjects ext c publish_all).sink, r.label = X) ∧
    (∀ b, (publishObjects ext c publish_all).returned = .ok b →
      (∀ X ∈ getLabelsToPublish ext c publish_all,
        ∀ r ∈ (publishObjects ext c publish_all).sink, r.label ≠ X) → b = false) ∧
    (getLabelsToPublish ext c publish_all = [] → SameBlocks c.map →
      (publish_all = false ∨
        ∀ b i lv, c.map.label_layer.voxelAt b i = some lv → lv.label = 0) →
      (publishObjects ext c publish_all).returned = .ok false ∧
        (publishObjects ext c publish_all).sink = []) ∧
    (SameBlocks c.map → CenterByBlocks ext →
      (publish_all = false ∨ ∀ b i lv, c.map.label_layer.voxelAt b i = some lv →
        lv.label = 0 ∨ lv.label ∈ getLabelsToPublish ext c publish_all) →
      ∃ b, (publishObjects ext c publish_all).returned = .ok b) := by
  obtain ⟨h1, _, _, _, hsub, _, h6⟩ := publishObjects_spec ext c publish_all
  have hret : ∀ b, (publishObjects ext c publish_all).returned = .ok b →
      (b = true ↔ ∃ r, r ∈ (publishObjects ext c publish_all).sink) := by
    intro b hb
    obtain ⟨_, _, _, hbe⟩ := h6 b hb
    rw [hbe]
    cases hs : (publishObjects ext c publish_all).sink with
    | nil => simp
    | cons r rest => simp
  refine ⟨hret, fun X => ?_, fun b hb hskip => ?_, fun hnil hsame hlist => ?_,
    fun hsame hcenter hlist => ?_⟩
  · rw [h1, Finset.mem_union, List.mem_toFinset, List.mem_map]
  · cases b with
    | false => rfl
    | true =>
      exfalso
      obtain ⟨r, hr⟩ := (hret true hb).1 rfl
      exact hskip r.label (hsub.subset (List.mem_map.2 ⟨r, hr, rfl⟩)) r hr rfl
  · have hsink : (publishObjects ext c publish_all).sink = [] := by
      have := hsub
      rw [hnil] at this
      have h0 := List.sublist_nil.1 this
      exact List.map_eq_nil_iff.1 h0
    refine ⟨?_, hsink⟩
    have hex : ∃ m, extractSegmentLayers c.map_config c.map
        (getLabelsToPublish ext c publish_all) ∅ publish_all = .ok m := by
      apply extractSegmentLayers_returns _ _ _ _ hsame
      rcases hlist with h | h
      · exact Or.inl h
      · exact Or.inr (fun b i lv hlv => Or.inl (h b i lv hlv))
    obtain ⟨m, hm⟩ := hex
    rcases publishObjects_cases ext c publish_all with
      ⟨e, he, _, _, _⟩ | ⟨m1, st, fe, _, hloop, _, _, _, _, hr⟩
    · rw [hm] at he
      cases he
    · rw [hnil] at hloop
      unfold publishLabels at hloop
      cases hloop
      rw [hr]
  · obtain ⟨m, hm⟩ := extractSegmentLayers_returns c.map_config c.map
      (getLabelsToPublish ext c publish_all) publish_all hsame hlist
    rcases publishObjects_cases ext c publish_all with
      ⟨e, he, _, _, _⟩ | ⟨m1, st, fe, hm1, hloop, _, _, _, _, hr⟩
    · rw [hm] at he
      cases he
    · cases fe with
      | none => exact ⟨_, hr⟩
      | some e =>
        exfalso
        obtain ⟨label, hlabel, st2, herr, hk, hs⟩ := publishLabels_fatal _ _ _ _ hloop
        rcases publishLabel_error herr with ⟨hnone, _⟩ | ⟨p1, hp1, hne, _⟩
        · obtain ⟨p, hp⟩ := lookup_of_requested hm1 hlabel
          have hmem : label ∈ st2.label_to_layers := by
            rw [hk label, ← AList.lookup_isSome]
            simp only
            rw [hp]
            rfl
          exact absurd hmem (AList.lookup_eq_none.1 hnone)
        · exact hne (center_origin_eq hcenter (hs hcenter (SharedShape_extracted hm1)) hp1)

/-- Instance of C11: a cycle over the pending labels 7 (ten blocks), 3 (two blocks) and 5
(no block) returns true with one record; a cycle that skips every label returns false. -/
theorem publishObjects_return_value_witness :
    (publishObjects (exampleCollaborators true)
        (exampleController 7 3 {3} exampleMerges [7, 3, 5]) false).returned = .ok true ∧
      (publishObjects (exampleCollaborators true)
        (exampleController 7 3 {3} exampleMerges [7, 3, 5]) false).sink.length = 1 ∧
      exampleNoSurfelCycle.returned = .ok false ∧
      (true = true ↔ ∃ r, r ∈ (publishObjects (exampleCollaborators true)
        (exampleController 7 3 {3} exampleMerges [7, 3, 5]) false).sink) :=
  ⟨rfl, by decide, rfl,
    (publishObjects_return_value (exampleCollaborators true)
      (exampleController 7 3 {3} exampleMerges [7, 3, 5]) false).1 true rfl⟩

/-! ## The callback -/

theorem integrateFrame_fields {ι : Type} {n : Nat} (ops : Integrator ι n)
    (c : FrameController ι n) :
    (integrateFrame ops c).1.segments_to_integrate = [] ∧
    (integrateFrame ops c).1.segment_label_candidates = [] ∧
    (integrateFrame ops c).1.segment_merge_candidates = [] ∧
    (integrateFrame ops c).1.camera_frame = c.camera_frame ∧
    (integrateFrame ops c).1.enable_semantic_instance_segmentation =
      c.enable_semantic_instance_segmentation ∧
    (integrateFrame ops c).1.no_update_timeout = c.no_update_timeout ∧
    (integrateFrame ops c).1.core.all_published_segments = c.core.all_published_segments :=
  ⟨rfl, rfl, rfl, rfl, rfl, rfl, rfl⟩

theorem integrateFrame_calls {ι : Type} {n : Nat} (ops : Integrator ι n)
    (c : FrameController ι n) :
    (integrateFrame ops c).2 =
      [IntegratorCall.decideLabelPointClouds c.segments_to_integrate] ++
        (assignLabels (ops.decideLabelPointClouds c.integrator c.core.map
          c.segments_to_integrate c.segment_label_candidates
          c.segment_merge_candidates).2 c.segments_to_integrate).map
            IntegratorCall.integratePointCloud ++
        [IntegratorCall.mergeLabels, IntegratorCall.getLabelsToPublish] :=
  rfl

theorem integratedSegments_append (xs ys : List IntegratorCall) :
    integratedSegments (xs ++ ys) = integratedSegments xs ++ integratedSegments ys := by
  induction xs with
  | nil => rfl
  | cons x rest ih =>
    cases x <;> simp [integratedSegments, ih]

theorem integratedSegments_map (segments : List Segment) :
    integratedSegments (segments.map IntegratorCall.integratePointCloud) = segments := by
  induction segments with
  | nil => rfl
  | cons s rest ih => simp [integratedSegments, ih]

theorem hasCycle_map (segments : List Segment) :
    hasCycle (segments.map IntegratorCall.integratePointCloud) = false := by
  induction segments with
  | nil => rfl
  | cons s rest ih =>
    unfold hasCycle at ih ⊢
    simp only [List.map_cons, List.any_cons, ih, Bool.or_false]

/-- The callback after the frame test and the pose lookup have been decided. -/
theorem segmentPointCloudCallback_cases {ι : Type} {n : Nat} (ops : Integrator ι n)
    (c : FrameController ι n) (msg : SegmentMsg) :
    (segmentPointCloudCallback ops c msg).1.received_first_message = true ∧
    (segmentPointCloudCallback ops c msg).1.last_segment_msg_timestamp = msg.stamp ∧
    (segmentPointCloudCallback ops c msg).1.last_update_received = msg.now ∧
    (segmentPointCloudCallback ops c msg).1.no_update_timeout = c.no_update_timeout ∧
    (segmentPointCloudCallback ops c msg).1.segments_to_integrate =
      (if frameClosed c msg then [] else c.segments_to_integrate) ++
        (match lookupTransform (msg.tf (fromFrame c msg)) with
          | some T_G_C => [parseSegment c.enable_semantic_instance_segmentation msg T_G_C]
          | none => []) ∧
    (segmentPointCloudCallback ops c msg).2 =
      (if frameClosed c msg then (integrateFrame ops c).2 else []) ++
        (match lookupTransform (msg.tf (fromFrame c msg)) with
          | some T_G_C =>
            [IntegratorCall.computeSegmentLabelCandidates
              (parseSegment c.enable_semantic_instance_segmentation msg T_G_C)]
          | none => []) := by
  obtain ⟨f1, f2, f3, f4, f5, f6, _⟩ := integrateFrame_fields ops c
  unfold segmentPointCloudCallback fromFrame
  cases hf : frameClosed c msg <;>
    simp only [Bool.false_eq_true, if_false, if_true, f4] <;>
    cases hl : lookupTransform (msg.tf (if c.camera_frame.isEmpty = true then msg.frame_id
      else c.camera_frame)) <;>
    simp [f1, f5, f6]

theorem hasCycle_append (xs ys : List IntegratorCall) :
    hasCycle (xs ++ ys) = (hasCycle xs || hasCycle ys) := by
  unfold hasCycle
  exact List.any_append

theorem frameClosed_iff {ι : Type} {n : Nat} (c : FrameController ι n) (msg : SegmentMsg) :
    frameClosed c msg = true ↔
      c.received_first_message = true ∧ c.last_segment_msg_timestamp ≠ msg.stamp := by
  unfold frameClosed
  simp

theorem hasCycle_callback {ι : Type} {n : Nat} (ops : Integrator ι n)
    (c : FrameController ι n) (msg : SegmentMsg) :
    hasCycle (segmentPointCloudCallback ops c msg).2 = frameClosed c msg := by
  obtain ⟨_, _, _, _, _, h6⟩ := segmentPointCloudCallback_cases ops c msg
  rw [h6, hasCycle_append]
  have htail : hasCycle
      (match lookupTransform (msg.tf (fromFrame c msg)) with
        | some T_G_C =>
          [IntegratorCall.computeSegmentLabelCandidates
            (parseSegment c.enable_semantic_instance_segmentation msg T_G_C)]
        | none => []) = false := by
    cases lookupTransform (msg.tf (fromFrame c msg)) <;> rfl
  rw [htail, Bool.or_false]
  cases hf : frameClosed c msg
  · rfl
  · rw [if_pos rfl, integrateFrame_calls]
    rfl

theorem processMessages_append {ι : Type} {n : Nat} (ops : Integrator ι n) :
    ∀ (pre : List SegmentMsg) (msg : SegmentMsg) (c : FrameController ι n),
      processMessages ops (pre ++ [msg]) c =
        ((segmentPointCloudCallback ops (processMessages ops pre c).1 msg).1,
          (processMessages ops pre c).2 ++
            [(segmentPointCloudCallback ops (processMessages ops pre c).1 msg).2]) := by
  intro pre
  induction pre with
  | nil =>
    intro msg c
    rfl
  | cons m rest ih =>
    intro msg c
    have h := ih msg (segmentPointCloudCallback ops c m).1
    show processMessages ops (m :: (rest ++ [msg])) c = _
    simp only [processMessages, h, List.cons_append]

theorem fromFrame_integrateFrame {ι : Type} {n : Nat} (ops : Integrator ι n)
    (c : FrameController ι n) (msg : SegmentMsg) (b : Bool) (t s : Time) :
    fromFrame { (if frameClosed c msg then integrateFrame ops c else (c, [])).1 with
        received_first_message := b
        last_update_received := t
        last_segment_msg_timestamp := s } msg = fromFrame c msg := by
  cases frameClosed c msg <;> rfl

theorem segmentPointCloudCallback_dropped {ι : Type} {n : Nat} (ops : Integrator ι n)
    (c : FrameController ι n) (msg : SegmentMsg)
    (hl : lookupTransform (msg.tf (fromFrame c msg)) = none) :
    segmentPointCloudCallback ops c msg =
      ({ (if frameClosed c msg then integrateFrame ops c else (c, [])).1 with
          received_first_message := true
          last_update_received := msg.now
          last_segment_msg_timestamp := msg.stamp },
        (if frameClosed c msg then integrateFrame ops c else (c, [])).2) := by
  unfold segmentPointCloudCallback
  simp only [fromFrame_integrateFrame, hl]

theorem segmentPointCloudCallback_kept {ι : Type} {n : Nat} (ops : Integrator ι n)
    (c : FrameController ι n) (msg : SegmentMsg) (T_G_C : Transformation)
    (hl : lookupTransform (msg.tf (fromFrame c msg)) = some T_G_C) :
    (segmentPointCloudCallback ops c msg).1.segment_label_candidates =
        (ops.computeSegmentLabelCandidates
          (if frameClosed c msg then integrateFrame ops c else (c, [])).1.integrator
          (if frameClosed c msg then integrateFrame ops c else (c, [])).1.core.map
          (parseSegment c.enable_semantic_instance_segmentation msg T_G_C)
          (if frameClosed c msg then integrateFrame ops c else (c, [])).1.segment_label_candidates
          (if frameClosed c msg then integrateFrame ops c
            else (c, [])).1.segment_merge_candidates).2.1 ∧
      (segmentPointCloudCallback ops c msg).1.segment_merge_candidates =
        (ops.computeSegmentLabelCandidates
          (if frameClosed c msg then integrateFrame ops c else (c, [])).1.integrator
          (if frameClosed c msg then integrateFrame ops c else (c, [])).1.core.map
          (parseSegment c.enable_semantic_instance_segmentation msg T_G_C)
          (if frameClosed c msg then integrateFrame ops c else (c, [])).1.segment_label_candidates
          (if frameClosed c msg then integrateFrame ops c
            else (c, [])).1.segment_merge_candidates).2.2 := by
  unfold segmentPointCloudCallback
  simp only [fromFrame_integrateFrame, hl]
  cases frameClosed c msg <;> exact ⟨rfl, rfl⟩

/-- C13 (cleanup after a frame cycle). The integration cycle ends with the segment buffer
and both candidate buffers empty, whatever they held before. When the callback runs a
cycle, the buffer after the callback holds exactly the segment parsed from the incoming
message if its pose lookup succeeded and is empty otherwise; the candidate buffers then
hold what `computeSegmentLabelCandidates` made of empty buffers for that segment, and are
empty if the lookup failed. -/
theorem segmentPointCloudCallback_cleanup {ι : Type} {n : Nat} (ops : Integrator ι n)
    (c : FrameController ι n) (msg : SegmentMsg)
    (hcycle : hasCycle (segmentPointCloudCallback ops c msg).2 = true) :
    ((integrateFrame ops c).1.segments_to_integrate = [] ∧
      (integrateFrame ops c).1.segment_label_candidates = [] ∧
      (integrateFrame ops c).1.segment_merge_candidates = []) ∧
    (∀ T_G_C, lookupTransform (msg.tf (fromFrame c msg)) = some T_G_C →
      (segmentPointCloudCallback ops c msg).1.segments_to_integrate =
          [parseSegment c.enable_semantic_instance_segmentation msg T_G_C] ∧
        (segmentPointCloudCallback ops c msg).1.segment_label_candidates =
          (ops.computeSegmentLabelCandidates (integrateFrame ops c).1.integrator
            (integrateFrame ops c).1.core.map
            (parseSegment c.enable_semantic_instance_segmentation msg T_G_C) [] []).2.1 ∧
        (segmentPointCloudCallback ops c msg).1.segment_merge_candidates =
          (ops.computeSegmentLabelCandidates (integrateFrame ops c).1.integrator
            (integrateFrame ops c).1.core.map
            (parseSegment c.enable_semantic_instance_segmentation msg T_G_C) [] []).2.2) ∧
    (lookupTransform (msg.tf (fromFrame c msg)) = none →
      (segmentPointCloudCallback ops c msg).1.segments_to_integrate = [] ∧
        (segmentPointCloudCallback ops c msg).1.segment_label_candidates = [] ∧
        (segmentPointCloudCallback ops c msg).1.segment_merge_candidates = []) := by
  have hf : frameClosed c msg = true := by rw [← hasCycle_callback ops]; exact hcycle
  refine ⟨⟨rfl, rfl, rfl⟩, fun T hl => ?_, fun hl => ?_⟩
  · obtain ⟨_, _, _, _, h5, _⟩ := segmentPointCloudCallback_cases ops c msg
    obtain ⟨k1, k2⟩ := segmentPointCloudCallback_kept ops c msg T hl
    rw [hf, if_pos rfl] at k1 k2
    rw [hf, if_pos rfl, hl] at h5
    exact ⟨h5, k1, k2⟩
  · rw [segmentPointCloudCallback_dropped ops c msg hl, hf, if_pos rfl]
    exact ⟨rfl, rfl, rfl⟩

/-- Instance of C13: after two segments stamped 100, a segment stamped 200 closes the
frame and is alone in the buffer afterwards; had its pose lookup failed, the buffer would
be empty. -/
theorem segmentPointCloudCallback_cleanup_witness :
    hasCycle (segmentPointCloudCallback exampleIntegrator
        (processMessages exampleIntegrator [exampleMsg 100 1 true, exampleMsg 100 2 true]
          (exampleFrameController 0)).1 (exampleMsg 200 3 false)).2 = true ∧
      (processMessages exampleIntegrator [exampleMsg 100 1 true, exampleMsg 100 2 true]
          (exampleFrameController 0)).1.segments_to_integrate.length = 2 ∧
      (segmentPointCloudCallback exampleIntegrator
        (processMessages exampleIntegrator [exampleMsg 100 1 true, exampleMsg 100 2 true]
          (exampleFrameController 0)).1 (exampleMsg 200 3 true)).1.segments_to_integrate.map
            (fun s => s.stamp) = [200] ∧
      ((segmentPointCloudCallback exampleIntegrator
        (processMessages exampleIntegrator [exampleMsg 100 1 true, exampleMsg 100 2 true]
          (exampleFrameController 0)).1 (exampleMsg 200 3 false)).1.segments_to_integrate = [] ∧
        (segmentPointCloudCallback exampleIntegrator
          (processMessages exampleIntegrator [exampleMsg 100 1 true, exampleMsg 100 2 true]
            (exampleFrameController 0)).1
              (exampleMsg 200 3 false)).1.segment_label_candidates = [] ∧
        (segmentPointCloudCallback exampleIntegrator
          (processMessages exampleIntegrator [exampleMsg 100 1 true, exampleMsg 100 2 true]
            (exampleFrameController 0)).1
              (exampleMsg 200 3 false)).1.segment_merge_candidates = []) :=
  ⟨by decide, by decide, by decide,
    (segmentPointCloudCallback_cleanup exampleIntegrator
      (processMessages exampleIntegrator [exampleMsg 100 1 true, exampleMsg 100 2 true]
        (exampleFrameController 0)).1 (exampleMsg 200 3 false) (by decide)).2.2 (by decide)⟩

theorem segmentPointCloudCallback_ignores_clock {ι : Type} {n : Nat} (ops : Integrator ι n)
    (c : FrameController ι n) (t : Time) (msg : SegmentMsg) :
    segmentPointCloudCallback ops { c with last_update_received := t } msg =
      segmentPointCloudCallback ops c msg := by
  have e : frameClosed { c with last_update_received := t } msg = frameClosed c msg := rfl
  unfold segmentPointCloudCallback
  rw [e]
  cases frameClosed c msg <;> rfl

theorem lookupTransform_eq_none (tf : TfAnswer) :
    lookupTransform tf = none ↔ tf.canTransform = false ∨ tf.lookupTransform = none := by
  unfold lookupTransform
  cases h1 : tf.canTransform <;> cases h2 : tf.lookupTransform <;> simp

/-- C14 (pose-lookup failure). The lookup fails when the transform is not available or
the lookup itself throws. For a message whose lookup fails, whatever its stamp: the
callback appends nothing to the segment buffer (the buffer is the one the cycle left, or
the old one when no cycle ran), computes no candidates (no such call is made and the
candidate buffers are those the cycle left, or the old ones). When no cycle runs, in
particular when the stamp is that of the buffered frame, the buffers, the map, the
published-set, the merge record, the pending labels and the integrator are unchanged and
no call is made at all; the controller only records the reception (first-message flag,
time, stamp). After a dropped message of the buffered frame every later message is
handled exactly as if the dropped one had never arrived. -/
theorem segmentPointCloudCallback_pose_failure {ι : Type} {n : Nat} (ops : Integrator ι n)
    (c : FrameController ι n) (msg : SegmentMsg)
    (hl : lookupTransform (msg.tf (fromFrame c msg)) = none) :
    ((msg.tf (fromFrame c msg)).canTransform = false ∨
      (msg.tf (fromFrame c msg)).lookupTransform = none) ∧
    (segmentPointCloudCallback ops c msg).1.segments_to_integrate =
      (if frameClosed c msg then [] else c.segments_to_integrate) ∧
    (segmentPointCloudCallback ops c msg).1.segment_label_candidates =
      (if frameClosed c msg then [] else c.segment_label_candidates) ∧
    (segmentPointCloudCallback ops c msg).1.segment_merge_candidates =
      (if frameClosed c msg then [] else c.segment_merge_candidates) ∧
    (∀ s, IntegratorCall.computeSegmentLabelCandidates s ∉
      (segmentPointCloudCallback ops c msg).2) ∧
    (¬ (c.received_first_message = true ∧ c.last_segment_msg_timestamp ≠ msg.stamp) →
      (segmentPointCloudCallback ops c msg).2 = [] ∧
      (segmentPointCloudCallback ops c msg).1 =
        { c with
          received_first_message := true
          last_update_received := msg.now
          last_segment_msg_timestamp := msg.stamp } ∧
      (segmentPointCloudCallback ops c msg).1.segments_to_integrate =
        c.segments_to_integrate ∧
      (segmentPointCloudCallback ops c msg).1.segment_label_candidates =
        c.segment_label_candidates ∧
      (segmentPointCloudCallback ops c msg).1.segment_merge_candidates =
        c.segment_merge_candidates ∧
      (segmentPointCloudCallback ops c msg).1.core = c.core ∧
      (segmentPointCloudCallback ops c msg).1.integrator = c.integrator) ∧
    (c.received_first_message = true → c.last_segment_msg_timestamp = msg.stamp →
      ∀ later : SegmentMsg,
        segmentPointCloudCallback ops (segmentPointCloudCallback ops c msg).1 later =
          segmentPointCloudCallback ops c later) := by
  have hd := segmentPointCloudCallback_dropped ops c msg hl
  have hopen : ¬ (c.received_first_message = true ∧ c.last_segment_msg_timestamp ≠ msg.stamp) →
      frameClosed c msg = false := by
    intro hcond
    cases hh : frameClosed c msg with
    | false => rfl
    | true => exact absurd ((frameClosed_iff c msg).1 hh) hcond
  refine ⟨(lookupTransform_eq_none _).1 hl, ?_, ?_, ?_, ?_, ?_, ?_⟩
  · rw [hd]
    cases frameClosed c msg <;> rfl
  · rw [hd]
    cases frameClosed c msg <;> rfl
  · rw [hd]
    cases frameClosed c msg <;> rfl
  · intro s hs
    rw [hd] at hs
    cases hf : frameClosed c msg with
    | false =>
      rw [hf] at hs
      cases hs
    | true =>
      rw [hf, if_pos rfl, integrateFrame_calls] at hs
      simp at hs
  · intro hcond
    rw [hd, hopen hcond]
    exact ⟨rfl, rfl, rfl, rfl, rfl, rfl, rfl⟩
  · intro hrec hstamp later
    have hf : frameClosed c msg = false := hopen (fun h => h.2 hstamp)
    have hstate : (segmentPointCloudCallback ops c msg).1 =
        { c with last_update_received := msg.now } := by
      rw [hd, hf]
      cases c
      simp only [Bool.false_eq_true, if_false] at hrec hstamp ⊢
      subst hrec
      subst hstamp
      rfl
    rw [hstate, segmentPointCloudCallback_ignores_clock]

/-- Instance of C14: a dropped segment of the buffered frame (stamp 100) leaves the one
buffered segment alone and the next frame integrates exactly that segment; a dropped
segment of a new frame (stamp 200) closes the old frame and leaves an empty buffer. -/
theorem segmentPointCloudCallback_pose_failure_witness :
    lookupTransform ((exampleMsg 100 2 false).tf
        (fromFrame (processMessages exampleIntegrator [exampleMsg 100 1 true]
          (exampleFrameController 0)).1 (exampleMsg 100 2 false))) = none ∧
      (segmentPointCloudCallback exampleIntegrator
        (processMessages exampleIntegrator [exampleMsg 100 1 true]
          (exampleFrameController 0)).1 (exampleMsg 100 2 false)).1.segments_to_integrate =
        (processMessages exampleIntegrator [exampleMsg 100 1 true]
          (exampleFrameController 0)).1.segments_to_integrate ∧
      (processMessages exampleIntegrator [exampleMsg 100 1 true]
          (exampleFrameController 0)).1.segments_to_integrate.length = 1 ∧
      (processMessages exampleIntegrator
        [exampleMsg 100 1 true, exampleMsg 100 2 false, exampleMsg 200 3 true]
        (exampleFrameController 0)).2.map
          (fun calls => (integratedSegments calls).map (fun s => (s.stamp, s.label))) =
        [[], [], [(100, 7)]] ∧
      (processMessages exampleIntegrator [exampleMsg 100 1 true, exampleMsg 200 2 false]
          (exampleFrameController 0)).1.segments_to_integrate = [] :=
  ⟨by decide,
    ((segmentPointCloudCallback_pose_failure exampleIntegrator
      (processMessages exampleIntegrator [exampleMsg 100 1 true]
        (exampleFrameController 0)).1 (exampleMsg 100 2 false) (by decide)).2.2.2.2.2.1
      (by decide)).2.2.1,
    by decide, by decide, by decide⟩

/-! ## Watchdog -/

theorem bitLengthAux_le : ∀ (fuel k j : Nat), k < 2 ^ j → bitLengthAux fuel k ≤ j := by
  intro fuel
  induction fuel with
  | zero =>
    intro k j _
    exact Nat.zero_le _
  | succ f ih =>
    intro k j hk
    unfold bitLengthAux
    by_cases h0 : k = 0
    · simp [h0]
    · rw [if_neg h0]
      cases j with
      | zero =>
        simp only [pow_zero, Nat.lt_one_iff] at hk
        exact absurd hk h0
      | succ i =>
        have hhalf : k / 2 < 2 ^ i := by
          rw [Nat.div_lt_iff_lt_mul (by decide)]
          rw [pow_succ] at hk
          exact hk
        exact Nat.succ_le_succ (ih (k / 2) i hhalf)

theorem Double.round_exact (k : Int) (hk : k.natAbs < 2 ^ 53) :
    Double.round k 0 = Double.finite k 0 := by
  unfold Double.round
  by_cases h0 : k = 0
  · simp [h0]
  · have hbits : bitLength k.natAbs ≤ 53 := bitLengthAux_le _ _ _ hk
    have hlast : max ((0 : Int) + (bitLength k.natAbs : Nat) - 53) (-1074) ≤ 0 := by
      apply max_le <;> omega
    have hsmall : ¬ ((0 : Int) + (bitLength k.natAbs : Nat) > 1024) := by omega
    simp only [h0, if_false, hlast, if_true, hsmall]

theorem toSec_whole_seconds (k : Int) (hk : k.natAbs < 2 ^ 53) :
    toSec (k * 1000000000) = Double.finite k 0 := by
  have hdiv : Int.ediv (k * 1000000000) 1000000000 = k :=
    Int.mul_ediv_cancel k (by decide)
  have hmod : Int.emod (k * 1000000000) 1000000000 = 0 := Int.mul_emod_left k 1000000000
  have hzero : Double.round 0 0 = Double.finite 0 0 := by decide
  unfold toSec Double.ofInt
  rw [hdiv, hmod, Double.round_exact k hk, hzero]
  simp only [Double.nano, Double.mul, mul_zero, Double.add]
  have hz2 : Double.round 0 (-82 + 0) = Double.finite 0 0 := by decide
  rw [hz2]
  simp only [Double.add, min_self, sub_self, Int.toNat_zero, pow_zero, mul_one, zero_mul,
    add_zero]
  exact Double.round_exact k hk

/-- C15 (watchdog), amended. `noNewUpdatesReceived` computes a truth value from the
controller state and the current time and changes nothing. It returns true exactly when
a first message was received, the configured timeout compares unequal to `0.0`, and the
current time minus the time of the last received message, converted to seconds as a
`double` by `toSec`, is greater than the timeout in the comparison of `double` values.
That time is set by every run of the segment callback, also for a message whose segment
is dropped because its pose lookup failed. For an elapsed time of a whole number of
seconds and a timeout that is a whole number, both below `2 ^ 53` in size, the comparison
is the exact one. -/
theorem noNewUpdatesReceived_iff {ι : Type} {n : Nat} (c : FrameController ι n)
    (now : Time) :
    (noNewUpdatesReceived c now = true ↔
      c.received_first_message = true ∧ c.no_update_timeout.isNonZero = true ∧
        Double.gt (toSec (now - c.last_update_received)) c.no_update_timeout = true) ∧
    (c.received_first_message = false → noNewUpdatesReceived c now = false) ∧
    (c.no_update_timeout.isNonZero = false → noNewUpdatesReceived c now = false) ∧
    (∀ (ops : Integrator ι n) (msg : SegmentMsg),
      (segmentPointCloudCallback ops c msg).1.received_first_message = true ∧
      (segmentPointCloudCallback ops c msg).1.last_update_received = msg.now ∧
      (segmentPointCloudCallback ops c msg).1.no_update_timeout = c.no_update_timeout ∧
      (noNewUpdatesReceived (segmentPointCloudCallback ops c msg).1 now = true ↔
        c.no_update_timeout.isNonZero = true ∧
          Double.gt (toSec (now - msg.now)) c.no_update_timeout = true)) ∧
    (∀ (seconds timeout : Int), seconds.natAbs < 2 ^ 53 → timeout.natAbs < 2 ^ 53 →
      c.received_first_message = true →
      now - c.last_update_received = seconds * 1000000000 →
      c.no_update_timeout = Double.ofInt timeout →
      (noNewUpdatesReceived c now = true ↔ timeout ≠ 0 ∧ seconds > timeout)) := by
  have hiff : ∀ (d : FrameController ι n), noNewUpdatesReceived d now = true ↔
      d.received_first_message = true ∧ d.no_update_timeout.isNonZero = true ∧
        Double.gt (toSec (now - d.last_update_received)) d.no_update_timeout = true := by
    intro d
    unfold noNewUpdatesReceived
    cases d.received_first_message <;> cases d.no_update_timeout.isNonZero <;> simp
  refine ⟨hiff c, fun h => ?_, fun h => ?_, fun ops msg => ?_,
    fun seconds timeout hs ht hrec hel hto => ?_⟩
  · unfold noNewUpdatesReceived
    simp [h]
  · unfold noNewUpdatesReceived
    simp [h]
  · obtain ⟨g1, _, g3, g4, _⟩ := segmentPointCloudCallback_cases ops c msg
    refine ⟨g1, g3, g4, ?_⟩
    rw [hiff, g1, g3, g4]
    simp
  · rw [hiff c, hel, hto, toSec_whole_seconds seconds hs]
    unfold Double.ofInt
    rw [Double.round_exact timeout ht]
    simp [hrec, Double.isNonZero, Double.gt]

/-- Counterexample to C15 as stated. With the timeout at zero (the constructor's value)
the watchdog does not fire although a message was received at second 1 and the current
time, second 10, is later by more than the timeout. On a controller that has received no
message it does not fire although the current time minus the stored time exceeds the
timeout of 3 seconds. And with a timeout of 15/512 seconds, which is 29296875 nanoseconds,
it fires 29296875 nanoseconds after the last message, when the elapsed time equals the
timeout and does not exceed it: the conversion to seconds rounds up. -/
theorem noNewUpdatesReceived_counterexample :
    ((segmentPointCloudCallback exampleIntegrator (exampleFrameController 0)
        (exampleMsg 100 1000000000 true)).1.received_first_message = true ∧
      10000000000 - (segmentPointCloudCallback exampleIntegrator (exampleFrameController 0)
          (exampleMsg 100 1000000000 true)).1.last_update_received = 9 * 1000000000 ∧
      (segmentPointCloudCallback exampleIntegrator (exampleFrameController 0)
          (exampleMsg 100 1000000000 true)).1.no_update_timeout = Double.finite 0 0 ∧
      noNewUpdatesReceived (segmentPointCloudCallback exampleIntegrator
        (exampleFrameController 0) (exampleMsg 100 1000000000 true)).1 10000000000 = false) ∧
    (10000000000 - (exampleFrameController 3).last_update_received = 10 * 1000000000 ∧
      (exampleFrameController 3).no_update_timeout = Double.finite 3 0 ∧
      noNewUpdatesReceived (exampleFrameController 3) 10000000000 = false) ∧
    ((segmentPointCloudCallback exampleIntegrator
        (exampleFrameController (Double.finite 15 (-9)))
        (exampleMsg 100 0 true)).1.received_first_message = true ∧
      (29296875 - (segmentPointCloudCallback exampleIntegrator
        (exampleFrameController (Double.finite 15 (-9)))
        (exampleMsg 100 0 true)).1.last_update_received) * 2 ^ 9 = 15 * 1000000000 ∧
      noNewUpdatesReceived (segmentPointCloudCallback exampleIntegrator
        (exampleFrameController (Double.finite 15 (-9)))
        (exampleMsg 100 0 true)).1 29296875 = true) := by
  decide

/-- Instance of C15: with a timeout of 3 seconds, after a message received at second 1
whose segment was dropped, the watchdog is silent at second 4 and fires at second 5. -/
theorem noNewUpdatesReceived_iff_witness :
    noNewUpdatesReceived (segmentPointCloudCallback exampleIntegrator
        (exampleFrameController 3) (exampleMsg 100 1000000000 false)).1 4000000000 = false ∧
      (noNewUpdatesReceived (segmentPointCloudCallback exampleIntegrator
        (exampleFrameController 3) (exampleMsg 100 1000000000 false)).1 5000000000 = true ↔
          (3 : Int) ≠ 0 ∧ (4 : Int) > 3) ∧
      noNewUpdatesReceived (segmentPointCloudCallback exampleIntegrator
        (exampleFrameController 3) (exampleMsg 100 1000000000 false)).1 5000000000 = true :=
  ⟨by decide,
    (noNewUpdatesReceived_iff (segmentPointCloudCallback exampleIntegrator
      (exampleFrameController 3) (exampleMsg 100 1000000000 false)).1 5000000000).2.2.2.2
      4 3 (by decide) (by decide) (by decide) (by decide) rfl,
    by decide⟩

/-! ## Mesh regeneration -/

theorem updateMeshEvent_calls {σ : Type} (ops : MeshIntegrators σ) (c : MeshController σ) :
    (updateMeshEvent ops c).calls.map
        (fun call => (call.color_scheme, call.only_mesh_updated_blocks,
          call.clear_updated_flag)) =
      if c.enable_semantic_instance_segmentation then
        [(ColorScheme.LabelColor, !c.need_full_remesh, false),
          (ColorScheme.GeometricInstanceColor, !c.need_full_remesh, false),
          (ColorScheme.InstanceColor, !c.need_full_remesh, false),
          (ColorScheme.SemanticColor, !c.need_full_remesh, true)]
      else [(ColorScheme.LabelColor, !c.need_full_remesh, false)] := by
  unfold updateMeshEvent invokeAndAccumulate invokeGenerateMesh
  cases c.need_full_remesh <;> cases c.enable_semantic_instance_segmentation <;> rfl

theorem updateMeshEvent_flags {σ : Type} (ops : MeshIntegrators σ) (c : MeshController σ) :
    (∃ first rest, (updateMeshEvent ops c).calls = first :: rest ∧
      first.need_full_remesh_before = false) ∧
    List.Chain' (fun a b : MeshCall => a.need_full_remesh_after = b.need_full_remesh_before)
      (updateMeshEvent ops c).calls ∧
    (∃ last, (updateMeshEvent ops c).calls.getLast? = some last ∧
      (updateMeshEvent ops c).controller.need_full_remesh = last.need_full_remesh_after) := by
  unfold updateMeshEvent invokeAndAccumulate invokeGenerateMesh
  cases h1 : c.need_full_remesh <;> cases h2 : c.enable_semantic_instance_segmentation <;>
    simp [h1]

theorem updateMeshEvent_flag_kept {σ : Type} (ops : MeshIntegrators σ) (c : MeshController σ)
    (hkeep : ∀ s st f o k, (ops.generateMesh s st f o k).2.1 = f) :
    (updateMeshEvent ops c).controller.need_full_remesh = false := by
  unfold updateMeshEvent invokeAndAccumulate invokeGenerateMesh
  cases h1 : c.need_full_remesh <;> cases h2 : c.enable_semantic_instance_segmentation <;>
    simp [h1, hkeep]

/-- C16 (timer-driven round), amended. `updateMeshEvent` invokes the active variants in
the order Primary, Merged, Instance, Semantic (Primary alone when multi-label meshing is
off) and passes every one of them the same `only_mesh_updated_blocks`: true if the
full-remesh flag is not set on entry, false if it is. The flag is cleared on entry, before
the first variant runs: the first variant sees it lowered, every later variant sees it as
the one before left it, and when the round ends it is as the last variant left it. So if
no variant raises the flag during the round, it is false when the round ends and the next
round is an incremental one. -/
theorem updateMeshEvent_only_updated_blocks {σ : Type} (ops : MeshIntegrators σ)
    (c : MeshController σ) :
    (∀ call ∈ (updateMeshEvent ops c).calls,
      call.only_mesh_updated_blocks = !c.need_full_remesh) ∧
    (updateMeshEvent ops c).calls.map (fun call => call.color_scheme) =
      (if c.enable_semantic_instance_segmentation then
        [ColorScheme.LabelColor, ColorScheme.GeometricInstanceColor,
          ColorScheme.InstanceColor, ColorScheme.SemanticColor]
      else [ColorScheme.LabelColor]) ∧
    (∃ first rest, (updateMeshEvent ops c).calls = first :: rest ∧
      first.need_full_remesh_before = false) ∧
    List.Chain' (fun a b : MeshCall => a.need_full_remesh_after = b.need_full_remesh_before)
      (updateMeshEvent ops c).calls ∧
    (∃ last, (updateMeshEvent ops c).calls.getLast? = some last ∧
      (updateMeshEvent ops c).controller.need_full_remesh = last.need_full_remesh_after) ∧
    ((∀ s st f o k, (ops.generateMesh s st f o k).2.1 = f) →
      (updateMeshEvent ops c).controller.need_full_remesh = false ∧
      ∀ call ∈ (updateMeshEvent ops (updateMeshEvent ops c).controller).calls,
        call.only_mesh_updated_blocks = true) := by
  have hcalls := updateMeshEvent_calls ops c
  have honly : ∀ (d : MeshController σ), ∀ call ∈ (updateMeshEvent ops d).calls,
      call.only_mesh_updated_blocks = !d.need_full_remesh := by
    intro d call hcall
    have hd := updateMeshEvent_calls ops d
    have hmem : (call.color_scheme, call.only_mesh_updated_blocks, call.clear_updated_flag) ∈
        (updateMeshEvent ops d).calls.map (fun call =>
          (call.color_scheme, call.only_mesh_updated_blocks, call.clear_updated_flag)) :=
      List.mem_map_of_mem _ hcall
    rw [hd] at hmem
    split at hmem <;>
      simp only [List.mem_cons, Prod.mk.injEq, List.mem_singleton, List.not_mem_nil,
        or_false] at hmem <;> tauto
  obtain ⟨f1, f2, f3⟩ := updateMeshEvent_flags ops c
  refine ⟨honly c, ?_, f1, f2, f3, fun hkeep => ?_⟩
  · have hmap := congrArg (List.map Prod.fst) hcalls
    rw [List.map_map] at hmap
    rw [show (fun call : MeshCall => call.color_scheme) =
      Prod.fst ∘ (fun call : MeshCall => (call.color_scheme, call.only_mesh_updated_blocks,
        call.clear_updated_flag)) from rfl, hmap]
    cases c.enable_semantic_instance_segmentation <;> rfl
  · have hflag := updateMeshEvent_flag_kept ops c hkeep
    refine ⟨hflag, fun call hcall => ?_⟩
    rw [honly _ call hcall, hflag]
    rfl

/-- Counterexample to C16 as stated: with variants that raise the full-remesh flag while
they regenerate, the flag is raised when the round ends, whether or not it was raised on
entry; the round itself ran with the value the flag had on entry. -/
theorem updateMeshEvent_flag_counterexample :
    (updateMeshEvent (exampleMeshIntegrators false true)
        (exampleMeshController true true false)).controller.need_full_remesh = true ∧
      (updateMeshEvent (exampleMeshIntegrators false true)
        (exampleMeshController true true false)).calls.map
          (fun call => call.only_mesh_updated_blocks) = [false, false, false, false] ∧
      (updateMeshEvent (exampleMeshIntegrators false true)
        (exampleMeshController false false false)).controller.need_full_remesh = true := by
  decide

/-- Instance of C16: with variants that leave the flag alone, a round entered with the
flag raised runs four full passes and ends with the flag lowered, and the round after it
runs four incremental passes. -/
theorem updateMeshEvent_only_updated_blocks_witness :
    (∀ s st f o k, ((exampleMeshIntegrators true false).generateMesh s st f o k).2.1 = f) ∧
      (updateMeshEvent (exampleMeshIntegrators true false)
        (exampleMeshController true true false)).calls.map
          (fun call => call.only_mesh_updated_blocks) = [false, false, false, false] ∧
      ((updateMeshEvent (exampleMeshIntegrators true false)
          (exampleMeshController true true false)).controller.need_full_remesh = false ∧
        ∀ call ∈ (updateMeshEvent (exampleMeshIntegrators true false)
            (updateMeshEvent (exampleMeshIntegrators true false)
              (exampleMeshController true true false)).controller).calls,
          call.only_mesh_updated_blocks = true) :=
  ⟨fun _ _ f _ _ => by simp [exampleMeshIntegrators], by decide,
    (updateMeshEvent_only_updated_blocks (exampleMeshIntegrators true false)
      (exampleMeshController true true false)).2.2.2.2.2
      (fun _ _ f _ _ => by simp [exampleMeshIntegrators])⟩

theorem generateMesh_calls {σ : Type} (ops : MeshIntegrators σ) (c : MeshController σ)
    (clear_mesh : Bool) :
    (generateMesh ops c clear_mesh).calls.map
        (fun call => (call.color_scheme, call.only_mesh_updated_blocks,
          call.clear_updated_flag)) =
      (activeVariants c.enable_semantic_instance_segmentation).map
        (fun s => (s, !clear_mesh, true)) := by
  unfold generateMesh invokeAndDiscard invokeGenerateMesh activeVariants
  cases clear_mesh <;> cases c.enable_semantic_instance_segmentation <;> rfl

theorem generateMesh_flags {σ : Type} (ops : MeshIntegrators σ) (c : MeshController σ)
    (clear_mesh : Bool) :
    (∃ first rest, (generateMesh ops c clear_mesh).calls = first :: rest ∧
      first.need_full_remesh_before = c.need_full_remesh) ∧
    List.Chain' (fun a b : MeshCall => a.need_full_remesh_after = b.need_full_remesh_before)
      (generateMesh ops c clear_mesh).calls ∧
    (∃ last, (generateMesh ops c clear_mesh).calls.getLast? = some last ∧
      (generateMesh ops c clear_mesh).controller.need_full_remesh =
        last.need_full_remesh_after) := by
  unfold generateMesh invokeAndDiscard invokeGenerateMesh
  cases clear_mesh <;> cases h2 : c.enable_semantic_instance_segmentation <;> simp

theorem generateMesh_flag_kept {σ : Type} (ops : MeshIntegrators σ) (c : MeshController σ)
    (clear_mesh : Bool) (hkeep : ∀ s st f o k, (ops.generateMesh s st f o k).2.1 = f) :
    (generateMesh ops c clear_mesh).controller.need_full_remesh = c.need_full_remesh := by
  unfold generateMesh invokeAndDiscard invokeGenerateMesh
  cases clear_mesh <;> cases h2 : c.enable_semantic_instance_segmentation <;> simp [hkeep]

theorem mem_calls_of_map {call : MeshCall} {calls : List MeshCall}
    {params : List (ColorScheme × Bool × Bool)} (hcall : call ∈ calls)
    (hmap : calls.map (fun call => (call.color_scheme, call.only_mesh_updated_blocks,
      call.clear_updated_flag)) = params) :
    (call.color_scheme, call.only_mesh_updated_blocks, call.clear_updated_flag) ∈ params := by
  rw [← hmap]
  exact List.mem_map_of_mem _ hcall

/-- C17 (full-remesh flag and `Controller::generateMesh`), amended.
`Controller::generateMesh` neither reads nor writes the full-remesh flag: the arguments it
passes to the active variants depend on `clear_mesh` only (with `clear_mesh` set, every
active variant is regenerated with `only_mesh_updated_blocks = false`, flag raised or
not), the first variant sees the flag as it was on entry, and on return the flag is as
the last variant left it, so it is still raised if it was raised and no variant lowered
it. A raised flag is honoured by the next timer-driven round: `updateMeshEvent` then
passes `only_mesh_updated_blocks = false` to every active variant and lowers the flag
before the first one runs. -/
theorem generateMesh_full_remesh_flag {σ : Type} (ops : MeshIntegrators σ)
    (c : MeshController σ) (clear_mesh : Bool) :
    (generateMesh ops c clear_mesh).calls.map
        (fun call => (call.color_scheme, call.only_mesh_updated_blocks,
          call.clear_updated_flag)) =
      (activeVariants c.enable_semantic_instance_segmentation).map
        (fun s => (s, !clear_mesh, true)) ∧
    (∀ call ∈ (generateMesh ops c true).calls, call.only_mesh_updated_blocks = false) ∧
    (∃ first rest, (generateMesh ops c clear_mesh).calls = first :: rest ∧
      first.need_full_remesh_before = c.need_full_remesh) ∧
    List.Chain' (fun a b : MeshCall => a.need_full_remesh_after = b.need_full_remesh_before)
      (generateMesh ops c clear_mesh).calls ∧
    (∃ last, (generateMesh ops c clear_mesh).calls.getLast? = some last ∧
      (generateMesh ops c clear_mesh).controller.need_full_remesh =
        last.need_full_remesh_after) ∧
    ((∀ s st f o k, (ops.generateMesh s st f o k).2.1 = f) →
      (generateMesh ops c clear_mesh).controller.need_full_remesh = c.need_full_remesh) ∧
    (c.need_full_remesh = true →
      (∀ call ∈ (updateMeshEvent ops c).calls, call.only_mesh_updated_blocks = false) ∧
      (∃ first rest, (updateMeshEvent ops c).calls = first :: rest ∧
        first.need_full_remesh_before = false) ∧
      ((∀ s st f o k, (ops.generateMesh s st f o k).2.1 = f) →
        (updateMeshEvent ops c).controller.need_full_remesh = false)) := by
  obtain ⟨g1, g2, g3⟩ := generateMesh_flags ops c clear_mesh
  refine ⟨generateMesh_calls ops c clear_mesh, fun call hcall => ?_, g1, g2, g3,
    generateMesh_flag_kept ops c clear_mesh, fun hneed => ⟨fun call hcall => ?_,
      (updateMeshEvent_flags ops c).1, updateMeshEvent_flag_kept ops c⟩⟩
  · have hmem := mem_calls_of_map hcall (generateMesh_calls ops c true)
    simp only [List.mem_map, Prod.mk.injEq] at hmem
    obtain ⟨_, _, _, h, _⟩ := hmem
    exact h.symm
  · have hmem := mem_calls_of_map hcall (updateMeshEvent_calls ops c)
    rw [hneed] at hmem
    split at hmem <;>
      simp only [List.mem_cons, Prod.mk.injEq, List.mem_singleton, List.not_mem_nil,
        or_false] at hmem <;> tauto

/-- Counterexample to C17 as stated: with the flag raised and variants that leave it
alone, `generateMesh(false)` passes `only_mesh_updated_blocks = true` to all four
variants, and after `generateMesh(false)` as after `generateMesh(true)` the flag is still
raised. -/
theorem generateMesh_full_remesh_flag_counterexample :
    (exampleMeshController true true false).need_full_remesh = true ∧
      (generateMesh (exampleMeshIntegrators false false)
        (exampleMeshController true true false) false).calls.map
          (fun call => call.only_mesh_updated_blocks) = [true, true, true, true] ∧
      (generateMesh (exampleMeshIntegrators false false)
        (exampleMeshController true true false) false).controller.need_full_remesh = true ∧
      (generateMesh (exampleMeshIntegrators false false)
        (exampleMeshController true true false) true).controller.need_full_remesh = true := by
  decide

/-- Instance of C17: with the flag raised and variants that leave it alone, the flag
survives `generateMesh(true)`, and the timer-driven round that follows runs four full
passes and lowers it. -/
theorem generateMesh_full_remesh_flag_witness :
    (generateMesh (exampleMeshIntegrators false false)
        (exampleMeshController true true false) true).controller.need_full_remesh = true ∧
      ((∀ call ∈ (updateMeshEvent (exampleMeshIntegrators false false)
          (generateMesh (exampleMeshIntegrators false false)
            (exampleMeshController true true false) true).controller).calls,
          call.only_mesh_updated_blocks = false) ∧
        (∃ first rest, (updateMeshEvent (exampleMeshIntegrators false false)
          (generateMesh (exampleMeshIntegrators false false)
            (exampleMeshController true true false) true).controller).calls = first :: rest ∧
          first.need_full_remesh_before = false) ∧
        ((∀ s st f o k,
            ((exampleMeshIntegrators false false).generateMesh s st f o k).2.1 = f) →
          (updateMeshEvent (exampleMeshIntegrators false false)
            (generateMesh (exampleMeshIntegrators false false)
              (exampleMeshController true true false) true).controller
            ).controller.need_full_remesh = false)) ∧
      (updateMeshEvent (exampleMeshIntegrators false false)
        (generateMesh (exampleMeshIntegrators false false)
          (exampleMeshController true true false) true).controller
        ).controller.need_full_remesh = false :=
  ⟨by decide,
    (generateMesh_full_remesh_flag (exampleMeshIntegrators false false)
      (generateMesh (exampleMeshIntegrators false false)
        (exampleMeshController true true false) true).controller true).2.2.2.2.2.2
      (by decide),
    by decide⟩

/-- C19 (publishing in the timer-driven round), amended. `updateMeshEvent` builds and
publishes the scene mesh message of the Primary variant exactly when `publish_scene_mesh_`
is configured, whether or not a variant reported a change; the message is built from the
mesh state the round leaves behind. The reports of the variants are only accumulated into
`updated_mesh_`: after the round it is true exactly when it was true before or a variant
invoked in the round reported a change. -/
theorem updateMeshEvent_publish {σ : Type} (ops : MeshIntegrators σ) (c : MeshController σ) :
    ((updateMeshEvent ops c).scene_mesh_msgs ≠ [] ↔ c.publish_scene_mesh = true) ∧
    (updateMeshEvent ops c).scene_mesh_msgs =
      (if c.publish_scene_mesh then [(updateMeshEvent ops c).controller.mesh] else []) ∧
    (updateMeshEvent ops c).controller.updated_mesh =
      (c.updated_mesh || (updateMeshEvent ops c).calls.any (fun call => call.changed)) ∧
    (updateMeshEvent ops c).controller.publish_scene_mesh = c.publish_scene_mesh := by
  unfold updateMeshEvent invokeAndAccumulate invokeGenerateMesh
  cases h0 : c.publish_scene_mesh <;> cases h1 : c.need_full_remesh <;>
    cases h2 : c.enable_semantic_instance_segmentation <;>
    simp [h0, h1, Bool.or_assoc]

/-- Counterexample to C19 as stated: with publishing configured the scene mesh is
published although no variant reported a change; with publishing not configured nothing
is published although every variant reported one. -/
theorem updateMeshEvent_publish_counterexample :
    ((updateMeshEvent (exampleMeshIntegrators false false)
        (exampleMeshController false true true)).calls.any (fun call => call.changed) = false ∧
      (updateMeshEvent (exampleMeshIntegrators false false)
        (exampleMeshController false true true)).scene_mesh_msgs = [4]) ∧
    ((updateMeshEvent (exampleMeshIntegrators true false)
        (exampleMeshController false true false)).calls.all (fun call => call.changed) = true ∧
      (updateMeshEvent (exampleMeshIntegrators true false)
        (exampleMeshController false true false)).scene_mesh_msgs = []) := by
  decide

theorem processed_full (w : MeshWorld) : w.processed false = w.blocks.map Prod.fst := by
  unfold MeshWorld.processed
  simp

/-- C18 (dirty flags in the timer-driven round). `updateMeshEvent` passes
`clear_updated_flag = true` to the Semantic variant, the last of the four when
multi-label meshing is enabled, and `false` to every other call; with multi-label meshing
off the Primary variant is the only and last one and is invoked with `false`. With the
mesh integrator of the spec, the round then leaves the dirty flag of every block as it
was, while with multi-label meshing enabled every block the round processed is clean
afterwards. -/
theorem updateMeshEvent_clear_updated_flag {σ : Type} (ops : MeshIntegrators σ)
    (c : MeshController σ)
    (render : ColorScheme → List (BlockIndex × Nat) → BlockIndex → MeshTile)
    (cw : MeshController MeshWorld) :
    (updateMeshEvent ops c).calls.map
        (fun call => (call.color_scheme, call.clear_updated_flag)) =
      (if c.enable_semantic_instance_segmentation then
        [(ColorScheme.LabelColor, false), (ColorScheme.GeometricInstanceColor, false),
          (ColorScheme.InstanceColor, false), (ColorScheme.SemanticColor, true)]
      else [(ColorScheme.LabelColor, false)]) ∧
    (cw.enable_semantic_instance_segmentation = false →
      ∀ b, (updateMeshEvent (specIntegrators render) cw).controller.mesh.updated b =
        cw.mesh.updated b) ∧
    (cw.enable_semantic_instance_segmentation = true →
      ∀ b ∈ cw.mesh.processed (!cw.need_full_remesh),
        (updateMeshEvent (specIntegrators render) cw).controller.mesh.updated b = false) := by
  refine ⟨?_, fun hoff b => ?_, fun hon b hb => ?_⟩
  · have hmap := congrArg (List.map (fun p : ColorScheme × Bool × Bool => (p.1, p.2.2)))
      (updateMeshEvent_calls ops c)
    rw [List.map_map] at hmap
    rw [show (fun call : MeshCall => (call.color_scheme, call.clear_updated_flag)) =
      (fun p : ColorScheme × Bool × Bool => (p.1, p.2.2)) ∘
        (fun call : MeshCall => (call.color_scheme, call.only_mesh_updated_blocks,
          call.clear_updated_flag)) from rfl, hmap]
    cases c.enable_semantic_instance_segmentation <;> rfl
  · unfold updateMeshEvent invokeAndAccumulate invokeGenerateMesh
    cases h1 : cw.need_full_remesh <;>
      simp [hoff, h1, specIntegrators, specGenerateMesh]
  · unfold updateMeshEvent invokeAndAccumulate invokeGenerateMesh
    cases h1 : cw.need_full_remesh <;> rw [h1] at hb <;>
      simp [hon, h1, specIntegrators, specGenerateMesh, MeshWorld.processed] at hb ⊢
    · intro hall
      obtain ⟨⟨x, hx⟩, _⟩ := hb
      exact hall x hx
    · intro hall
      obtain ⟨x, hx⟩ := hb
      exact absurd hx (hall x)

/-- Instance of C18, the failing input: with multi-label meshing off, the round invokes
the Primary variant alone with `clear_updated_flag = false`, and the dirty block of the
example is still dirty after the round; with multi-label meshing enabled it is clean. -/
theorem updateMeshEvent_clear_updated_flag_witness :
    (updateMeshEvent (specIntegrators exampleRender)
        (exampleWorldController exampleMeshWorld false false)).calls.map
          (fun call => (call.color_scheme, call.clear_updated_flag)) =
        [(ColorScheme.LabelColor, false)] ∧
      exampleMeshWorld.updated (1, 0, 0) = true ∧
      (∀ b, (updateMeshEvent (specIntegrators exampleRender)
        (exampleWorldController exampleMeshWorld false false)).controller.mesh.updated b = exampleMeshWorld.updated b) ∧
      (updateMeshEvent (specIntegrators exampleRender)
        (exampleWorldController exampleMeshWorld false true)).controller.mesh.updated (1, 0, 0) = false :=
  ⟨by decide, by decide,
    (updateMeshEvent_clear_updated_flag (exampleMeshIntegrators false false)
      (exampleMeshController false false false) exampleRender
      (exampleWorldController exampleMeshWorld false false)).2.1 rfl,
    by decide⟩

theorem incrementalPasses_frame
    (render : ColorScheme → List (BlockIndex × Nat) → BlockIndex → MeshTile) :
    ∀ (passes : List (ColorScheme × Bool)) (w : MeshWorld),
      (incrementalPasses render passes w).blocks = w.blocks ∧
      ∀ s b, b ∉ w.blocks.map Prod.fst →
        (incrementalPasses render passes w).tiles s b = w.tiles s b := by
  intro passes
  induction passes with
  | nil =>
    intro w
    exact ⟨rfl, fun _ _ _ => rfl⟩
  | cons pass rest ih =>
    intro w
    obtain ⟨h1, h2⟩ := ih (specGenerateMesh render pass.1 w false true pass.2).1
    refine ⟨h1, fun s b hb => ?_⟩
    have hb2 : b ∉ w.processed true := by
      unfold MeshWorld.processed
      intro hmem
      exact hb (List.mem_filter.1 hmem).1
    show (incrementalPasses render rest _).tiles s b = _
    rw [h2 s b hb]
    simp [specGenerateMesh, hb2]

theorem fullPasses_spec
    (render : ColorScheme → List (BlockIndex × Nat) → BlockIndex → MeshTile) :
    ∀ (variants : List ColorScheme) (w : MeshWorld),
      (fullPasses render variants w).blocks = w.blocks ∧
      (∀ s b, (fullPasses render variants w).tiles s b =
        if s ∈ variants ∧ b ∈ w.blocks.map Prod.fst then some (render s w.blocks b)
        else w.tiles s b) ∧
      (∀ b, (fullPasses render variants w).updated b =
        if variants ≠ [] ∧ b ∈ w.blocks.map Prod.fst then false else w.updated b) := by
  intro variants
  induction variants with
  | nil =>
    intro w
    refine ⟨rfl, fun s b => ?_, fun b => ?_⟩ <;> simp [fullPasses]
  | cons v rest ih =>
    intro w
    obtain ⟨h1, h2, h3⟩ := ih (specGenerateMesh render v w false false true).1
    have hblocks : (specGenerateMesh render v w false false true).1.blocks = w.blocks := rfl
    rw [hblocks] at h1 h2 h3
    refine ⟨h1, fun s b => ?_, fun b => ?_⟩
    · show (fullPasses render rest _).tiles s b = _
      rw [h2 s b]
      by_cases hb : b ∈ w.blocks.map Prod.fst
      · by_cases hs : s ∈ rest
        · simp [hs, hb]
        · by_cases hv : s = v
          · simp [hs, hb, hv, specGenerateMesh, processed_full]
          · simp [hs, hb, hv, specGenerateMesh]
      · simp [hb, specGenerateMesh, processed_full]
    · show (fullPasses render rest _).updated b = _
      rw [h3 b]
      by_cases hb : b ∈ w.blocks.map Prod.fst
      · simp [hb, specGenerateMesh, processed_full]
      · simp [hb, specGenerateMesh, processed_full]

theorem generateMesh_spec_mesh
    (render : ColorScheme → List (BlockIndex × Nat) → BlockIndex → MeshTile)
    (cw : MeshController MeshWorld) :
    (generateMesh (specIntegrators render) cw true).controller.mesh =
      fullPasses render (activeVariants cw.enable_semantic_instance_segmentation) cw.mesh := by
  unfold generateMesh invokeAndDiscard invokeGenerateMesh activeVariants
  cases cw.enable_semantic_instance_segmentation <;> rfl

/-- C20 (full regeneration). `Controller::generateMesh` with `clear_mesh = true`, which is
what `generateMeshCallback` runs, invokes every active variant (Primary always; Semantic,
Instance and Merged exactly when multi-label meshing is enabled) with
`only_mesh_updated_blocks = false` and `clear_updated_flag = true`. With the mesh
integrator of the spec, whose full pass recomputes the tile of every allocated block from
the voxel state alone: after any two sequences of incremental passes the full
regeneration leaves the same tiles for every active variant; on every allocated block the
tile is the one computed from the voxel state, the same as regenerating from a world
without tiles; and no allocated block is left dirty. -/
theorem generateMesh_full_regeneration {σ : Type} (ops : MeshIntegrators σ)
    (c : MeshController σ)
    (render : ColorScheme → List (BlockIndex × Nat) → BlockIndex → MeshTile)
    (cw : MeshController MeshWorld) (before other : List (ColorScheme × Bool)) :
    (generateMesh ops c true).calls.map
        (fun call => (call.color_scheme, call.only_mesh_updated_blocks,
          call.clear_updated_flag)) =
      (activeVariants c.enable_semantic_instance_segmentation).map
        (fun s => (s, false, true)) ∧
    generateMeshCallback ops c = generateMesh ops c true ∧
    (∀ s ∈ activeVariants cw.enable_semantic_instance_segmentation, ∀ b,
      (generateMesh (specIntegrators render)
          { cw with mesh := incrementalPasses render before cw.mesh } true
        ).controller.mesh.tiles s b =
      (generateMesh (specIntegrators render)
          { cw with mesh := incrementalPasses render other cw.mesh } true
        ).controller.mesh.tiles s b) ∧
    (∀ s ∈ activeVariants cw.enable_semantic_instance_segmentation,
      ∀ b ∈ cw.mesh.blocks.map Prod.fst,
        (generateMesh (specIntegrators render)
            { cw with mesh := incrementalPasses render before cw.mesh } true
          ).controller.mesh.tiles s b = some (render s cw.mesh.blocks b) ∧
        (generateMesh (specIntegrators render)
            { cw with mesh := incrementalPasses render before cw.mesh } true
          ).controller.mesh.tiles s b =
        (generateMesh (specIntegrators render)
            { cw with mesh :=
              { blocks := cw.mesh.blocks, updated := fun _ => false, tiles := fun _ _ => none } }
            true).controller.mesh.tiles s b) ∧
    (∀ b ∈ cw.mesh.blocks.map Prod.fst,
      (generateMesh (specIntegrators render)
          { cw with mesh := incrementalPasses render before cw.mesh } true
        ).controller.mesh.updated b = false) ∧
    (generateMesh (specIntegrators render)
        { cw with mesh := incrementalPasses render before cw.mesh } true
      ).controller.mesh.blocks = cw.mesh.blocks := by
  have hactive : activeVariants cw.enable_semantic_instance_segmentation ≠ [] := by
    unfold activeVariants
    cases cw.enable_semantic_instance_segmentation <;> simp
  have hafter : ∀ (passes : List (ColorScheme × Bool)),
      (generateMesh (specIntegrators render)
          { cw with mesh := incrementalPasses render passes cw.mesh } true).controller.mesh =
        fullPasses render (activeVariants cw.enable_semantic_instance_segmentation)
          (incrementalPasses render passes cw.mesh) :=
    fun passes => generateMesh_spec_mesh render _
  have htiles : ∀ (passes : List (ColorScheme × Bool)),
      ∀ s ∈ activeVariants cw.enable_semantic_instance_segmentation, ∀ b,
      (generateMesh (specIntegrators render)
          { cw with mesh := incrementalPasses render passes cw.mesh } true
        ).controller.mesh.tiles s b =
        if b ∈ cw.mesh.blocks.map Prod.fst then some (render s cw.mesh.blocks b)
        else cw.mesh.tiles s b := by
    intro passes s hs b
    obtain ⟨i1, i2⟩ := incrementalPasses_frame render passes cw.mesh
    obtain ⟨_, f2, _⟩ := fullPasses_spec render
      (activeVariants cw.enable_semantic_instance_segmentation)
      (incrementalPasses render passes cw.mesh)
    rw [hafter, f2 s b, i1]
    by_cases hb : b ∈ cw.mesh.blocks.map Prod.fst
    · simp [hs, hb]
    · simp [hb, i2 s b hb]
  refine ⟨generateMesh_calls ops c true, rfl, fun s hs b => ?_, fun s hs b hb => ⟨?_, ?_⟩,
    fun b hb => ?_, ?_⟩
  · rw [htiles before s hs b, htiles other s hs b]
  · rw [htiles before s hs b, if_pos hb]
  · obtain ⟨_, f2, _⟩ := fullPasses_spec render
      (activeVariants cw.enable_semantic_instance_segmentation)
      { blocks := cw.mesh.blocks, updated := fun _ => false, tiles := fun _ _ => none }
    rw [htiles before s hs b, if_pos hb, generateMesh_spec_mesh, f2 s b]
    simp [hs, hb]
  · obtain ⟨i1, _⟩ := incrementalPasses_frame render before cw.mesh
    obtain ⟨_, _, f3⟩ := fullPasses_spec render
      (activeVariants cw.enable_semantic_instance_segmentation)
      (incrementalPasses render before cw.mesh)
    rw [hafter, f3 b, i1]
    simp [hactive, hb]
  · obtain ⟨i1, _⟩ := incrementalPasses_frame render before cw.mesh
    obtain ⟨f1, _, _⟩ := fullPasses_spec render
      (activeVariants cw.enable_semantic_instance_segmentation)
      (incrementalPasses render before cw.mesh)
    rw [hafter, f1, i1]

/-- Instance of C20 on the example world (two blocks with voxel states 5 and 6, the
second dirty): an incremental Primary pass alone meshes only the dirty block; the full
regeneration after it gives both blocks their tile, as it does with no pass before, and
leaves no block dirty. -/
theorem generateMesh_full_regeneration_witness :
    (incrementalPasses exampleRender [(ColorScheme.LabelColor, true)] exampleMeshWorld).tiles
        ColorScheme.LabelColor (0, 0, 0) = none ∧
      (incrementalPasses exampleRender [(ColorScheme.LabelColor, true)] exampleMeshWorld).tiles
        ColorScheme.LabelColor (1, 0, 0) = some 6 ∧
      (generateMesh (specIntegrators exampleRender)
        (exampleWorldController (incrementalPasses exampleRender
          [(ColorScheme.LabelColor, true)] exampleMeshWorld) false false) true
        ).controller.mesh.tiles ColorScheme.LabelColor (0, 0, 0) = some 5 ∧
      (∀ s ∈ activeVariants
          (exampleWorldController exampleMeshWorld false false
            ).enable_semantic_instance_segmentation, ∀ b,
        (generateMesh (specIntegrators exampleRender)
            { exampleWorldController exampleMeshWorld false false with
              mesh := incrementalPasses exampleRender [(ColorScheme.LabelColor, true)]
                (exampleWorldController exampleMeshWorld false false).mesh } true
          ).controller.mesh.tiles s b =
        (generateMesh (specIntegrators exampleRender)
            { exampleWorldController exampleMeshWorld false false with
              mesh := incrementalPasses exampleRender []
                (exampleWorldController exampleMeshWorld false false).mesh } true
          ).controller.mesh.tiles s b) :=
  ⟨by decide, by decide, by decide,
    (generateMesh_full_regeneration (exampleMeshIntegrators false false)
      (exampleMeshController false false false) exampleRender
      (exampleWorldController exampleMeshWorld false false)
      [(ColorScheme.LabelColor, true)] []).2.2.1⟩

/-! ## The mesh mutex -/

theorem lockScoped_mono (g1 g2 : MeshEvent → Bool) (hle : ∀ e, g2 e = true → g1 e = true) :
    ∀ (events : List MeshEvent) (held : Bool),
      lockScoped g1 held events = true → lockScoped g2 held events = true := by
  intro events
  induction events with
  | nil =>
    intro held h
    exact h
  | cons e rest ih =>
    intro held h
    cases e <;> simp only [lockScoped, Bool.and_eq_true, Bool.or_eq_true,
      Bool.not_eq_true'] at h ⊢ <;> refine ⟨?_, ih _ h.2⟩
    all_goals first
      | exact h.1
      | (rcases h.1 with h1 | h1
         · left
           cases hg : g2 _ with
           | false => rfl
           | true => rw [hle _ hg] at h1; cases h1
         · right
           exact h1)

theorem lockScoped_held (guarded : MeshEvent → Bool) (e : MeshEvent)
    (hg : guarded e = true) (hl : e ≠ MeshEvent.lock) (hu : e ≠ MeshEvent.unlock) :
    ∀ (before after : List MeshEvent) (held : Bool),
      lockScoped guarded held (before ++ e :: after) = true → heldAfter held before = true := by
  intro before
  induction before with
  | nil =>
    intro after held h
    cases e <;> simp_all [lockScoped, heldAfter]
  | cons x rest ih =>
    intro after held h
    cases x <;> simp only [List.cons_append, lockScoped, Bool.and_eq_true] at h <;>
      simp only [heldAfter] <;> exact ih after _ h.2

theorem runSchedule_append :
    ∀ (before after : List (ThreadId × MeshEvent)) (holder last : Option ThreadId),
      runSchedule holder (before ++ after) = some last →
      ∃ mid, runSchedule holder before = some mid ∧ runSchedule mid after = some last := by
  intro before
  induction before with
  | nil =>
    intro after holder last h
    exact ⟨holder, rfl, h⟩
  | cons step rest ih =>
    intro after holder last h
    simp only [List.cons_append, runSchedule] at h ⊢
    cases hm : mutexStep holder step.1 step.2 with
    | none =>
      rw [hm] at h
      cases h
    | some next =>
      rw [hm] at h
      exact ih after next last h

theorem threadEvents_cons (t : ThreadId) (step : ThreadId × MeshEvent)
    (rest : List (ThreadId × MeshEvent)) :
    threadEvents t (step :: rest) =
      if step.1 = t then step.2 :: threadEvents t rest else threadEvents t rest := by
  unfold threadEvents
  by_cases h : step.1 = t <;> simp [List.filter_cons, h]

theorem threadEvents_append (t : ThreadId) (before after : List (ThreadId × MeshEvent)) :
    threadEvents t (before ++ after) = threadEvents t before ++ threadEvents t after := by
  unfold threadEvents
  simp

theorem runSchedule_holder :
    ∀ (schedule : List (ThreadId × MeshEvent)) (holder last : Option ThreadId),
      runSchedule holder schedule = some last →
      ∀ t, heldAfter (decide (holder = some t)) (threadEvents t schedule) =
        decide (last = some t) := by
  intro schedule
  induction schedule with
  | nil =>
    intro holder last h t
    simp only [runSchedule, Option.some.injEq] at h
    subst h
    rfl
  | cons step rest ih =>
    intro holder last h t
    obtain ⟨t0, e⟩ := step
    simp only [runSchedule] at h
    rw [threadEvents_cons]
    cases hm : mutexStep holder t0 e with
    | none =>
      rw [hm] at h
      cases h
    | some next =>
      rw [hm] at h
      have hrest := ih next last h t
      cases e <;> simp only [mutexStep] at hm
      case lock =>
        split at hm
        · rename_i hfree
          simp only [Option.some.injEq] at hm
          subst hm
          subst hfree
          by_cases ht : t0 = t
          · subst ht
            simpa [heldAfter] using hrest
          · simpa [heldAfter, ht] using hrest
        · cases hm
      case unlock =>
        split at hm
        · rename_i hheld
          simp only [Option.some.injEq] at hm
          subst hm
          subst hheld
          by_cases ht : t0 = t
          · subst ht
            simpa [heldAfter] using hrest
          · simpa [heldAfter, ht] using hrest
        · cases hm
      all_goals
        simp only [Option.some.injEq] at hm
        subst hm
        by_cases ht : t0 = t
        · simpa [heldAfter, ht] using hrest
        · simpa [heldAfter, ht] using hrest

theorem updateMeshEventEvents_scoped {σ : Type} (ops : MeshIntegrators σ)
    (c : MeshController σ) :
    lockScoped (fun _ => true) false (updateMeshEventEvents ops c) = true := by
  unfold updateMeshEventEvents updateMeshEvent invokeAndAccumulate invokeGenerateMesh
  cases c.need_full_remesh <;> cases c.enable_semantic_instance_segmentation <;>
    cases c.publish_scene_mesh <;> rfl

theorem generateMeshEvents_scoped {σ : Type} (ops : MeshIntegrators σ)
    (c : MeshController σ) (clear_mesh : Bool) :
    lockScoped (fun e => !e.writesFile) false (generateMeshEvents ops c clear_mesh) = true ∧
    (lockScoped MeshEvent.touchesMeshLayers false (generateMeshEvents ops c clear_mesh) = true ↔
      c.mesh_filename = []) := by
  unfold generateMeshEvents generateMesh invokeAndDiscard invokeGenerateMesh
  cases hname : c.mesh_filename with
  | nil =>
    cases clear_mesh <;> cases c.enable_semantic_instance_segmentation <;>
      cases c.publish_scene_mesh <;> exact ⟨rfl, by simp; rfl⟩
  | cons a rest =>
    cases clear_mesh <;> cases c.enable_semantic_instance_segmentation <;>
      cases c.publish_scene_mesh <;> refine ⟨rfl, ?_⟩ <;> simp <;> rfl

theorem integratePointCloud_scoped (guarded : MeshEvent → Bool) :
    ∀ (segments : List Segment),
      lockScoped guarded true
        (segments.map (fun _ => MeshEvent.integratePointCloud) ++ [MeshEvent.unlock]) = true := by
  intro segments
  induction segments with
  | nil => rfl
  | cons s rest ih =>
    show (_ && lockScoped guarded true
      (rest.map (fun _ => MeshEvent.integratePointCloud) ++ [MeshEvent.unlock])) = true
    rw [ih]
    simp

theorem segmentPointCloudCallbackEvents_scoped {ι : Type} {n : Nat} (ops : Integrator ι n)
    (c : FrameController ι n) (msg : SegmentMsg) :
    lockScoped (fun _ => true) false (segmentPointCloudCallbackEvents ops c msg) = true := by
  unfold segmentPointCloudCallbackEvents
  split
  · simp only [List.singleton_append, List.cons_append, lockScoped, Bool.not_false,
      Bool.true_and]
    exact integratePointCloud_scoped _ _
  · rfl

theorem visualizeMeshEvents_scoped :
    ∀ rounds, lockScoped (fun _ => true) false (visualizeMeshEvents rounds) = true := by
  intro rounds
  induction rounds with
  | zero => rfl
  | succ k ih =>
    show (_ && (_ && (_ && lockScoped (fun _ => true) false (visualizeMeshEvents k)))) = true
    rw [ih]
    rfl

/-- C21 (mesh mutex), amended. In `updateMeshEvent` every event (the variants'
`generateMesh` calls and the building of the mesh message) happens while
`updated_mesh_mutex_` is held; in `Controller::generateMesh` every event other than the
writing of PLY files does, while the PLY files are written after the guard's scope has
ended, so the whole call keeps the mesh accesses under the mutex exactly when no mesh
file name is configured; in `segmentPointCloudCallback` the integration loop runs under
the same mutex; the render reader of the spec reads under it. For threads whose guarded
events all lie in such lock scopes, in every interleaving the mutex allows, each guarded
event is made by the thread that holds the mutex at that moment: the guarded accesses of
different threads are serialized. -/
theorem mesh_mutex_lock_scope {σ ι : Type} {n : Nat} (ops : MeshIntegrators σ)
    (c : MeshController σ) (clear_mesh : Bool) (iops : Integrator ι n)
    (fc : FrameController ι n) (msg : SegmentMsg) (rounds : Nat)
    (guarded : MeshEvent → Bool) (schedule : List (ThreadId × MeshEvent)) :
    lockScoped (fun _ => true) false (updateMeshEventEvents ops c) = true ∧
    lockScoped (fun e => !e.writesFile) false (generateMeshEvents ops c clear_mesh) = true ∧
    (lockScoped MeshEvent.touchesMeshLayers false (generateMeshEvents ops c clear_mesh) = true ↔
      c.mesh_filename = []) ∧
    lockScoped (fun _ => true) false (segmentPointCloudCallbackEvents iops fc msg) = true ∧
    lockScoped (fun _ => true) false (visualizeMeshEvents rounds) = true ∧
    (runSchedule none schedule ≠ none →
      (∀ t ∈ schedule.map Prod.fst,
        lockScoped guarded false (threadEvents t schedule) = true) →
      ∀ before t e after, schedule = before ++ (t, e) :: after → guarded e = true →
        e ≠ MeshEvent.lock → e ≠ MeshEvent.unlock →
        runSchedule none before = some (some t)) := by
  refine ⟨updateMeshEventEvents_scoped ops c, (generateMeshEvents_scoped ops c clear_mesh).1,
    (generateMeshEvents_scoped ops c clear_mesh).2,
    segmentPointCloudCallbackEvents_scoped iops fc msg, visualizeMeshEvents_scoped rounds,
    fun hrun hscoped before t e after hsplit hg hl hu => ?_⟩
  cases hlast : runSchedule none schedule with
  | none => exact absurd hlast hrun
  | some last =>
    rw [hsplit] at hlast
    obtain ⟨mid, hmid, _⟩ := runSchedule_append before ((t, e) :: after) none last hlast
    have hmem : t ∈ schedule.map Prod.fst := by
      rw [hsplit]
      simp
    have hthread := hscoped t hmem
    rw [hsplit, threadEvents_append, threadEvents_cons, if_pos rfl] at hthread
    have hheld := lockScoped_held guarded e hg hl hu _ _ _ hthread
    have hinv := runSchedule_holder before none mid hmid t
    simp only [decide_False, reduceCtorEq] at hinv
    rw [hheld] at hinv
    rw [hmid]
    have := of_decide_eq_true hinv.symm
    rw [this]

/-- Counterexample to C21 as stated: with a mesh file name configured,
`Controller::generateMesh` writes the PLY file of the Primary mesh layer after it has
released the mutex; in the example schedule, which the mutex allows, thread 0 writes the
file while thread 1, in `updateMeshEvent`, holds the mutex and has not yet regenerated the
same layer. -/
theorem mesh_mutex_lock_scope_counterexample :
    threadEvents 0 (exampleSchedule true) =
        generateMeshEvents (exampleMeshIntegrators true false)
          (exampleSavingController true) true ∧
      threadEvents 1 (exampleSchedule true) =
        updateMeshEventEvents (exampleMeshIntegrators true false)
          (exampleSavingController true) ∧
      threadEvents 2 (exampleSchedule true) = visualizeMeshEvents 1 ∧
      runSchedule none (exampleSchedule true) = some none ∧
      (exampleSchedule true)[5]? =
        some (0, MeshEvent.outputMeshLayerAsPly ColorScheme.LabelColor) ∧
      (MeshEvent.outputMeshLayerAsPly ColorScheme.LabelColor).touchesMeshLayers = true ∧
      runSchedule none ((exampleSchedule true).take 5) = some (some 1) ∧
      (exampleSchedule true)[6]? = some (1, MeshEvent.generateMesh ColorScheme.LabelColor) ∧
      lockScoped MeshEvent.touchesMeshLayers false
        (generateMeshEvents (exampleMeshIntegrators true false)
          (exampleSavingController true) true) = false := by
  decide

/-- Instance of C21: in the example schedule without a mesh file name the three threads
run a full regeneration, a timer-driven regeneration and a render read; the schedule is
one the mutex allows, and the regeneration of thread 1 happens while thread 1 holds the
mutex. -/
theorem mesh_mutex_lock_scope_witness :
    threadEvents 0 (exampleSchedule false) =
        generateMeshEvents (exampleMeshIntegrators true false)
          (exampleSavingController false) true ∧
      threadEvents 1 (exampleSchedule false) =
        updateMeshEventEvents (exampleMeshIntegrators true false)
          (exampleSavingController false) ∧
      threadEvents 2 (exampleSchedule false) = visualizeMeshEvents 1 ∧
      runSchedule none (exampleSchedule false) ≠ none ∧
      runSchedule none ((exampleSchedule false).take 5) = some (some 1) :=
  ⟨by decide, by decide, by decide, by decide,
    (mesh_mutex_lock_scope (exampleMeshIntegrators true false) (exampleSavingController false)
      true exampleIntegrator (exampleFrameController 0) (exampleMsg 100 1 true) 1
      MeshEvent.touchesMeshLayers (exampleSchedule false)).2.2.2.2.2
      (by decide) (by decide) ((exampleSchedule false).take 5) 1
      (MeshEvent.generateMesh ColorScheme.LabelColor) ((exampleSchedule false).drop 6)
      (by decide) rfl (by decide) (by decide)⟩

/-! ## The incremental path of `Controller::generateMesh` -/

theorem assignLabelsFrom_stamp (labels : Nat → Label) :
    ∀ (segments : List Segment) (j : Nat),
      ∀ s ∈ assignLabelsFrom labels j segments, ∃ s0 ∈ segments, s0.stamp = s.stamp := by
  intro segments
  induction segments with
  | nil =>
    intro j s hs
    cases hs
  | cons a rest ih =>
    intro j s hs
    unfold assignLabelsFrom at hs
    rcases List.mem_cons.1 hs with h | h
    · exact ⟨a, List.mem_cons_self _ _, by rw [h]⟩
    · obtain ⟨s0, hs0, e⟩ := ih (j + 1) s h
      exact ⟨s0, List.mem_cons_of_mem _ hs0, e⟩

theorem segmentPointCloudCallback_homogeneous_step {ι : Type} {n : Nat} (ops : Integrator ι n)
    (c : FrameController ι n) (msg : SegmentMsg)
    (hfresh : c.received_first_message = false → c.segments_to_integrate = [])
    (hstamp : ∀ s ∈ c.segments_to_integrate, s.stamp = c.last_segment_msg_timestamp) :
    ((segmentPointCloudCallback ops c msg).1.received_first_message = false →
      (segmentPointCloudCallback ops c msg).1.segments_to_integrate = []) ∧
    (∀ s ∈ (segmentPointCloudCallback ops c msg).1.segments_to_integrate,
      s.stamp = (segmentPointCloudCallback ops c msg).1.last_segment_msg_timestamp) ∧
    (∀ s ∈ integratedSegments (segmentPointCloudCallback ops c msg).2,
      s.stamp = c.last_segment_msg_timestamp ∧ s.stamp ≠ msg.stamp) := by
  obtain ⟨g1, g2, _, _, g5, g6⟩ := segmentPointCloudCallback_cases ops c msg
  refine ⟨fun h => ?_, fun s hs => ?_, fun s hs => ?_⟩
  · rw [g1] at h
    cases h
  · rw [g2]
    rw [g5] at hs
    rcases List.mem_append.1 hs with h | h
    · cases hf : frameClosed c msg with
      | true =>
        rw [hf, if_pos rfl] at h
        cases h
      | false =>
        rw [hf] at h
        simp only [Bool.false_eq_true, if_false] at h
        cases hr : c.received_first_message with
        | false =>
          rw [hfresh hr] at h
          cases h
        | true =>
          have hsame : c.last_segment_msg_timestamp = msg.stamp := by
            by_contra hne
            have := (frameClosed_iff c msg).2 ⟨hr, hne⟩
            rw [hf] at this
            cases this
          rw [hstamp s h, hsame]
    · cases hl : lookupTransform (msg.tf (fromFrame c msg)) with
      | none =>
        rw [hl] at h
        cases h
      | some T =>
        rw [hl] at h
        simp only [List.mem_singleton] at h
        rw [h]
        rfl
  · rw [g6, integratedSegments_append] at hs
    have hcyc : s ∈ integratedSegments
        (if frameClosed c msg = true then (integrateFrame ops c).2 else []) := by
      rcases List.mem_append.1 hs with h | h
      · exact h
      · cases hl : lookupTransform (msg.tf (fromFrame c msg)) <;> rw [hl] at h <;> cases h
    clear hs
    have hs := hcyc
    cases hf : frameClosed c msg with
    | false =>
      rw [hf] at hs
      cases hs
    | true =>
      rw [hf, if_pos rfl, integrateFrame_calls, integratedSegments_append,
        integratedSegments_append, integratedSegments_map] at hs
      simp only [integratedSegments, List.nil_append, List.append_nil] at hs
      obtain ⟨s0, hs0, e⟩ := assignLabelsFrom_stamp _ _ 0 s hs
      have hc := (frameClosed_iff c msg).1 hf
      rw [← e, hstamp s0 hs0]
      exact ⟨rfl, hc.2⟩

theorem processMessages_homogeneous {ι : Type} {n : Nat} (ops : Integrator ι n) :
    ∀ (msgs : List SegmentMsg) (c : FrameController ι n),
      (c.received_first_message = false → c.segments_to_integrate = []) →
      (∀ s ∈ c.segments_to_integrate, s.stamp = c.last_segment_msg_timestamp) →
      ((processMessages ops msgs c).1.received_first_message = false →
        (processMessages ops msgs c).1.segments_to_integrate = []) ∧
      (∀ s ∈ (processMessages ops msgs c).1.segments_to_integrate,
        s.stamp = (processMessages ops msgs c).1.last_segment_msg_timestamp) ∧
      (∀ calls ∈ (processMessages ops msgs c).2, ∀ s1 ∈ integratedSegments calls,
        ∀ s2 ∈ integratedSegments calls, s1.stamp = s2.stamp) := by
  intro msgs
  induction msgs with
  | nil =>
    intro c hfresh hstamp
    exact ⟨hfresh, hstamp, fun calls hcalls => by cases hcalls⟩
  | cons msg rest ih =>
    intro c hfresh hstamp
    obtain ⟨k1, k2, k3⟩ := segmentPointCloudCallback_homogeneous_step ops c msg hfresh hstamp
    obtain ⟨i1, i2, i3⟩ := ih (segmentPointCloudCallback ops c msg).1 k1 k2
    refine ⟨i1, i2, fun calls hcalls s1 h1 s2 h2 => ?_⟩
    rcases List.mem_cons.1 hcalls with h | h
    · rw [h] at h1 h2
      rw [(k3 s1 h1).1, (k3 s2 h2).1]
    · exact i3 calls h s1 h1 s2 h2

/-- C23 (frame-buffer homogeneity). Start from a controller whose buffer is empty as long
as no message was received and whose buffered segments all carry the stored stamp (the
constructor's state is one). Then after every run of `segmentPointCloudCallback` over any
message sequence, with any pattern of pose-lookup successes and failures, every segment
in the buffer comes from a message whose stamp is `last_segment_msg_timestamp_`; after
the callback for a message that is the stamp of that message. The segments a cycle
integrates all carry one stamp: the stamp stored before the message that triggered the
cycle, which differs from the stamp of that message. -/
theorem segmentPointCloudCallback_frame_homogeneous {ι : Type} {n : Nat}
    (ops : Integrator ι n) (msgs : List SegmentMsg) (c0 : FrameController ι n)
    (hfresh : c0.received_first_message = false → c0.segments_to_integrate = [])
    (hstamp : ∀ s ∈ c0.segments_to_integrate, s.stamp = c0.last_segment_msg_timestamp) :
    (∀ s ∈ (processMessages ops msgs c0).1.segments_to_integrate,
      s.stamp = (processMessages ops msgs c0).1.last_segment_msg_timestamp) ∧
    (∀ calls ∈ (processMessages ops msgs c0).2, ∀ s1 ∈ integratedSegments calls,
      ∀ s2 ∈ integratedSegments calls, s1.stamp = s2.stamp) ∧
    (∀ pre msg post, msgs = pre ++ msg :: post →
      (processMessages ops (pre ++ [msg]) c0).1.last_segment_msg_timestamp = msg.stamp ∧
      (∀ s ∈ (processMessages ops (pre ++ [msg]) c0).1.segments_to_integrate,
        s.stamp = msg.stamp) ∧
      (∀ s ∈ integratedSegments
          (segmentPointCloudCallback ops (processMessages ops pre c0).1 msg).2,
        s.stamp = (processMessages ops pre c0).1.last_segment_msg_timestamp ∧
          s.stamp ≠ msg.stamp)) := by
  obtain ⟨_, i2, i3⟩ := processMessages_homogeneous ops msgs c0 hfresh hstamp
  refine ⟨i2, i3, fun pre msg post _ => ?_⟩
  obtain ⟨p1, p2, _⟩ := processMessages_homogeneous ops pre c0 hfresh hstamp
  obtain ⟨_, k2, k3⟩ := segmentPointCloudCallback_homogeneous_step ops
    (processMessages ops pre c0).1 msg p1 p2
  obtain ⟨_, g2, _⟩ := segmentPointCloudCallback_cases ops (processMessages ops pre c0).1 msg
  have hst : (processMessages ops (pre ++ [msg]) c0).1 =
      (segmentPointCloudCallback ops (processMessages ops pre c0).1 msg).1 := by
    rw [processMessages_append]
  rw [hst]
  refine ⟨g2, fun s hs => ?_, k3⟩
  rw [k2 s hs, g2]

/-- Instance of C23: segments stamped 100, 100 (dropped), 100, then 200 and 300: after the
third message the buffer holds two segments stamped 100, after the last one segment
stamped 300, and the two cycles integrate stamps 100, 100 and 200. -/
theorem segmentPointCloudCallback_frame_homogeneous_witness :
    ((exampleFrameController 0).received_first_message = false →
        (exampleFrameController 0).segments_to_integrate = []) ∧
      (processMessages exampleIntegrator
        [exampleMsg 100 1 true, exampleMsg 100 2 false, exampleMsg 100 3 true]
        (exampleFrameController 0)).1.segments_to_integrate.map (fun s => s.stamp) =
          [100, 100] ∧
      (processMessages exampleIntegrator
        [exampleMsg 100 1 true, exampleMsg 100 2 false, exampleMsg 100 3 true,
          exampleMsg 200 4 true, exampleMsg 300 5 true]
        (exampleFrameController 0)).2.map
          (fun calls => (integratedSegments calls).map (fun s => s.stamp)) =
        [[], [], [], [100, 100], [200]] ∧
      (∀ s ∈ (processMessages exampleIntegrator
          [exampleMsg 100 1 true, exampleMsg 100 2 false, exampleMsg 100 3 true,
            exampleMsg 200 4 true, exampleMsg 300 5 true]
          (exampleFrameController 0)).1.segments_to_integrate,
        s.stamp = (processMessages exampleIntegrator
          [exampleMsg 100 1 true, exampleMsg 100 2 false, exampleMsg 100 3 true,
            exampleMsg 200 4 true, exampleMsg 300 5 true]
          (exampleFrameController 0)).1.last_segment_msg_timestamp) ∧
      (processMessages exampleIntegrator
        [exampleMsg 100 1 true, exampleMsg 100 2 false, exampleMsg 100 3 true,
          exampleMsg 200 4 true, exampleMsg 300 5 true]
        (exampleFrameController 0)).1.segments_to_integrate.map (fun s => s.stamp) = [300] :=
  ⟨fun _ => rfl, by decide, by decide,
    (segmentPointCloudCallback_frame_homogeneous exampleIntegrator
      [exampleMsg 100 1 true, exampleMsg 100 2 false, exampleMsg 100 3 true,
        exampleMsg 200 4 true, exampleMsg 300 5 true]
      (exampleFrameController 0) (fun _ => rfl) (fun s hs => by cases hs)).1,
    by decide⟩
end voxblox_gsm
